import Mathlib

/-!
Verification development for the aws-az-failure-chaostoolkit repository.

The Python source is shallowly embedded: every AWS API interaction is
modelled as a pure function over an explicit world state, and every
mutating API call additionally appends an `ApiCall` value to a trace.
Fallible code returns `Except String`.  File-system interaction is
modelled by the `FS` type; a state document written by `fail_az` is a
typed value (JSON well-formedness of files on disk is assumed, since the
documents written by the embedded code are always well-formed).
-/

namespace AzChaos

/-- Trace entries for every mutating AWS API call issued by the embedded
code.  Read-only calls are answered directly from the world state and do
not appear in traces. -/
inductive ApiCall where
  | updateAsgSubnetsCall (asg : String) (subnetIds : List String)
  | updateAsgCapacityCall (asg : String) (minSize maxSize desiredCapacity : Nat)
  | suspendAsgCall (asg : String) (processNames : Option (List String))
  | resumeAsgCall (asg : String) (processNames : Option (List String))
  | createNetworkAclCall (vpcId : String) (aclId : String)
  | createNetworkAclEntryCall (aclId : String) (ruleNum : Nat) (egress : Bool)
  | replaceNaclAssociationCall (aclId : String) (associationId : String) (newAssociationId : String)
  | deleteNetworkAclCall (aclId : String)
  | stopInstancesCall (instanceIds : List String) (force : Bool)
  | terminateInstancesCall (instanceIds : List String)
  | cancelSpotRequestsCall (requestIds : List String)
  | startInstancesCall (instanceIds : List String)
  | setSubnetsCall (lbArn : String) (subnetIds : List String)
  | detachLbSubnetsCall (lbName : String) (subnetIds : List String)
  | attachLbSubnetsCall (lbName : String) (subnetIds : List String)
  | disableLbAzsCall (lbName : String) (azs : List String)
  | enableLbAzsCall (lbName : String) (azs : List String)
  | rebootBrokerCall (brokerId : String)
deriving DecidableEq, Repr

/-- A node of the local file system: either a directory or a regular file
holding a (typed) state document. -/
inductive FsNode (δ : Type) where
  | dir : FsNode δ
  | file : δ → FsNode δ
deriving DecidableEq, Repr

/-- Minimal file-system model: a finite map from paths to nodes. -/
structure FS (δ : Type) where
  entries : List (String × FsNode δ)
deriving DecidableEq, Repr

def FS.lookup {δ : Type} (fs : FS δ) (path : String) : Option (FsNode δ) :=
  (fs.entries.find? (fun e => e.1 = path)).map (·.2)

/-- Embeds `os.path.isdir`. -/
def FS.isDir {δ : Type} (fs : FS δ) (path : String) : Bool :=
  match fs.lookup path with
  | some .dir => true
  | _ => false

/-- Embeds `os.path.isfile` followed by reading the file's document. -/
def FS.getFile {δ : Type} (fs : FS δ) (path : String) : Option δ :=
  match fs.lookup path with
  | some (.file d) => some d
  | _ => none

/-- Embeds `json.dump(state, open(path, 'w'))` / `write_state`: whole-file
overwrite. -/
def FS.write {δ : Type} (fs : FS δ) (path : String) (d : δ) : FS δ :=
  ⟨(path, .file d) :: fs.entries.filter (fun e => e.1 ≠ path)⟩

/-- Embeds `os.remove`.  Removal of an existing regular file succeeds; the
`try/except` around `os.remove` in the source makes removal failures
non-fatal, so no error case is modelled. -/
def FS.remove {δ : Type} (fs : FS δ) (path : String) : FS δ :=
  ⟨fs.entries.filter (fun e => e.1 ≠ path)⟩

/-- Second phase of `os.path.splitext` on a reversed character list:
after the candidate extension dot has been found, decides whether some
non-dot character precedes it inside the basename (Python treats a
basename consisting only of leading dots as having no extension). -/
def extDotOk (rcs : List Char) : Bool :=
  match rcs with
  | [] => false
  | c :: rest => if c = '/' then false else if c = '.' then extDotOk rest else true

/-- First phase of `os.path.splitext` on a reversed character list:
scans from the end of the path for the extension dot, failing on a path
separator.  Returns the length of the extension (dot included). -/
def extLen (rcs : List Char) (n : Nat) : Option Nat :=
  match rcs with
  | [] => none
  | c :: rest =>
    if c = '/' then none
    else if c = '.' then (if extDotOk rest then some (n + 1) else none)
    else extLen rest (n + 1)

/-- ASCII lowering, modelling Python `str.lower()` on the ASCII paths and
service names involved (kernel-reducible, unlike `String.toLower`). -/
def lowerChar (c : Char) : Char :=
  if ('A' ≤ c ∧ c ≤ 'Z') then Char.ofNat (c.toNat + 32) else c

def lowerString (s : String) : String := String.mk (s.data.map lowerChar)

/-- Embeds `os.path.splitext` (posix flavour). -/
def splitext (p : String) : String × String :=
  match extLen p.data.reverse 0 with
  | none => (p, "")
  | some l => (String.mk (p.data.take (p.data.length - l)), String.mk (p.data.drop (p.data.length - l)))

/-- Embeds `validate_fail_az_path` from `azchaosaws/helpers.py`.
`dryRunOf` extracts the `DryRun` field of a deserialized state document
(the `json.load` of an existing file is assumed to succeed and contain a
`DryRun` key, which holds for every document the embedded code writes).
Returns the normalized path. -/
def validateFailAzPath {δ : Type} (dryRunOf : δ → Bool) (failIfExists : Bool)
    (path : String) (service : String) (fs : FS δ) : Except String String :=
  if fs.isDir path then
    .error ("path you provided is a path to a directory")
  else
    let ext := (splitext path).2
    let path := if lowerString ext = (".json") then path else path ++ (".") ++ lowerString service ++ (".json")
    match fs.getFile path with
    | some existingState =>
      if failIfExists then
        if ¬ dryRunOf existingState then
          .error ("Existing state file found in path provided")
        else
          .ok path
      else
        .ok path
    | none =>
      if ¬ failIfExists then
        .error ("To rollback AZ failure, you must specify the path to the file generated from fail_az")
      else
        .ok path

/-- Normalized path computed by `validate_fail_az_path` (the pure
path-rewrite part, exposed for stating theorems). -/
def normalizePath (path : String) (service : String) : String :=
  if lowerString (splitext path).2 = (".json") then path
  else path ++ (".") ++ lowerString service ++ (".json")

theorem validateFailAzPath_ok_path {δ : Type} (dryRunOf : δ → Bool) (b : Bool)
    (path service : String) (fs : FS δ) (p' : String)
    (h : validateFailAzPath dryRunOf b path service fs = .ok p') :
    p' = normalizePath path service := by
  unfold validateFailAzPath at h
  unfold normalizePath
  by_cases hd : fs.isDir path
  · simp [hd] at h
  · simp [hd] at h
    split at h
    · split at h
      · split at h
        · exact absurd h (by simp)
        · simp at h
          split <;> simp_all
      · simp at h
        split <;> simp_all
    · split at h
      · exact absurd h (by simp)
      · simp at h
        split <;> simp_all

end AzChaos

namespace AzChaos

/-! ### ASG module: embedding of `azchaosaws/asg/actions.py`.

The `VPCZoneIdentifier` comma-joined subnet string is modelled as the
list of subnet ids it encodes (`",".join` / `.split(",")` are inverse on
the values that occur). -/

structure AsgGroup where
  name : String
  availabilityZones : List String
  suspendedProcesses : List String
  subnetIds : List String
  minSize : Nat
  maxSize : Nat
  desiredCapacity : Nat
  tags : List (String × String)
deriving DecidableEq, Repr

structure AsgSubnet where
  subnetId : String
  availabilityZone : String
deriving DecidableEq, Repr

structure AsgWorld where
  asgs : List AsgGroup
  subnets : List AsgSubnet
deriving DecidableEq, Repr

/-- A tag record as returned by the autoscaling `describe_tags` API. -/
structure TagRecord where
  resourceId : String
  resourceType : String
  key : String
  value : String
deriving DecidableEq, Repr

def asgTagRecords (w : AsgWorld) : List TagRecord :=
  w.asgs.flatMap (fun a => a.tags.map (fun t => ⟨a.name, ("auto-scaling-group"), t.1, t.2⟩))

/-- Read model of `describe_auto_scaling_groups(AutoScalingGroupNames=names)`. -/
def describeAsgsByName (w : AsgWorld) (names : List String) : List AsgGroup :=
  w.asgs.filter (fun a => a.name ∈ names)

/-- Embeds `get_asg_by_name`. -/
def getAsgByName (w : AsgWorld) (asgNames : List String) : Except String (List AsgGroup) :=
  let asgs := describeAsgsByName w asgNames
  let foundAsgs := asgs.map (·.name)
  let invalidAsgs := asgNames.filter (fun a => a ∉ foundAsgs)
  if invalidAsgs ≠ [] then .error ("No ASG(s) found with name(s)")
  else .ok asgs

/-- The set of ASG names matched by the `describe_tags` paginated query in
`get_asg_by_tags`: a tag record matches when its key is among the
requested keys and its value among the requested values (the repeated
key/value filters of the query are merged by the API), and only records
of resource type auto-scaling-group are kept.  Models the Python `set`
as a deduplicated list. -/
def tagMatchedAsgNames (w : AsgWorld) (tags : List (String × String)) : List String :=
  (((asgTagRecords w).filter (fun r =>
      r.resourceType = ("auto-scaling-group") ∧
      r.key ∈ tags.map (·.1) ∧ r.value ∈ tags.map (·.2))).map (·.resourceId)).dedup

/-- Embeds `get_asg_by_tags`. -/
def getAsgByTags (w : AsgWorld) (tags : List (String × String)) : Except String (List AsgGroup) :=
  let results := tagMatchedAsgNames w tags
  if results = [] then .error ("No ASG(s) found with matching tag(s)")
  else getAsgByName w results

/-- Embeds `get_asgs_by_az`: names of the ASGs whose AZ list contains the
target AZ (a Python `set`, modelled as a deduplicated list). -/
def getAsgsByAz (w : AsgWorld) (az : String) : List String :=
  ((w.asgs.filter (fun a => az ∈ a.availabilityZones)).map (·.name)).dedup

/-- Python truthiness of an optional-list argument (`None` and `[]` are
both falsy). -/
def optTruthy {α : Type} : Option (List α) → Bool
  | some l => !l.isEmpty
  | none => false

/-- Embeds `validate_asgs`. -/
def validateAsgs (asgNames : Option (List String)) (tags : Option (List (String × String))) :
    Except String Unit :=
  if !(optTruthy asgNames || optTruthy tags) then
    .error ("one of the following arguments are required: asg_names or tags")
  else if optTruthy asgNames && optTruthy tags then
    .error ("only one of the following arguments are allowed: asg_names/tags")
  else .ok ()

def asgValidProcesses : List String :=
  [("Launch"), ("Terminate"), ("HealthCheck"), ("AZRebalance"),
   ("AlarmNotification"), ("ScheduledActions"),
   ("AddToLoadBalancer"), ("ReplaceUnhealthy")]

/-- Embeds `validate_processes`. -/
def validateProcesses (processNames : List String) : Except String Unit :=
  let invalid := processNames.filter (fun p => p ∉ asgValidProcesses)
  if invalid ≠ [] then .error ("invalid process(es)") else .ok ()

def updateAsgIn (w : AsgWorld) (n : String) (f : AsgGroup → AsgGroup) : AsgWorld :=
  { w with asgs := w.asgs.map (fun a => if a.name = n then f a else a) }

/-- World effect of the AWS `suspend_processes` call on one group. -/
def addSuspended (ps : List String) (a : AsgGroup) : AsgGroup :=
  { a with suspendedProcesses := a.suspendedProcesses ++ ps.filter (fun p => p ∉ a.suspendedProcesses) }

/-- World effect of the AWS `resume_processes` call on one group. -/
def removeSuspended (ps : List String) (a : AsgGroup) : AsgGroup :=
  { a with suspendedProcesses := a.suspendedProcesses.filter (fun p => p ∉ ps) }

/-- Per-group loop of `suspend_processes` (the AWS call suspends all
scaling process types when `ScalingProcesses` is not passed). -/
def suspendLoop (psOpt : Option (List String)) (effPs : List String) (w : AsgWorld) :
    List AsgGroup → AsgWorld × List ApiCall
  | [] => (w, [])
  | a :: rest =>
    let w1 := updateAsgIn w a.name (addSuspended effPs)
    let (w2, t) := suspendLoop psOpt effPs w1 rest
    (w2, .suspendAsgCall a.name psOpt :: t)

def resumeLoop (psOpt : Option (List String)) (effPs : List String) (w : AsgWorld) :
    List AsgGroup → AsgWorld × List ApiCall
  | [] => (w, [])
  | a :: rest =>
    let w1 := updateAsgIn w a.name (removeSuspended effPs)
    let (w2, t) := resumeLoop psOpt effPs w1 rest
    (w2, .resumeAsgCall a.name psOpt :: t)

/-- Embeds `suspend_processes`. -/
def suspendProcessesHelper (w : AsgWorld) (asgNames : Option (List String))
    (tags : Option (List (String × String))) (processNames : Option (List String)) :
    Except String (List AsgGroup × AsgWorld × List ApiCall) := do
  validateAsgs asgNames tags
  if optTruthy processNames then validateProcesses (processNames.getD []) else pure ()
  let asgs ← if optTruthy asgNames then getAsgByName w (asgNames.getD [])
             else getAsgByTags w (tags.getD [])
  let effPs := if optTruthy processNames then processNames.getD [] else asgValidProcesses
  let (w1, t) := suspendLoop processNames effPs w asgs
  let res ← getAsgByName w1 (asgs.map (·.name))
  .ok (res, w1, t)

/-- Embeds `resume_processes`. -/
def resumeProcessesHelper (w : AsgWorld) (asgNames : Option (List String))
    (tags : Option (List (String × String))) (processNames : Option (List String)) :
    Except String (List AsgGroup × AsgWorld × List ApiCall) := do
  validateAsgs asgNames tags
  if optTruthy processNames then validateProcesses (processNames.getD []) else pure ()
  let asgs ← if optTruthy asgNames then getAsgByName w (asgNames.getD [])
             else getAsgByTags w (tags.getD [])
  let effPs := if optTruthy processNames then processNames.getD [] else asgValidProcesses
  let (w1, t) := resumeLoop processNames effPs w asgs
  let res ← getAsgByName w1 (asgs.map (·.name))
  .ok (res, w1, t)

def changeSubnetsLoop (subnets : List String) (w : AsgWorld) :
    List AsgGroup → AsgWorld × List ApiCall
  | [] => (w, [])
  | a :: rest =>
    let w1 := updateAsgIn w a.name (fun g => { g with subnetIds := subnets })
    let (w2, t) := changeSubnetsLoop subnets w1 rest
    (w2, .updateAsgSubnetsCall a.name subnets :: t)

/-- Embeds `change_subnets`. -/
def changeSubnets (w : AsgWorld) (subnets : List String) (asgNames : Option (List String))
    (tags : Option (List (String × String))) : Except String (AsgWorld × List ApiCall) := do
  validateAsgs asgNames tags
  let asgs ← if optTruthy asgNames then getAsgByName w (asgNames.getD [])
             else getAsgByTags w (tags.getD [])
  .ok (changeSubnetsLoop subnets w asgs)

/-- Embeds the asg module's `describe_subnets` (lookup by subnet ids;
AWS fails the request when some id does not exist). -/
def describeSubnetsAsg (w : AsgWorld) (subnetIds : List String) : Except String (List AsgSubnet) :=
  if subnetIds.all (fun i => i ∈ w.subnets.map (·.subnetId)) then
    .ok (w.subnets.filter (fun s => s.subnetId ∈ subnetIds))
  else .error ("InvalidSubnetID.NotFound")

structure AsgStateBlock where
  autoScalingGroupName : String
  beforeSubnetIds : Option (List String) := none
  beforeAzRebalance : Option Bool := none
  beforeMinSize : Option Nat := none
  beforeMaxSize : Option Nat := none
  beforeDesiredCapacity : Option Nat := none
  afterSubnetIds : Option (List String) := none
  afterAzRebalance : Option Bool := none
  afterMinSize : Option Nat := none
  afterMaxSize : Option Nat := none
  afterDesiredCapacity : Option Nat := none
deriving DecidableEq, Repr

structure AsgDoc where
  availabilityZone : String
  dryRun : Bool
  autoScalingGroups : List AsgStateBlock
deriving DecidableEq, Repr

/-- Embeds `remove_az_subnets`. -/
def removeAzSubnets (w : AsgWorld) (az : String) (asg : String) (dryRun : Bool) :
    Except String (AsgStateBlock × AsgWorld × List ApiCall) := do
  let asgResponse ← getAsgByName w [asg]
  let a ← match asgResponse with
    | [] => .error ("IndexError")
    | a :: _ => pure a
  let suspendedBefore := a.suspendedProcesses
  let (w1, t1) ← if !dryRun then do
      let (_, w1, t1) ← suspendProcessesHelper w (some [asg]) none (some [("AZRebalance")])
      pure (w1, t1)
    else pure (w, ([] : List ApiCall))
  let existingSubnets := a.subnetIds
  let existingSubnetsFull ← describeSubnetsAsg w1 existingSubnets
  let nonAzSubnets := (existingSubnetsFull.filter (fun s => s.availabilityZone ≠ az)).map (·.subnetId)
  let (w2, t2) :=
    if !dryRun then
      (updateAsgIn w1 asg (fun g => { g with subnetIds := nonAzSubnets }),
       [ApiCall.updateAsgSubnetsCall asg nonAzSubnets])
    else (w1, [])
  .ok ({ autoScalingGroupName := asg,
         beforeSubnetIds := some existingSubnets,
         beforeAzRebalance := some (("AZRebalance") ∉ suspendedBefore),
         afterSubnetIds := some nonAzSubnets,
         afterAzRebalance := some false },
       w2, t1 ++ t2)

/-- Embeds `asg_in_single_az`. -/
def asgInSingleAz (w : AsgWorld) (asg : String) : Except String Bool :=
  match describeAsgsByName w [asg] with
  | [] => .error ("IndexError")
  | a :: _ => .ok (a.availabilityZones.length = 1)

/-- Embeds `modify_capacity`. -/
def modifyCapacity (w : AsgWorld) (asg : String) (dryRun : Bool)
    (minSize maxSize desiredCap : Nat) :
    Except String (AsgStateBlock × AsgWorld × List ApiCall) := do
  let asgResponse ← getAsgByName w [asg]
  let a ← match asgResponse with
    | [] => .error ("IndexError")
    | a :: _ => pure a
  let (w1, t1) :=
    if !dryRun then
      (updateAsgIn w asg (fun g =>
         { g with minSize := minSize, maxSize := maxSize, desiredCapacity := desiredCap }),
       [ApiCall.updateAsgCapacityCall asg minSize maxSize desiredCap])
    else (w, [])
  .ok ({ autoScalingGroupName := asg,
         beforeMinSize := some a.minSize,
         beforeMaxSize := some a.maxSize,
         beforeDesiredCapacity := some a.desiredCapacity,
         afterMinSize := some minSize,
         afterMaxSize := some maxSize,
         afterDesiredCapacity := some desiredCap },
       w1, t1)

/-- Per-group loop body of `fail_az` in the asg module. -/
def asgFailAzLoop (az : String) (dryRun : Bool) (w : AsgWorld) :
    List String → Except String (List AsgStateBlock × AsgWorld × List ApiCall)
  | [] => .ok ([], w, [])
  | asg :: rest => do
    let single ← asgInSingleAz w asg
    let (blk, w1, t1) ←
      if single then modifyCapacity w asg dryRun 0 0 0
      else removeAzSubnets w az asg dryRun
    let (blks, w2, t2) ← asgFailAzLoop az dryRun w1 rest
    .ok (blk :: blks, w2, t1 ++ t2)

/-- Embeds `fail_az` of the asg module. -/
def asgFailAz (w : AsgWorld) (fs : FS AsgDoc) (az : String) (dryRun : Option Bool)
    (tags : List (String × String)) (statePath : String) :
    Except String (AsgDoc × AsgWorld × FS AsgDoc × List ApiCall) := do
  let dryRun ← match dryRun with
    | none => .error ("you must specify a dry_run boolean parameter")
    | some b => pure b
  if az = ("") then
    .error ("you must specify an Availability Zone")
  else do
    let statePath ← validateFailAzPath AsgDoc.dryRun true statePath ("asg") fs
    let taggedAsgsResponse ← getAsgByTags w tags
    let taggedAsgs := (taggedAsgsResponse.map (·.name)).dedup
    let targetAzAsgs := getAsgsByAz w az
    let asgs := taggedAsgs.filter (fun a => a ∈ targetAzAsgs)
    if asgs = [] then
      .error ("No ASGs with the provided tags and the target AZ found")
    else do
      let (asgsState, w1, trace) ← asgFailAzLoop az dryRun w asgs
      let doc : AsgDoc := ⟨az, dryRun, asgsState⟩
      .ok (doc, w1, fs.write statePath doc, trace)

/-- Per-record body of `recover_az` in the asg module. -/
def asgRecoverBlock (w : AsgWorld) (blk : AsgStateBlock) :
    Except String (AsgWorld × List ApiCall) := do
  let (w1, t1) ←
    match blk.beforeAzRebalance, blk.beforeSubnetIds with
    | some reb, some subnetIds => do
      let (wa, ta) ← if reb then do
          let (_, wa, ta) ← resumeProcessesHelper w (some [blk.autoScalingGroupName]) none
            (some [("AZRebalance")])
          pure (wa, ta)
        else pure (w, ([] : List ApiCall))
      let (wb, tb) ← changeSubnets wa subnetIds (some [blk.autoScalingGroupName]) none
      pure (wb, ta ++ tb)
    | _, _ => pure (w, [])
  match blk.beforeMinSize, blk.beforeMaxSize, blk.beforeDesiredCapacity with
  | some mn, some mx, some dc => do
    let (_, w2, t2) ← modifyCapacity w1 blk.autoScalingGroupName false mn mx dc
    pure (w2, t1 ++ t2)
  | _, _, _ => pure (w1, t1)

def asgRecoverLoop (w : AsgWorld) :
    List AsgStateBlock → Except String (AsgWorld × List ApiCall)
  | [] => .ok (w, [])
  | blk :: rest => do
    let (w1, t1) ← asgRecoverBlock w blk
    let (w2, t2) ← asgRecoverLoop w1 rest
    .ok (w2, t1 ++ t2)

/-- Embeds `recover_az` of the asg module. -/
def asgRecoverAz (w : AsgWorld) (fs : FS AsgDoc) (statePath : String) :
    Except String (Bool × AsgWorld × FS AsgDoc × List ApiCall) := do
  let statePath ← validateFailAzPath AsgDoc.dryRun false statePath ("asg") fs
  let failAzState ← match fs.getFile statePath with
    | some d => pure d
    | none => .error ("failed to load state file")
  if failAzState.dryRun then
    .error ("State file was generated from a dry run")
  else do
    let (w1, trace) ← asgRecoverLoop w failAzState.autoScalingGroups
    .ok (true, w1, fs.remove statePath, trace)

end AzChaos

namespace AzChaos

/-- Name of the ASG targeted by a mutating autoscaling API call. -/
def asgCallName : ApiCall → Option String
  | .updateAsgSubnetsCall a _ => some a
  | .updateAsgCapacityCall a _ _ _ => some a
  | .suspendAsgCall a _ => some a
  | .resumeAsgCall a _ => some a
  | _ => none

theorem mem_describeAsgsByName (w : AsgWorld) (names : List String) (a : AsgGroup) :
    a ∈ describeAsgsByName w names ↔ a ∈ w.asgs ∧ a.name ∈ names := by
  simp [describeAsgsByName]

theorem getAsgByName_ok (w : AsgWorld) (names : List String) (asgs : List AsgGroup)
    (h : getAsgByName w names = .ok asgs) :
    asgs = describeAsgsByName w names ∧ ∀ n ∈ names, n ∈ asgs.map (·.name) := by
  unfold getAsgByName at h
  dsimp only at h
  split at h
  · exact absurd h (by simp)
  · rename_i hinv
    simp at h hinv
    refine ⟨h.symm, fun n hn => ?_⟩
    subst h
    simpa using hinv n hn

theorem getAsgByName_single (w : AsgWorld) (asg : String) (asgs : List AsgGroup)
    (h : getAsgByName w [asg] = .ok asgs) :
    (∀ a ∈ asgs, a.name = asg) ∧ asgs ≠ [] := by
  obtain ⟨h1, h2⟩ := getAsgByName_ok w [asg] asgs h
  subst h1
  constructor
  · intro a ha
    have := (mem_describeAsgsByName w [asg] a).1 ha
    simpa using this.2
  · have := h2 asg (by simp)
    intro hnil
    rw [hnil] at this
    simp at this

theorem suspendLoop_trace (ps : Option (List String)) (eff : List String) :
    ∀ (l : List AsgGroup) (w : AsgWorld),
      (suspendLoop ps eff w l).2 = l.map (fun a => ApiCall.suspendAsgCall a.name ps)
  | [], _ => rfl
  | _ :: rest, w => by
    simp only [suspendLoop, List.map]
    rw [suspendLoop_trace ps eff rest]

theorem resumeLoop_trace (ps : Option (List String)) (eff : List String) :
    ∀ (l : List AsgGroup) (w : AsgWorld),
      (resumeLoop ps eff w l).2 = l.map (fun a => ApiCall.resumeAsgCall a.name ps)
  | [], _ => rfl
  | _ :: rest, w => by
    simp only [resumeLoop, List.map]
    rw [resumeLoop_trace ps eff rest]

theorem changeSubnetsLoop_trace (subnets : List String) :
    ∀ (l : List AsgGroup) (w : AsgWorld),
      (changeSubnetsLoop subnets w l).2 = l.map (fun a => ApiCall.updateAsgSubnetsCall a.name subnets)
  | [], _ => rfl
  | _ :: rest, w => by
    simp only [changeSubnetsLoop, List.map]
    rw [changeSubnetsLoop_trace subnets rest]

theorem suspendProcessesHelper_single (w : AsgWorld) (asg : String)
    (ps : Option (List String)) (res : List AsgGroup) (w1 : AsgWorld) (t : List ApiCall)
    (h : suspendProcessesHelper w (some [asg]) none ps = .ok (res, w1, t)) :
    ∃ asgs effPs, getAsgByName w [asg] = .ok asgs ∧
      w1 = (suspendLoop ps effPs w asgs).1 ∧ t = (suspendLoop ps effPs w asgs).2 := by
  unfold suspendProcessesHelper at h
  rw [show validateAsgs (some [asg]) none = Except.ok () from rfl] at h
  simp only [bind, Except.bind, pure, Except.pure, Option.getD] at h
  rw [show optTruthy (some [asg]) = true from rfl] at h
  simp only [if_true, eq_self_iff_true] at h
  split at h
  · -- optTruthy ps = true: process-name validation runs first
    split at h
    · exact absurd h (by simp)
    · split at h
      · exact absurd h (by simp)
      · rename_i asgs hl
        split at h
        · exact absurd h (by simp)
        · simp only [Except.ok.injEq, Prod.mk.injEq] at h
          exact ⟨asgs, _, hl, h.2.1.symm, h.2.2.symm⟩
  · split at h
    · exact absurd h (by simp)
    · rename_i asgs hl
      split at h
      · exact absurd h (by simp)
      · simp only [Except.ok.injEq, Prod.mk.injEq] at h
        exact ⟨asgs, _, hl, h.2.1.symm, h.2.2.symm⟩

end AzChaos

namespace AzChaos

theorem trace_ite_capacity (asg : String) (cond : Bool) (wA wB : AsgWorld)
    (mn mx dc : Nat) :
    ∀ c ∈ (if cond then (wA, [ApiCall.updateAsgCapacityCall asg mn mx dc]) else (wB, ([] : List ApiCall))).2,
      asgCallName c = some asg := by
  split <;> simp [asgCallName]

theorem modifyCapacity_ok_name_trace (w : AsgWorld) (asg : String) (dryRun : Bool)
    (mn mx dc : Nat) (blk : AsgStateBlock) (w1 : AsgWorld) (t : List ApiCall)
    (h : modifyCapacity w asg dryRun mn mx dc = .ok (blk, w1, t)) :
    blk.autoScalingGroupName = asg ∧ ∀ c ∈ t, asgCallName c = some asg := by
  unfold modifyCapacity at h
  simp only [bind, Except.bind, pure, Except.pure] at h
  split at h
  · exact absurd h (by simp)
  · split at h
    · exact absurd h (by simp)
    · simp only [Except.ok.injEq, Prod.mk.injEq] at h
      obtain ⟨hblk, hw, ht⟩ := h
      refine ⟨by rw [← hblk], ?_⟩
      subst ht
      apply trace_ite_capacity

end AzChaos

namespace AzChaos

theorem removeAzSubnets_ok_name_trace (w : AsgWorld) (az asg : String) (dryRun : Bool)
    (blk : AsgStateBlock) (w2 : AsgWorld) (t : List ApiCall)
    (h : removeAzSubnets w az asg dryRun = .ok (blk, w2, t)) :
    blk.autoScalingGroupName = asg ∧ ∀ c ∈ t, asgCallName c = some asg := by
  unfold removeAzSubnets at h
  simp only [bind, Except.bind, pure, Except.pure] at h
  split at h
  · exact absurd h (by simp)
  · split at h
    · exact absurd h (by simp)
    · split at h
      case _ hcond =>
        -- non-dry-run: the AZRebalance suspension runs first
        split at h
        · exact absurd h (by simp)
        · rename_i trip hsus
          obtain ⟨res0, wS, tS⟩ := trip
          split at h
          · exact absurd h (by simp)
          · rename_i full hfull
            simp only [Except.ok.injEq, Prod.mk.injEq] at h
            obtain ⟨hblk, hw, ht⟩ := h
            refine ⟨by rw [← hblk], ?_⟩
            subst ht
            intro c hc
            rw [List.mem_append] at hc
            rcases hc with hc | hc
            · obtain ⟨asgs1, eff1, hl1, hw1, ht1⟩ :=
                suspendProcessesHelper_single w asg (some [("AZRebalance")]) res0 wS tS hsus
              rw [ht1, suspendLoop_trace] at hc
              simp only [List.mem_map] at hc
              obtain ⟨a1, ha1, hc⟩ := hc
              have := (getAsgByName_single w asg asgs1 hl1).1 a1 ha1
              simp [← hc, asgCallName, this]
            · rw [List.mem_singleton] at hc
              simp [hc, asgCallName]
      case _ hcond =>
        split at h
        · exact absurd h (by simp)
        · rename_i full hfull
          simp only [Except.ok.injEq, Prod.mk.injEq] at h
          obtain ⟨hblk, hw, ht⟩ := h
          refine ⟨by rw [← hblk], ?_⟩
          subst ht
          intro c hc
          rw [List.mem_append] at hc
          rcases hc with hc | hc
          · simp at hc
          · simp at hc

end AzChaos
namespace AzChaos

theorem asgFailAzLoop_ok (az : String) (b : Bool) :
    ∀ (names : List String) (w : AsgWorld) (blks : List AsgStateBlock)
      (w' : AsgWorld) (tr : List ApiCall),
      asgFailAzLoop az b w names = .ok (blks, w', tr) →
      blks.map (·.autoScalingGroupName) = names ∧
      ∀ c ∈ tr, ∃ n ∈ names, asgCallName c = some n := by
  intro names
  induction names with
  | nil =>
    intro w blks w' tr h
    simp only [asgFailAzLoop, Except.ok.injEq, Prod.mk.injEq] at h
    obtain ⟨h1, h2, h3⟩ := h
    subst h1; subst h3
    simp
  | cons asg rest ih =>
    intro w blks w' tr h
    unfold asgFailAzLoop at h
    simp only [bind, Except.bind, pure, Except.pure] at h
    split at h
    · exact absurd h (by simp)
    · rename_i single hsingle
      by_cases hs : single = true
      · rw [if_pos hs] at h
        rcases hstep : modifyCapacity w asg b 0 0 0 with e | ⟨blk, w1, t1⟩ <;> rw [hstep] at h
        · exact absurd h (by simp)
        · dsimp only at h
          obtain ⟨hn1, hn2⟩ := modifyCapacity_ok_name_trace w asg b 0 0 0 blk w1 t1 hstep
          rcases hrec : asgFailAzLoop az b w1 rest with e | ⟨blks2, w2, t2⟩ <;> rw [hrec] at h
          · exact absurd h (by simp)
          · dsimp only at h
            simp only [Except.ok.injEq, Prod.mk.injEq] at h
            obtain ⟨hb, hw, ht⟩ := h
            obtain ⟨ihmap, ihtr⟩ := ih w1 blks2 w2 t2 hrec
            subst hb; subst ht
            refine ⟨by simp [ihmap, hn1], fun c hc => ?_⟩
            rw [List.mem_append] at hc
            rcases hc with hc | hc
            · exact ⟨asg, by simp, hn2 c hc⟩
            · obtain ⟨n, hn, hcn⟩ := ihtr c hc
              exact ⟨n, by simp [hn], hcn⟩
      · rw [if_neg hs] at h
        rcases hstep : removeAzSubnets w az asg b with e | ⟨blk, w1, t1⟩ <;> rw [hstep] at h
        · exact absurd h (by simp)
        · dsimp only at h
          obtain ⟨hn1, hn2⟩ := removeAzSubnets_ok_name_trace w az asg b blk w1 t1 hstep
          rcases hrec : asgFailAzLoop az b w1 rest with e | ⟨blks2, w2, t2⟩ <;> rw [hrec] at h
          · exact absurd h (by simp)
          · dsimp only at h
            simp only [Except.ok.injEq, Prod.mk.injEq] at h
            obtain ⟨hb, hw, ht⟩ := h
            obtain ⟨ihmap, ihtr⟩ := ih w1 blks2 w2 t2 hrec
            subst hb; subst ht
            refine ⟨by simp [ihmap, hn1], fun c hc => ?_⟩
            rw [List.mem_append] at hc
            rcases hc with hc | hc
            · exact ⟨asg, by simp, hn2 c hc⟩
            · obtain ⟨n, hn, hcn⟩ := ihtr c hc
              exact ⟨n, by simp [hn], hcn⟩

/-- Inversion of a successful `fail_az` run of the asg module. -/
theorem asgFailAz_ok_inv (w : AsgWorld) (fs : FS AsgDoc) (az : String)
    (dr : Option Bool) (tags : List (String × String)) (path : String)
    (doc : AsgDoc) (w' : AsgWorld) (fs' : FS AsgDoc) (tr : List ApiCall)
    (h : asgFailAz w fs az dr tags path = .ok (doc, w', fs', tr)) :
    ∃ b p', dr = some b ∧ az ≠ ("") ∧
      validateFailAzPath AsgDoc.dryRun true path ("asg") fs = .ok p' ∧
      tagMatchedAsgNames w tags ≠ [] ∧
      ∃ resp, getAsgByName w (tagMatchedAsgNames w tags) = .ok resp ∧
        (let taggedAsgs := (resp.map (·.name)).dedup
         let asgs := taggedAsgs.filter (fun a => a ∈ getAsgsByAz w az)
         asgs ≠ [] ∧
         asgFailAzLoop az b w asgs = .ok (doc.autoScalingGroups, w', tr) ∧
         doc.availabilityZone = az ∧ doc.dryRun = b ∧ fs' = fs.write p' doc) := by
  unfold asgFailAz at h
  simp only [bind, Except.bind, pure, Except.pure] at h
  split at h
  · exact absurd h (by simp)
  · rename_i b
    split at h
    · exact absurd h (by simp)
    · rename_i haz
      refine ⟨b, ?_⟩
      split at h
      · exact absurd h (by simp)
      · rename_i p' hval
        split at h
        · exact absurd h (by simp)
        · rename_i resp hne
          unfold getAsgByTags at hne
          dsimp only at hne
          split at hne
          · exact absurd hne (by simp)
          · rename_i hne0
            split at h
            · exact absurd h (by simp)
            · rename_i hasgs
              rcases hloop : asgFailAzLoop az b w
                  (((resp.map (·.name)).dedup).filter (fun a => a ∈ getAsgsByAz w az)) with e | trip
              · rw [hloop] at h
                exact absurd h (by simp)
              · obtain ⟨blks, w1, t1⟩ := trip
                rw [hloop] at h
                dsimp only at h
                simp only [Except.ok.injEq, Prod.mk.injEq] at h
                obtain ⟨hdoc, hw, hfs, ht⟩ := h
                refine ⟨p', rfl, haz, hval, hne0, resp, hne, hasgs, ?_, ?_, ?_, ?_⟩
                · rw [← hdoc]
                  subst hw; subst ht
                  exact hloop
                · rw [← hdoc]
                · rw [← hdoc]
                · rw [← hfs, ← hdoc]

end AzChaos
namespace AzChaos

theorem mem_respNames_iff (w : AsgWorld) (tags : List (String × String))
    (resp : List AsgGroup) (h : getAsgByName w (tagMatchedAsgNames w tags) = .ok resp) :
    ∀ n, n ∈ resp.map (·.name) ↔ n ∈ tagMatchedAsgNames w tags := by
  obtain ⟨h1, h2⟩ := getAsgByName_ok w (tagMatchedAsgNames w tags) resp h
  intro n
  constructor
  · intro hn
    rw [h1] at hn
    simp only [List.mem_map] at hn
    obtain ⟨a, ha, hn⟩ := hn
    have := (mem_describeAsgsByName w (tagMatchedAsgNames w tags) a).1 ha
    rw [← hn]
    exact this.2
  · exact h2 n

/-- C2: in the asg module's `fail_az`, the set of auto-scaling groups
selected for mutation is exactly the intersection of the tag-matched
groups and the groups whose AZ list contains the target AZ; every
mutating call in the trace targets a group in that intersection; and if
the intersection is empty the whole operation fails (no successful
result exists). -/
theorem asg_fail_az_tag_az_intersection (w : AsgWorld) (fs : FS AsgDoc) (az : String)
    (dr : Option Bool) (tags : List (String × String)) (path : String) :
    (∀ doc w' fs' tr, asgFailAz w fs az dr tags path = .ok (doc, w', fs', tr) →
      (∀ n, n ∈ doc.autoScalingGroups.map (·.autoScalingGroupName) ↔
         (n ∈ tagMatchedAsgNames w tags ∧ n ∈ getAsgsByAz w az)) ∧
      (∀ c ∈ tr, ∀ n, asgCallName c = some n →
         n ∈ tagMatchedAsgNames w tags ∧ n ∈ getAsgsByAz w az)) ∧
    ((tagMatchedAsgNames w tags).filter (fun n => n ∈ getAsgsByAz w az) = [] →
      ∀ r, asgFailAz w fs az dr tags path ≠ .ok r) := by
  constructor
  · intro doc w' fs' tr h
    obtain ⟨b, p', hdr, haz, hval, hne0, resp, hresp, hasgs, hloop, hdocaz, hdocdr, hfs⟩ :=
      asgFailAz_ok_inv w fs az dr tags path doc w' fs' tr h
    obtain ⟨hmap, htr⟩ := asgFailAzLoop_ok az b _ w doc.autoScalingGroups w' tr hloop
    have hmem : ∀ n, n ∈ ((resp.map (·.name)).dedup.filter (fun a => a ∈ getAsgsByAz w az)) ↔
        (n ∈ tagMatchedAsgNames w tags ∧ n ∈ getAsgsByAz w az) := by
      intro n
      rw [List.mem_filter]
      simp only [List.mem_dedup, decide_eq_true_eq]
      rw [mem_respNames_iff w tags resp hresp n]
    constructor
    · intro n
      rw [hmap]
      exact hmem n
    · intro c hc n hcn
      obtain ⟨n', hn', hcn'⟩ := htr c hc
      rw [hcn] at hcn'
      obtain rfl : n' = n := by injection hcn'.symm
      exact (hmem _).1 hn'
  · intro hempty r h
    obtain ⟨doc, w', fs', tr⟩ := r
    obtain ⟨b, p', hdr, haz, hval, hne0, resp, hresp, hasgs, hloop, hdocaz, hdocdr, hfs⟩ :=
      asgFailAz_ok_inv w fs az dr tags path doc w' fs' tr h
    apply hasgs
    cases hcase : ((resp.map (·.name)).dedup.filter (fun a => a ∈ getAsgsByAz w az)) with
    | nil => rfl
    | cons n l =>
      exfalso
      have hn : n ∈ ((resp.map (·.name)).dedup.filter (fun a => a ∈ getAsgsByAz w az)) := by
        rw [hcase]; simp
      rw [List.mem_filter] at hn
      simp only [List.mem_dedup, decide_eq_true_eq] at hn
      have h1 := (mem_respNames_iff w tags resp hresp n).1 hn.1
      have : n ∈ (tagMatchedAsgNames w tags).filter (fun n => n ∈ getAsgsByAz w az) := by
        rw [List.mem_filter]
        exact ⟨h1, by simp [hn.2]⟩
      rw [hempty] at this
      simp at this

end AzChaos
namespace AzChaos

def asgWitnessWorld : AsgWorld :=
  { asgs := [
      { name := ("asg1"), availabilityZones := [("az-a"), ("az-b"), ("az-c")],
        suspendedProcesses := [], subnetIds := [("s1"), ("s2"), ("s3")],
        minSize := 1, maxSize := 3, desiredCapacity := 2,
        tags := [(("AZ_FAILURE"), ("True"))] },
      { name := ("asg2"), availabilityZones := [("az-a")],
        suspendedProcesses := [], subnetIds := [("s1")],
        minSize := 5, maxSize := 10, desiredCapacity := 7,
        tags := [(("AZ_FAILURE"), ("True"))] },
      { name := ("asg3"), availabilityZones := [("az-a")],
        suspendedProcesses := [], subnetIds := [("s1")],
        minSize := 1, maxSize := 1, desiredCapacity := 1,
        tags := [] } ],
    subnets := [⟨("s1"), ("az-a")⟩, ⟨("s2"), ("az-b")⟩, ⟨("s3"), ("az-c")⟩] }

def asgWitnessDoc : AsgDoc :=
  { availabilityZone := ("az-a"), dryRun := false,
    autoScalingGroups := [
      { autoScalingGroupName := ("asg1"),
        beforeSubnetIds := some [("s1"), ("s2"), ("s3")],
        beforeAzRebalance := some true,
        afterSubnetIds := some [("s2"), ("s3")],
        afterAzRebalance := some false },
      { autoScalingGroupName := ("asg2"),
        beforeMinSize := some 5, beforeMaxSize := some 10,
        beforeDesiredCapacity := some 7,
        afterMinSize := some 0, afterMaxSize := some 0,
        afterDesiredCapacity := some 0 } ] }

def asgWitnessWorldAfter : AsgWorld :=
  { asgs := [
      { name := ("asg1"), availabilityZones := [("az-a"), ("az-b"), ("az-c")],
        suspendedProcesses := [("AZRebalance")], subnetIds := [("s2"), ("s3")],
        minSize := 1, maxSize := 3, desiredCapacity := 2,
        tags := [(("AZ_FAILURE"), ("True"))] },
      { name := ("asg2"), availabilityZones := [("az-a")],
        suspendedProcesses := [], subnetIds := [("s1")],
        minSize := 0, maxSize := 0, desiredCapacity := 0,
        tags := [(("AZ_FAILURE"), ("True"))] },
      { name := ("asg3"), availabilityZones := [("az-a")],
        suspendedProcesses := [], subnetIds := [("s1")],
        minSize := 1, maxSize := 1, desiredCapacity := 1,
        tags := [] } ],
    subnets := [⟨("s1"), ("az-a")⟩, ⟨("s2"), ("az-b")⟩, ⟨("s3"), ("az-c")⟩] }

def asgWitnessTrace : List ApiCall :=
  [.suspendAsgCall ("asg1") (some [("AZRebalance")]),
   .updateAsgSubnetsCall ("asg1") [("s2"), ("s3")],
   .updateAsgCapacityCall ("asg2") 0 0 0]

/-- A world where the tag-matched group (az-b only) and the AZ-matched
group (untagged) are disjoint, so the tag/AZ intersection is empty. -/
def asgDisjointWorld : AsgWorld :=
  { asgs := [
      { name := ("asgT"), availabilityZones := [("az-b")],
        suspendedProcesses := [], subnetIds := [("s2")],
        minSize := 1, maxSize := 1, desiredCapacity := 1,
        tags := [(("AZ_FAILURE"), ("True"))] },
      { name := ("asgZ"), availabilityZones := [("az-a")],
        suspendedProcesses := [], subnetIds := [("s1")],
        minSize := 1, maxSize := 1, desiredCapacity := 1,
        tags := [] } ],
    subnets := [⟨("s1"), ("az-a")⟩, ⟨("s2"), ("az-b")⟩] }

theorem asg_fail_az_tag_az_intersection_witness :
    (∀ n, n ∈ asgWitnessDoc.autoScalingGroups.map (·.autoScalingGroupName) ↔
       (n ∈ tagMatchedAsgNames asgWitnessWorld [(("AZ_FAILURE"), ("True"))] ∧
        n ∈ getAsgsByAz asgWitnessWorld ("az-a"))) ∧
    (∀ r, asgFailAz asgDisjointWorld ⟨[]⟩ ("az-a") (some false)
        [(("AZ_FAILURE"), ("True"))] ("st") ≠ .ok r) := by
  constructor
  · exact ((asg_fail_az_tag_az_intersection asgWitnessWorld ⟨[]⟩ ("az-a") (some false)
      [(("AZ_FAILURE"), ("True"))] ("st")).1 asgWitnessDoc asgWitnessWorldAfter
      (FS.write ⟨[]⟩ ("st.asg.json") asgWitnessDoc) asgWitnessTrace (by rfl)).1
  · exact (asg_fail_az_tag_az_intersection asgDisjointWorld ⟨[]⟩ ("az-a") (some false)
      [(("AZ_FAILURE"), ("True"))] ("st")).2 (by decide)

end AzChaos
namespace AzChaos

/-! ### EC2 module: embedding of `azchaosaws/ec2/actions.py`. -/

structure Ec2Instance where
  instanceId : String
  state : String
  az : String
  lifecycle : String
  spotInstanceRequestId : Option String
  tags : List (String × String)
deriving DecidableEq, Repr

structure SpotRequest where
  spotInstanceRequestId : String
  requestType : String
  instanceId : String
deriving DecidableEq, Repr

structure NaclAssociation where
  networkAclAssociationId : String
  networkAclId : String
  subnetId : String
deriving DecidableEq, Repr

structure NetworkAcl where
  networkAclId : String
  vpcId : String
  tags : List (String × String)
  associations : List NaclAssociation
  entries : List (Nat × Bool)
deriving DecidableEq, Repr

structure Ec2Subnet where
  subnetId : String
  availabilityZone : String
  vpcId : String
  tags : List (String × String)
deriving DecidableEq, Repr

structure Ec2World where
  instances : List Ec2Instance
  spotRequests : List SpotRequest
  subnets : List Ec2Subnet
  acls : List NetworkAcl
  nextId : Nat
deriving DecidableEq, Repr

/-- A describe filter (`{"Name": ..., "Values": [...]}`); the embedded
code only builds filters whose `Name` and `Values` are both present. -/
structure Filter where
  name : String
  values : List String
deriving DecidableEq, Repr

def startsWithChars : List Char → List Char → Bool
  | [], _ => true
  | _ :: _, [] => false
  | c :: cs, d :: ds => c = d && startsWithChars cs ds

def hasSubChars (needle : List Char) : List Char → Bool
  | [] => needle.isEmpty
  | d :: ds => startsWithChars needle (d :: ds) || hasSubChars needle ds

/-- Python `needle in hay` on strings. -/
def strContains (hay needle : String) : Bool := hasSubChars needle.data hay.data

/-- AWS filter semantics for the filter names the embedded code uses
(`availability-zone`, `tag:<key>`, `instance-state-name`); other filter
names do not occur and are modelled as non-matching. -/
def subnetMatchesFilter (s : Ec2Subnet) (f : Filter) : Bool :=
  if f.name = ("availability-zone") then s.availabilityZone ∈ f.values
  else if startsWithChars ("tag:").data f.name.data then
    s.tags.any (fun t => t.1 = String.mk (f.name.data.drop 4) ∧ t.2 ∈ f.values)
  else false

def instanceMatchesFilter (i : Ec2Instance) (f : Filter) : Bool :=
  if f.name = ("availability-zone") then i.az ∈ f.values
  else if f.name = ("instance-state-name") then i.state ∈ f.values
  else if startsWithChars ("tag:").data f.name.data then
    i.tags.any (fun t => t.1 = String.mk (f.name.data.drop 4) ∧ t.2 ∈ f.values)
  else false

/-- Embeds the ec2 module's `describe_subnets` (paginated describe by
filters). -/
def describeSubnetsEc2 (w : Ec2World) (filters : List Filter) : List Ec2Subnet :=
  w.subnets.filter (fun s => filters.all (subnetMatchesFilter s))

/-- Read model of `describe_network_acls` with the
`association.subnet-id` and `vpc-id` filters used by `network_failure`. -/
def describeNetworkAcls (w : Ec2World) (vpcId : String) (subnetIds : List String) :
    List NetworkAcl :=
  w.acls.filter (fun acl =>
    acl.vpcId = vpcId ∧ acl.associations.any (fun a => a.subnetId ∈ subnetIds))

/-- Fresh AWS-generated network-ACL id for the n-th id handed out; the
model reserves a leading character that no user-supplied id in a
well-formed world uses. -/
def freshAclId (n : Nat) : String := String.mk (('!') :: List.replicate n ('x'))

/-- Fresh AWS-generated ACL-association id. -/
def freshAssocId (n : Nat) : String := String.mk (('?') :: List.replicate n ('x'))

/-- World effect of `create_network_acl`: a fresh ACL carrying the given
`Name` tag, no associations, and the default deny-all 32767 entries. -/
def createNetworkAclApi (w : Ec2World) (vpcId : String) (tagNameValue : String) :
    String × Ec2World :=
  let aclId := freshAclId w.nextId
  (aclId,
   { w with
     acls := w.acls ++ [{ networkAclId := aclId, vpcId := vpcId,
                          tags := [(("Name"), tagNameValue)], associations := [],
                          entries := [(32767, false), (32767, true)] }],
     nextId := w.nextId + 1 })

def updateAclIn (w : Ec2World) (aclId : String) (f : NetworkAcl → NetworkAcl) : Ec2World :=
  { w with acls := w.acls.map (fun a => if a.networkAclId = aclId then f a else a) }

/-- Embeds `create_network_acl_entry` together with its retry loop: on a
rule-number collision (`NetworkAclEntryAlreadyExists`) the rule number is
decremented and the call retried; rule numbers must stay positive
(AWS rejects rule number 0, bounding the loop). -/
def createNetworkAclEntry (w : Ec2World) (aclId : String) :
    Nat → Bool → Except String (Ec2World × List ApiCall)
  | 0, _ => .error ("InvalidParameterValue: rule number")
  | Nat.succ n, egress =>
    match w.acls.find? (fun a => a.networkAclId = aclId) with
    | none => .error ("InvalidNetworkAclID.NotFound")
    | some acl =>
      if (Nat.succ n, egress) ∈ acl.entries then
        createNetworkAclEntry w aclId n egress
      else
        .ok (updateAclIn w aclId (fun a => { a with entries := a.entries ++ [(Nat.succ n, egress)] }),
             [.createNetworkAclEntryCall aclId (Nat.succ n) egress])

/-- World effect of `replace_network_acl_association`: moves the subnet
behind the given association onto the given ACL under a fresh
association id. -/
def replaceNetworkAclAssociationApi (w : Ec2World) (aclId : String) (associationId : String) :
    Except String (String × Ec2World × List ApiCall) :=
  match w.acls.find? (fun a => a.associations.any (fun x => x.networkAclAssociationId = associationId)) with
  | none => .error ("InvalidAssociationID.NotFound")
  | some src =>
    match (src.associations.find? (fun x => x.networkAclAssociationId = associationId)) with
    | none => .error ("InvalidAssociationID.NotFound")
    | some assoc =>
      if (w.acls.find? (fun a => a.networkAclId = aclId)).isNone then
        .error ("InvalidNetworkAclID.NotFound")
      else
        let newId := freshAssocId w.nextId
        let w1 := { w with
          acls := w.acls.map (fun a =>
            let a := { a with
              associations := a.associations.filter (fun x => x.networkAclAssociationId ≠ associationId) }
            if a.networkAclId = aclId then
              { a with associations := a.associations ++ [⟨newId, aclId, assoc.subnetId⟩] }
            else a),
          nextId := w.nextId + 1 }
        .ok (newId, w1, [.replaceNaclAssociationCall aclId associationId newId])

/-- Embeds `delete_network_acl` (an ACL cannot be deleted while it still
has associations). -/
def deleteNetworkAclApi (w : Ec2World) (aclId : String) :
    Except String (Ec2World × List ApiCall) :=
  match w.acls.find? (fun a => a.networkAclId = aclId) with
  | none => .error ("InvalidNetworkAclID.NotFound")
  | some acl =>
    if acl.associations ≠ [] then .error ("DependencyViolation")
    else .ok ({ w with acls := w.acls.filter (fun a => a.networkAclId ≠ aclId) },
              [.deleteNetworkAclCall aclId])

structure SubnetStateBlock where
  subnetId : String
  vpcId : String
  beforeNetworkAclId : String
  beforeNetworkAclAssociationId : String
  afterNetworkAclId : String
  afterNetworkAclAssociationId : String
deriving DecidableEq, Repr

/-- Sentinel-tag check of `network_failure`: is this ACL a previously
created blackhole ACL? -/
def isBlackholeAcl (acl : NetworkAcl) : Bool :=
  acl.tags.any (fun t => t.1 = ("Name") ∧ t.2 = ("blackhole_nacl"))

/-- Inner association loop of `network_failure` for one (untagged) ACL of
the per-VPC describe snapshot; `cache` is the `blackhole_acl_id`
accumulator (empty string = not yet created, as in the source). -/
def processAssociations (vpcId : String) (subnetIds : List String) (dryRun : Bool)
    (acl : NetworkAcl) :
    List NaclAssociation → String → Ec2World →
    Except String (List SubnetStateBlock × String × Ec2World × List ApiCall)
  | [], cache, w => .ok ([], cache, w, [])
  | assoc :: rest, cache, w => do
    if assoc.subnetId ∈ subnetIds ∧ acl.vpcId = vpcId then
      if dryRun then do
        let blk : SubnetStateBlock :=
          { subnetId := assoc.subnetId, vpcId := acl.vpcId,
            beforeNetworkAclId := assoc.networkAclId,
            beforeNetworkAclAssociationId := assoc.networkAclAssociationId,
            afterNetworkAclId := cache,
            afterNetworkAclAssociationId := ("") }
        let (blks, cache2, w2, t2) ← processAssociations vpcId subnetIds dryRun acl rest cache w
        .ok (blk :: blks, cache2, w2, t2)
      else do
        let (cache1, w1, t1) ←
          if cache = ("") then do
            let aclId := (createNetworkAclApi w vpcId ("blackhole_nacl")).1
            let wA := (createNetworkAclApi w vpcId ("blackhole_nacl")).2
            let (wB, tB) ← createNetworkAclEntry wA aclId 1 false
            let (wC, tC) ← createNetworkAclEntry wB aclId 1 true
            pure (aclId, wC, [ApiCall.createNetworkAclCall vpcId aclId] ++ tB ++ tC)
          else pure (cache, w, ([] : List ApiCall))
        let (newAssocId, w2, t2) ←
          replaceNetworkAclAssociationApi w1 cache1 assoc.networkAclAssociationId
        let blk : SubnetStateBlock :=
          { subnetId := assoc.subnetId, vpcId := acl.vpcId,
            beforeNetworkAclId := assoc.networkAclId,
            beforeNetworkAclAssociationId := assoc.networkAclAssociationId,
            afterNetworkAclId := cache1,
            afterNetworkAclAssociationId := newAssocId }
        let (blks, cache3, w3, t3) ← processAssociations vpcId subnetIds dryRun acl rest cache1 w2
        .ok (blk :: blks, cache3, w3, t1 ++ t2 ++ t3)
    else do
      let (blks, cache2, w2, t2) ← processAssociations vpcId subnetIds dryRun acl rest cache w
      .ok (blks, cache2, w2, t2)

/-- Per-ACL loop of `network_failure` over the describe snapshot of one
VPC; ACLs already carrying the blackhole sentinel tag are skipped. -/
def processAcls (vpcId : String) (subnetIds : List String) (dryRun : Bool) :
    List NetworkAcl → String → Ec2World →
    Except String (List SubnetStateBlock × String × Ec2World × List ApiCall)
  | [], cache, w => .ok ([], cache, w, [])
  | acl :: rest, cache, w => do
    if ¬ isBlackholeAcl acl then do
      let (blks1, cache1, w1, t1) ←
        processAssociations vpcId subnetIds dryRun acl acl.associations cache w
      let (blks2, cache2, w2, t2) ← processAcls vpcId subnetIds dryRun rest cache1 w1
      .ok (blks1 ++ blks2, cache2, w2, t1 ++ t2)
    else do
      let (blks2, cache2, w2, t2) ← processAcls vpcId subnetIds dryRun rest cache w
      .ok (blks2, cache2, w2, t2)

/-- Embeds `network_failure`: per-VPC loop; the describe response is
snapshotted before the mutations of that VPC are applied, and the
`blackhole_acl_id` cache is reset per VPC. -/
def networkFailureVpcs (subnetIds : List String) (dryRun : Bool) :
    List String → Ec2World →
    Except String (List SubnetStateBlock × Ec2World × List ApiCall)
  | [], w => .ok ([], w, [])
  | vpcId :: rest, w => do
    let response := describeNetworkAcls w vpcId subnetIds
    let (blks1, _, w1, t1) ← processAcls vpcId subnetIds dryRun response ("") w
    let (blks2, w2, t2) ← networkFailureVpcs subnetIds dryRun rest w1
    .ok (blks1 ++ blks2, w2, t1 ++ t2)

def networkFailure (w : Ec2World) (vpcIds : List String) (subnetIds : List String)
    (dryRun : Bool) :
    Except String (List SubnetStateBlock × Ec2World × List ApiCall) :=
  networkFailureVpcs subnetIds dryRun vpcIds w

end AzChaos
namespace AzChaos

structure InstanceStateChange where
  instanceId : String
  previousStateName : String
  currentStateName : String
deriving DecidableEq, Repr

/-- A mutating-call response collected into the `results` list of
`stop_instances_any_lifecycle` (each response dict carries either a
`StoppingInstances` or a `TerminatingInstances` key). -/
inductive StopResponse where
  | stopResp (stoppingInstances : List InstanceStateChange)
  | termResp (terminatingInstances : List InstanceStateChange)
deriving DecidableEq, Repr

/-- Result of `stop_instances`: the list of responses on a real run, the
lifecycle grouping dict on a dry run. -/
inductive StopResult where
  | real (responses : List StopResponse)
  | dry (lifecycles : List (String × List String))
deriving DecidableEq, Repr

/-- Appends a value under a key of an insertion-ordered dict, creating
the key when needed (the `defaultdict`/key-init idiom of the source). -/
def addToGroup (groups : List (String × List String)) (k v : String) :
    List (String × List String) :=
  if groups.any (fun g => g.1 = k) then
    groups.map (fun g => if g.1 = k then (g.1, g.2 ++ [v]) else g)
  else groups ++ [(k, [v])]

def lookupGroup (groups : List (String × List String)) (k : String) :
    Option (List String) :=
  (groups.find? (fun g => g.1 = k)).map (·.2)

/-- Embeds `list_instances_by_lifecycle`. -/
def listInstancesByLifecycle (w : Ec2World) (filters : List Filter) :
    List (String × List String) :=
  (w.instances.filter (fun i => filters.all (instanceMatchesFilter i))).foldl
    (fun groups i => addToGroup groups i.lifecycle i.instanceId) []

/-- Embeds `get_instance_lifecycle_by_ids` (describe by ids fails on an
unknown id). -/
def getInstanceLifecycleByIds (w : Ec2World) (ids : List String) :
    Except String (List (String × List String)) :=
  if ids.all (fun i => i ∈ w.instances.map (·.instanceId)) then
    .ok ((w.instances.filter (fun i => i.instanceId ∈ ids)).foldl
      (fun groups i => addToGroup groups i.lifecycle i.instanceId) [])
  else .error ("InvalidInstanceID.NotFound")

def lookupInstance (w : Ec2World) (id : String) : Option Ec2Instance :=
  w.instances.find? (fun i => i.instanceId = id)

def setInstancesState (w : Ec2World) (ids : List String) (st : String) : Ec2World :=
  { w with instances := w.instances.map (fun i =>
      if i.instanceId ∈ ids then { i with state := st } else i) }

/-- World effect and response of the `stop_instances` AWS call. -/
def stopInstancesApi (w : Ec2World) (ids : List String) :
    List InstanceStateChange × Ec2World :=
  (ids.filterMap (fun id => (lookupInstance w id).map
     (fun i => ⟨id, i.state, ("stopping")⟩)),
   setInstancesState w ids ("stopping"))

/-- World effect and response of the `terminate_instances` AWS call. -/
def terminateInstancesApi (w : Ec2World) (ids : List String) :
    List InstanceStateChange × Ec2World :=
  (ids.filterMap (fun id => (lookupInstance w id).map
     (fun i => ⟨id, i.state, ("shutting-down")⟩)),
   setInstancesState w ids ("shutting-down"))

/-- World effect and response of the `start_instances` AWS call. -/
def startInstancesApi (w : Ec2World) (ids : List String) :
    List InstanceStateChange × Ec2World :=
  (ids.filterMap (fun id => (lookupInstance w id).map
     (fun i => ⟨id, i.state, ("pending")⟩)),
   setInstancesState w ids ("pending"))

/-- Spot request ids of the instances listed under the `spot` lifecycle
(`describe_instances` on the ids followed by the
`SpotInstanceRequestId` extraction); fails when an instance is unknown
or carries no request id. -/
def spotRequestIdsOf (w : Ec2World) (ids : List String) : Except String (List String) :=
  ids.foldr (fun id acc => do
    let rest ← acc
    match lookupInstance w id with
    | none => .error ("InvalidInstanceID.NotFound")
    | some i =>
      if i.lifecycle = ("spot") then
        match i.spotInstanceRequestId with
        | none => .error ("KeyError: SpotInstanceRequestId")
        | some r => .ok (r :: rest)
      else .ok rest) (.ok [])

/-- Embeds the `describe_spot_instance_requests` pagination (fails on an
unknown request id). -/
def describeSpotRequests (w : Ec2World) (ids : List String) :
    Except String (List SpotRequest) :=
  if ids.all (fun i => i ∈ w.spotRequests.map (·.spotInstanceRequestId)) then
    .ok (w.spotRequests.filter (fun r => r.spotInstanceRequestId ∈ ids))
  else .error ("InvalidSpotInstanceRequestID.NotFound")

/-- The spot-lifecycle block of `stop_instances_any_lifecycle`: collects
the spot request ids, partitions the requests into persistent and
one-time, force-stops the persistent spot instances, and cancels then
terminates the one-time ones. -/
def handleSpotLifecycle (w : Ec2World) (spotIds : List String) (force : Bool) :
    Except String (List StopResponse × Ec2World × List ApiCall) := do
  let spotRequestIds ← spotRequestIdsOf w spotIds
  let spotInstanceRequests ← describeSpotRequests w spotRequestIds
  let persistentSpotInstanceIds :=
    (spotInstanceRequests.filter (fun r => r.requestType = ("persistent"))).map (·.instanceId)
  let _persistentSpotRequestIds :=
    (spotInstanceRequests.filter (fun r => r.requestType = ("persistent"))).map (·.spotInstanceRequestId)
  let oneTimeSpotRequestIds :=
    (spotInstanceRequests.filter (fun r => r.requestType = ("one-time"))).map (·.spotInstanceRequestId)
  let oneTimeSpotInstanceIds :=
    (spotInstanceRequests.filter (fun r => r.requestType = ("one-time"))).map (·.instanceId)
  let (resA, wA, tA) :=
    if persistentSpotInstanceIds ≠ [] then
      let (changes, wP) := stopInstancesApi w persistentSpotInstanceIds
      ([StopResponse.stopResp changes], wP,
       [ApiCall.stopInstancesCall persistentSpotInstanceIds force])
    else ([], w, [])
  let (resB, wB, tB) :=
    if oneTimeSpotRequestIds ≠ [] ∧ oneTimeSpotInstanceIds ≠ [] then
      let (changes, wT) := terminateInstancesApi wA oneTimeSpotInstanceIds
      ([StopResponse.termResp changes], wT,
       [ApiCall.cancelSpotRequestsCall oneTimeSpotRequestIds,
        ApiCall.terminateInstancesCall oneTimeSpotInstanceIds])
    else ([], wA, [])
  pure (resA ++ resB, wB, tA ++ tB)

/-- Embeds `stop_instances_any_lifecycle`. -/
def stopInstancesAnyLifecycle (w : Ec2World)
    (instanceLifecycles : List (String × List String)) (force : Bool) :
    Except String (List StopResponse × Ec2World × List ApiCall) := do
  let (results1, w1, t1) ←
    match lookupGroup instanceLifecycles ("normal") with
    | some normalIds =>
      let (changes, wA) := stopInstancesApi w normalIds
      pure ([StopResponse.stopResp changes], wA,
            [ApiCall.stopInstancesCall normalIds force])
    | none => pure (([] : List StopResponse), w, ([] : List ApiCall))
  let (results2, w2, t2) ←
    match lookupGroup instanceLifecycles ("spot") with
    | some spotIds => handleSpotLifecycle w1 spotIds force
    | none => pure (([] : List StopResponse), w1, ([] : List ApiCall))
  if (lookupGroup instanceLifecycles ("scheduled")).isSome then
    .error ("Scheduled instances not supported")
  else
    .ok (results1 ++ results2, w2, t1 ++ t2)

end AzChaos
namespace AzChaos

/-- Python truthiness of an optional string (None and the empty string
are falsy). -/
def optStrTruthy : Option String → Bool
  | some s => !(s = (""))
  | none => false

/-- Embeds `stop_instances`. -/
def stopInstancesTop (w : Ec2World) (instanceIds : Option (List String))
    (az : Option String) (dryRun : Bool) (filters : Option (List Filter))
    (force : Bool) : Except String (StopResult × Ec2World × List ApiCall) := do
  if ¬ (optStrTruthy az || optTruthy instanceIds || optTruthy filters) then
    .error ("To stop EC2 instances, you must specify either the instance ids, an AZ, or a set of filters")
  else do
    let instanceLifecycles ←
      if ¬ optTruthy instanceIds then do
        let filters := filters.getD []
        let filters := match az with
          | some a => filters ++ [⟨("availability-zone"), [a]⟩]
          | none => filters
        let lifecycles := listInstancesByLifecycle w filters
        if lifecycles = [] then
          .error ("No instances in availability zone")
        else pure lifecycles
      else getInstanceLifecycleByIds w (instanceIds.getD [])
    if ¬ dryRun then do
      let (responses, w1, t1) ← stopInstancesAnyLifecycle w instanceLifecycles force
      .ok (StopResult.real responses, w1, t1)
    else
      .ok (StopResult.dry instanceLifecycles, w, [])

structure InstanceStateBlock where
  instanceId : String
  beforeState : String
  afterState : String
deriving DecidableEq, Repr

/-- State blocks extracted from one mutating-call response
(`non_dry_run_keys` branch of `instance_failure`). -/
def blocksOfResponse : StopResponse → List InstanceStateBlock
  | .stopResp l => l.map (fun c => ⟨c.instanceId, c.previousStateName, c.currentStateName⟩)
  | .termResp l => l.map (fun c => ⟨c.instanceId, c.previousStateName, c.currentStateName⟩)

/-- State blocks built when `stop_instances` returned the dry-run
lifecycle dict (`dry_run_keys` branch of `instance_failure`): iterating
the dict yields its keys, and only the `normal` and `spot` keys
contribute, with empty Before/After states. -/
def blocksOfDryGroups (groups : List (String × List String)) : List InstanceStateBlock :=
  groups.flatMap (fun g =>
    if g.1 = ("normal") ∨ g.1 = ("spot") then
      g.2.map (fun id => ⟨id, (""), ("")⟩)
    else [])

/-- Embeds `instance_failure`. -/
def instanceFailure (w : Ec2World) (az : Option String) (dryRun : Bool)
    (filters : Option (List Filter)) (force : Bool) :
    Except String (List InstanceStateBlock × Ec2World × List ApiCall) := do
  let (stopResult, w1, t1) ← stopInstancesTop w none az dryRun filters force
  match stopResult with
  | .dry groups => .ok (blocksOfDryGroups groups, w1, t1)
  | .real responses => .ok (responses.flatMap blocksOfResponse, w1, t1)

structure Ec2Doc where
  availabilityZone : Option String
  dryRun : Bool
  subnets : List SubnetStateBlock
  instances : List InstanceStateBlock
deriving DecidableEq, Repr

/-- Filter augmentation of `fail_az` in the ec2 module: ensure a tag
filter and an availability-zone filter are present. -/
def ec2AugmentFilters (az : Option String) (filters : Option (List Filter)) : List Filter :=
  let defaultTagFilter : Filter := ⟨("tag:AZ_FAILURE"), [("True")]⟩
  let filters0 := filters.getD []
  if filters0 ≠ [] then
    let fA := if ¬ (filters0.any (fun f => strContains f.name ("tag:"))) then
        filters0 ++ [defaultTagFilter]
      else filters0
    if ¬ (fA.any (fun f => strContains f.name ("availability-zone"))) ∧ optStrTruthy az then
      fA ++ [⟨("availability-zone"), [az.getD ("")]⟩]
    else fA
  else
    (if optStrTruthy az then [(⟨("availability-zone"), [az.getD ("")]⟩ : Filter)] else []) ++
      [defaultTagFilter]

/-- Embeds `fail_az` of the ec2 module. -/
def ec2FailAz (w : Ec2World) (fs : FS Ec2Doc) (az : Option String)
    (dryRun : Option Bool) (failureType : String) (filters : Option (List Filter))
    (statePath : String) :
    Except String (Ec2Doc × Ec2World × FS Ec2Doc × List ApiCall) := do
  let dryRun ← match dryRun with
    | none => .error ("you must specify a dry_run boolean parameter")
    | some b => pure b
  if ¬ (optStrTruthy az || optTruthy filters) then
    .error ("you must specify an Availability Zone, or provide a set of filters")
  else if ¬ optStrTruthy az ∧
      ¬ ((filters.getD []).any (fun f => strContains f.name ("availability-zone"))) then
    .error ("you must specify an Availability Zone, or provide a set of filters with an AZ defined")
  else do
    let statePath ← validateFailAzPath Ec2Doc.dryRun true statePath ("ec2") fs
    let filters1 := ec2AugmentFilters az filters
    if failureType = ("network") then do
      let subnets := describeSubnetsEc2 w filters1
      if subnets = [] then
        .error ("No subnets found")
      else do
        let subnetIds := subnets.map (·.subnetId)
        let vpcIds := (subnets.map (·.vpcId)).dedup
        let (subnetsState, w1, t1) ← networkFailure w vpcIds subnetIds dryRun
        let doc : Ec2Doc := ⟨az, dryRun, subnetsState, []⟩
        .ok (doc, w1, fs.write statePath doc, t1)
    else if failureType = ("instance") then do
      let instanceStateNames := [("pending"), ("running")]
      let filters2 :=
        if filters1 ≠ [] then
          if ¬ (filters1.any (fun f => strContains f.name ("instance-state-name"))) then
            filters1 ++ [⟨("instance-state-name"), instanceStateNames⟩]
          else filters1
        else filters1
      let (instancesState, w1, t1) ← instanceFailure w az dryRun (some filters2) true
      let doc : Ec2Doc := ⟨az, dryRun, [], instancesState⟩
      .ok (doc, w1, fs.write statePath doc, t1)
    else do
      let doc : Ec2Doc := ⟨az, dryRun, [], []⟩
      .ok (doc, w, fs.write statePath doc, [])

/-- Embeds `instance_state`. -/
def instanceStateIs (w : Ec2World) (state : String) (ids : List String) : Bool :=
  let insts := w.instances.filter (fun i => i.instanceId ∈ ids)
  if insts ≠ [] then insts.all (fun i => i.state = state) else false

/-- The rollback-eligible instance records of a state document (the
`target_instances` filter of `recover_az`). -/
def targetInstancesOf (doc : Ec2Doc) : List InstanceStateBlock :=
  doc.instances.filter (fun i =>
    (i.beforeState = ("pending") ∨ i.beforeState = ("running")) ∧
    i.afterState = ("stopping"))

/-- Current-live-state classification loop of `recover_az`: partitions
the target instance ids into stopped / stopping / ignored, preserving
order. -/
def classifyTargets (w : Ec2World) : List String → List String × List String × List String
  | [] => ([], [], [])
  | tid :: rest =>
    let (st, sg, ig) := classifyTargets w rest
    if instanceStateIs w ("stopped") [tid] then (tid :: st, sg, ig)
    else if instanceStateIs w ("stopping") [tid] then (st, tid :: sg, ig)
    else (st, sg, tid :: ig)

/-- Embeds `start_instances_any_lifecycle`. -/
def startInstancesAnyLifecycle (w : Ec2World) :
    List (String × List String) → List InstanceStateChange × Ec2World × List ApiCall
  | [] => ([], w, [])
  | (_, v) :: rest =>
    let (changes, w1) := startInstancesApi w v
    let (changes2, w2, t2) := startInstancesAnyLifecycle w1 rest
    (changes ++ changes2, w2, ApiCall.startInstancesCall v :: t2)

/-- Embeds `start_instances` for the call shape used by `recover_az`
(explicit instance ids). -/
def startInstances (w : Ec2World) (instanceIds : List String) :
    Except String (List InstanceStateChange × Ec2World × List ApiCall) := do
  if instanceIds = [] then
    .error ("To start instances, you must specify the instance-id, an Availability Zone, or filters")
  else do
    let instanceTypes ← getInstanceLifecycleByIds w instanceIds
    .ok (startInstancesAnyLifecycle w instanceTypes)

def ec2RecoverSubnetsLoop (w : Ec2World) :
    List SubnetStateBlock → Except String (Ec2World × List ApiCall)
  | [] => .ok (w, [])
  | s :: rest => do
    let (_, w1, t1) ←
      replaceNetworkAclAssociationApi w s.beforeNetworkAclId s.afterNetworkAclAssociationId
    let (w2, t2) ← ec2RecoverSubnetsLoop w1 rest
    .ok (w2, t1 ++ t2)

def ec2DeleteAclsLoop (w : Ec2World) :
    List String → Except String (Ec2World × List ApiCall)
  | [] => .ok (w, [])
  | aclId :: rest => do
    let (w1, t1) ← deleteNetworkAclApi w aclId
    let (w2, t2) ← ec2DeleteAclsLoop w1 rest
    .ok (w2, t1 ++ t2)

/-- Embeds `recover_az` of the ec2 module. -/
def ec2RecoverAz (w : Ec2World) (fs : FS Ec2Doc) (statePath : String) :
    Except String (Bool × Ec2World × FS Ec2Doc × List ApiCall) := do
  let statePath ← validateFailAzPath Ec2Doc.dryRun false statePath ("ec2") fs
  let failAzState ← match fs.getFile statePath with
    | some d => pure d
    | none => .error ("failed to load state file")
  if failAzState.dryRun then
    .error ("State file was generated from a dry run")
  else do
    let targetSubnets := failAzState.subnets
    let targetInstances := targetInstancesOf failAzState
    let (w1, t1) ←
      if targetSubnets ≠ [] then do
        let (wA, tA) ← ec2RecoverSubnetsLoop w targetSubnets
        let blackholeAclIds := (targetSubnets.map (·.afterNetworkAclId)).dedup
        let (wB, tB) ← ec2DeleteAclsLoop wA blackholeAclIds
        pure (wB, tA ++ tB)
      else pure (w, ([] : List ApiCall))
    let (w2, t2) ←
      if targetInstances ≠ [] then do
        let targetInstancesIds := targetInstances.map (·.instanceId)
        let (stoppedInstancesIds, stoppingInstancesIds, _) :=
          classifyTargets w1 targetInstancesIds
        if stoppingInstancesIds ≠ [] then
          .error ("Error rolling back instances as instance state is stopping")
        else if stoppedInstancesIds = [] then
          .error ("Error rolling back instances as instance state is not stopped")
        else do
          let (_, wC, tC) ← startInstances w1 stoppedInstancesIds
          pure (wC, tC)
      else pure (w1, ([] : List ApiCall))
    .ok (true, w2, fs.remove statePath, t1 ++ t2)

end AzChaos
namespace AzChaos

theorem FS.getFile_write {δ : Type} (fs : FS δ) (p : String) (d : δ) :
    (fs.write p d).getFile p = some d := by
  simp [FS.write, FS.getFile, FS.lookup]

def isOkE {ε α : Type} : Except ε α → Bool
  | .ok _ => true
  | .error _ => false

/-- Characterization of the pre-flight validation for a new fail
operation: it fails exactly when the original path is a directory or the
normalized path holds an existing non-dry-run state file. -/
theorem validateFailAzPath_fail_iff {δ : Type} (dryRunOf : δ → Bool)
    (path service : String) (fs : FS δ) :
    isOkE (validateFailAzPath dryRunOf true path service fs) = false ↔
      (fs.isDir path = true ∨
       ∃ d, fs.getFile (normalizePath path service) = some d ∧ dryRunOf d = false) := by
  unfold validateFailAzPath normalizePath
  by_cases hd : fs.isDir path
  · simp [hd, isOkE]
  · simp only [hd, ite_false, Bool.false_eq_true, false_or]
    rcases hf : fs.getFile (if lowerString (splitext path).2 = (".json") then path
        else path ++ (".") ++ lowerString service ++ (".json")) with _ | d
    · simp [hf, isOkE]
    · by_cases hdr : dryRunOf d
      · simp [hf, hdr, isOkE]
      · simp [hf, hdr, isOkE]

/-- A file system holding a directory at the raw state path, used to
exhibit the validator failure mode that is unrelated to any existing
state file. -/
def dirFs : FS AsgDoc := ⟨[(("st"), FsNode.dir)]⟩

/-- An existing dry-run state file at the normalized path. -/
def dryRunAsgDoc : AsgDoc := { availabilityZone := ("az-a"), dryRun := true, autoScalingGroups := [] }

def dryFileFs : FS AsgDoc := ⟨[(("st.asg.json"), FsNode.file dryRunAsgDoc)]⟩

/-- C4 counterexample: with a directory at the provided path, pre-flight
validation raises even though no state file exists at the normalized
path, refuting the claimed "if and only if". -/
theorem validate_fail_az_path_iff_counterexample :
    isOkE (validateFailAzPath AsgDoc.dryRun true ("st") ("asg") dirFs) = false ∧
    FS.getFile dirFs (normalizePath ("st") ("asg")) = none := by
  exact ⟨rfl, rfl⟩

/-- C4 (amended): for a new fail operation the path pre-flight validation
fails exactly when the raw path is a directory or the normalized path
references an existing state file whose DryRun field is false; an
existing dry-run file passes validation and is silently overwritten by a
successful `fail_az`; and no successful `fail_az` run exists whose path
validation failed (mutations happen only after validation succeeds). -/
theorem validate_fail_az_path_amended :
    (∀ (path service : String) (fs : FS AsgDoc),
       isOkE (validateFailAzPath AsgDoc.dryRun true path service fs) = false ↔
         (fs.isDir path = true ∨
          ∃ d, fs.getFile (normalizePath path service) = some d ∧ d.dryRun = false)) ∧
    (∀ (w : AsgWorld) (fs : FS AsgDoc) (az : String) (dr : Option Bool)
       (tags : List (String × String)) (path e : String),
       validateFailAzPath AsgDoc.dryRun true path ("asg") fs = .error e →
       ∀ r, asgFailAz w fs az dr tags path ≠ .ok r) ∧
    (∀ (w : AsgWorld) (fs : FS AsgDoc) (az : String) (dr : Option Bool)
       (tags : List (String × String)) (path : String)
       (doc : AsgDoc) (w' : AsgWorld) (fs' : FS AsgDoc) (tr : List ApiCall),
       asgFailAz w fs az dr tags path = .ok (doc, w', fs', tr) →
       fs'.getFile (normalizePath path ("asg")) = some doc) := by
  refine ⟨fun path service fs => validateFailAzPath_fail_iff AsgDoc.dryRun path service fs, ?_, ?_⟩
  · intro w fs az dr tags path e hval r hok
    obtain ⟨doc, w', fs', tr⟩ := r
    obtain ⟨b, p', _, _, hok2, _⟩ := asgFailAz_ok_inv w fs az dr tags path doc w' fs' tr hok
    rw [hval] at hok2
    exact absurd hok2 (by simp)
  · intro w fs az dr tags path doc w' fs' tr hok
    obtain ⟨b, p', _, _, hval, _, _, _, _, _, _, _, hfs⟩ :=
      asgFailAz_ok_inv w fs az dr tags path doc w' fs' tr hok
    rw [hfs, validateFailAzPath_ok_path AsgDoc.dryRun true path ("asg") fs p' hval]
    exact FS.getFile_write fs (normalizePath path ("asg")) doc

theorem validate_fail_az_path_amended_witness :
    (∀ r, asgFailAz asgWitnessWorld dirFs ("az-a") (some false)
        [(("AZ_FAILURE"), ("True"))] ("st") ≠ .ok r) ∧
    (FS.write dryFileFs ("st.asg.json") asgWitnessDoc).getFile
        (normalizePath ("st") ("asg")) = some asgWitnessDoc := by
  constructor
  · exact validate_fail_az_path_amended.2.1 asgWitnessWorld dirFs ("az-a") (some false)
      [(("AZ_FAILURE"), ("True"))] ("st") ("path you provided is a path to a directory") rfl
  · exact validate_fail_az_path_amended.2.2 asgWitnessWorld dryFileFs ("az-a") (some false)
      [(("AZ_FAILURE"), ("True"))] ("st") asgWitnessDoc asgWitnessWorldAfter
      (FS.write dryFileFs ("st.asg.json") asgWitnessDoc) asgWitnessTrace (by rfl)

end AzChaos
namespace AzChaos

theorem spotRequestIdsOf_mem (w : Ec2World) :
    ∀ (ids : List String) (rids : List String),
      spotRequestIdsOf w ids = .ok rids →
      ∀ id inst r, id ∈ ids → lookupInstance w id = some inst →
        inst.lifecycle = ("spot") → inst.spotInstanceRequestId = some r → r ∈ rids := by
  intro ids
  induction ids with
  | nil => intro rids h id inst r hid _ _ _; simp at hid
  | cons x rest ih =>
    intro rids h id inst r hid hinst hlc hsir
    rw [show spotRequestIdsOf w (x :: rest) =
        (do
          let rest' ← spotRequestIdsOf w rest
          match lookupInstance w x with
          | none => Except.error ("InvalidInstanceID.NotFound")
          | some i =>
            if i.lifecycle = ("spot") then
              match i.spotInstanceRequestId with
              | none => Except.error ("KeyError: SpotInstanceRequestId")
              | some rr => Except.ok (rr :: rest')
            else Except.ok rest') from rfl] at h
    simp only [bind, Except.bind] at h
    rcases hrest : spotRequestIdsOf w rest with e | rest' <;> rw [hrest] at h <;> dsimp only at h
    · exact absurd h (by simp)
    · rw [List.mem_cons] at hid
      rcases hid with hid | hid
      · subst hid
        rw [hinst] at h
        dsimp only at h
        rw [if_pos hlc, hsir] at h
        simp only [Except.ok.injEq] at h
        rw [← h]
        simp
      · have hr := ih rest' hrest id inst r hid hinst hlc hsir
        rcases hlx : lookupInstance w x with _ | i <;> rw [hlx] at h <;> dsimp only at h
        · exact absurd h (by simp)
        · by_cases hlci : i.lifecycle = ("spot")
          · rw [if_pos hlci] at h
            rcases hsiri : i.spotInstanceRequestId with _ | rr <;> rw [hsiri] at h <;> dsimp only at h
            · exact absurd h (by simp)
            · simp only [Except.ok.injEq] at h
              rw [← h]
              simp [hr]
          · rw [if_neg hlci] at h
            simp only [Except.ok.injEq] at h
            rw [← h]
            exact hr

theorem describeSpotRequests_ok (w : Ec2World) (ids : List String)
    (l : List SpotRequest) (h : describeSpotRequests w ids = .ok l) :
    l = w.spotRequests.filter (fun r => r.spotInstanceRequestId ∈ ids) := by
  unfold describeSpotRequests at h
  split at h
  · simp only [Except.ok.injEq] at h
    exact h.symm
  · exact absurd h (by simp)

theorem handleSpot_one_time (w : Ec2World) (spotIds : List String) (force : Bool)
    (res2 : List StopResponse) (w2 : Ec2World) (t2 : List ApiCall)
    (h : handleSpotLifecycle w spotIds force = .ok (res2, w2, t2))
    (iid rid : String) (inst : Ec2Instance) (req : SpotRequest)
    (hmem : iid ∈ spotIds) (hinst : lookupInstance w iid = some inst)
    (hlc : inst.lifecycle = ("spot")) (hsir : inst.spotInstanceRequestId = some rid)
    (hreq : req ∈ w.spotRequests) (hreqid : req.spotInstanceRequestId = rid)
    (htype : req.requestType = ("one-time")) (hreqinst : req.instanceId = iid)
    (huniq : ∀ r ∈ w.spotRequests, r.instanceId = iid → r = req) :
    ∃ tA reqIds instIds,
      t2 = tA ++ [ApiCall.cancelSpotRequestsCall reqIds, ApiCall.terminateInstancesCall instIds] ∧
      rid ∈ reqIds ∧ iid ∈ instIds ∧
      ∀ ids f, ApiCall.stopInstancesCall ids f ∈ t2 → iid ∉ ids := by
  unfold handleSpotLifecycle at h
  simp only [bind, Except.bind, pure, Except.pure] at h
  rcases hrids : spotRequestIdsOf w spotIds with e | spotRequestIds <;> rw [hrids] at h <;>
    dsimp only at h
  · exact absurd h (by simp)
  have hridmem : rid ∈ spotRequestIds :=
    spotRequestIdsOf_mem w spotIds spotRequestIds hrids iid inst rid hmem hinst hlc hsir
  rcases hreqs : describeSpotRequests w spotRequestIds with e | requests <;> rw [hreqs] at h <;>
    dsimp only at h
  · exact absurd h (by simp)
  have hreqsval := describeSpotRequests_ok w spotRequestIds requests hreqs
  have hreqmem : req ∈ requests.filter (fun r => r.requestType = ("one-time")) := by
    rw [hreqsval]
    rw [List.mem_filter, List.mem_filter]
    refine ⟨⟨hreq, ?_⟩, by simp [htype]⟩
    simp [hreqid, hridmem]
  have hiidmem : iid ∈ (requests.filter (fun r => r.requestType = ("one-time"))).map (·.instanceId) := by
    rw [List.mem_map]
    exact ⟨req, hreqmem, hreqinst⟩
  have hridmem2 : rid ∈ (requests.filter (fun r => r.requestType = ("one-time"))).map (·.spotInstanceRequestId) := by
    rw [List.mem_map]
    exact ⟨req, hreqmem, hreqid⟩
  have hcond : ((requests.filter (fun r => r.requestType = ("one-time"))).map (·.spotInstanceRequestId) ≠ [] ∧
      (requests.filter (fun r => r.requestType = ("one-time"))).map (·.instanceId) ≠ []) :=
    ⟨List.ne_nil_of_mem hridmem2, List.ne_nil_of_mem hiidmem⟩
  have hstopfree : iid ∉ ((requests.filter
      (fun r => r.requestType = ("persistent"))).map (·.instanceId)) := by
    intro hmem2
    rw [List.mem_map] at hmem2
    obtain ⟨r, hrmem, hrid⟩ := hmem2
    rw [List.mem_filter] at hrmem
    have hrw : r ∈ w.spotRequests := by
      have := hrmem.1
      rw [hreqsval, List.mem_filter] at this
      exact this.1
    have := huniq r hrw hrid
    subst this
    have h1 := hrmem.2
    rw [htype] at h1
    simp at h1
  by_cases hpers : ((requests.filter (fun r => r.requestType = ("persistent"))).map (·.instanceId)) ≠ []
  · rw [if_pos hpers, if_pos hcond] at h
    simp only [Except.ok.injEq, Prod.mk.injEq] at h
    obtain ⟨-, -, ht⟩ := h
    refine ⟨_, _, _, ht.symm, hridmem2, hiidmem, ?_⟩
    intro ids f hc
    rw [← ht] at hc
    simp only [List.mem_append, List.mem_cons, List.not_mem_nil, or_false,
      List.mem_singleton] at hc
    rcases hc with hc | hc | hc
    · injection hc with h1 h2
      subst h1
      exact hstopfree
    · exact absurd hc (by simp)
    · exact absurd hc (by simp)
  · rw [if_neg hpers, if_pos hcond] at h
    simp only [Except.ok.injEq, Prod.mk.injEq] at h
    obtain ⟨-, -, ht⟩ := h
    refine ⟨_, _, _, ht.symm, hridmem2, hiidmem, ?_⟩
    intro ids f hc
    rw [← ht] at hc
    simp only [List.nil_append, List.mem_cons, List.not_mem_nil, or_false] at hc
    rcases hc with hc | hc
    · exact absurd hc (by simp)
    · exact absurd hc (by simp)

end AzChaos
namespace AzChaos

theorem lookupInstance_setInstancesState (w : Ec2World) (ids : List String)
    (st iid : String) :
    lookupInstance (setInstancesState w ids st) iid =
      (lookupInstance w iid).map
        (fun i => if i.instanceId ∈ ids then { i with state := st } else i) := by
  unfold lookupInstance setInstancesState
  dsimp only
  rw [List.find?_map]
  have hp : ((fun i : Ec2Instance => decide (i.instanceId = iid)) ∘ fun i =>
      if i.instanceId ∈ ids then { i with state := st } else i) =
      (fun i : Ec2Instance => decide (i.instanceId = iid)) := by
    funext j
    simp only [Function.comp]
    split <;> rfl
  rw [hp]

/-- C7: for every one-time spot instance selected for the spot-lifecycle
handling of `stop_instances_any_lifecycle`, the trace of mutating calls
ends with the cancel-spot-requests call immediately followed by the
terminate-instances call — so the cancel is issued strictly before the
terminate — the instance's request id appears in the cancel call, its
instance id in the terminate call, and no stop-instances call anywhere
in the trace contains that instance. -/
theorem ec2_one_time_spot_ordering (w : Ec2World)
    (instanceLifecycles : List (String × List String)) (force : Bool)
    (res : List StopResponse) (w' : Ec2World) (tr : List ApiCall)
    (h : stopInstancesAnyLifecycle w instanceLifecycles force = .ok (res, w', tr))
    (spotIds : List String) (iid rid : String) (inst : Ec2Instance) (req : SpotRequest)
    (hgroup : lookupGroup instanceLifecycles ("spot") = some spotIds)
    (hmem : iid ∈ spotIds)
    (hinst : lookupInstance w iid = some inst)
    (hlc : inst.lifecycle = ("spot"))
    (hsir : inst.spotInstanceRequestId = some rid)
    (hreq : req ∈ w.spotRequests)
    (hreqid : req.spotInstanceRequestId = rid)
    (htype : req.requestType = ("one-time"))
    (hreqinst : req.instanceId = iid)
    (huniq : ∀ r ∈ w.spotRequests, r.instanceId = iid → r = req)
    (hnotnormal : ∀ ids, lookupGroup instanceLifecycles ("normal") = some ids → iid ∉ ids) :
    ∃ pre reqIds instIds,
      tr = pre ++ [ApiCall.cancelSpotRequestsCall reqIds, ApiCall.terminateInstancesCall instIds] ∧
      rid ∈ reqIds ∧ iid ∈ instIds ∧
      ∀ ids f, ApiCall.stopInstancesCall ids f ∈ tr → iid ∉ ids := by
  unfold stopInstancesAnyLifecycle at h
  simp only [bind, Except.bind, pure, Except.pure] at h
  rw [hgroup] at h
  rcases hnorm : lookupGroup instanceLifecycles ("normal") with _ | normalIds <;>
    rw [hnorm] at h <;> dsimp only at h
  · -- no normal instances
    rcases hsp : handleSpotLifecycle w spotIds force with e | ⟨res2, w2, t2⟩ <;>
      rw [hsp] at h <;> dsimp only at h
    · exact absurd h (by simp)
    · by_cases hsched : (lookupGroup instanceLifecycles ("scheduled")).isSome = true
      · rw [if_pos hsched] at h
        exact absurd h (by simp)
      obtain ⟨tA, reqIds, instIds, ht2, hr, hi, hfree⟩ :=
        handleSpot_one_time w spotIds force res2 w2 t2 hsp iid rid inst req
          hmem hinst hlc hsir hreq hreqid htype hreqinst huniq
      rw [if_neg hsched] at h
      simp only [Except.ok.injEq, Prod.mk.injEq] at h
      obtain ⟨-, -, htr⟩ := h
      refine ⟨tA, reqIds, instIds, ?_, hr, hi, ?_⟩
      · rw [← htr, ht2]
        rfl
      · intro ids f hc
        rw [← htr] at hc
        simp only [List.nil_append] at hc
        exact hfree ids f hc
  · -- normal instances are stopped first; the spot handling then runs on
    -- the updated world, where lifecycle and spot-request data are intact
    have hw1 : (stopInstancesApi w normalIds).2 = setInstancesState w normalIds ("stopping") := rfl
    have hinst1 : lookupInstance (setInstancesState w normalIds ("stopping")) iid =
        some (if inst.instanceId ∈ normalIds then { inst with state := ("stopping") } else inst) := by
      rw [lookupInstance_setInstancesState, hinst]
      rfl
    have hlc1 : (if inst.instanceId ∈ normalIds then { inst with state := ("stopping") } else inst).lifecycle = ("spot") := by
      split <;> exact hlc
    have hsir1 : (if inst.instanceId ∈ normalIds then { inst with state := ("stopping") } else inst).spotInstanceRequestId = some rid := by
      split <;> exact hsir
    rcases hsp : handleSpotLifecycle (setInstancesState w normalIds ("stopping")) spotIds force
        with e | ⟨res2, w2, t2⟩ <;> rw [hw1, hsp] at h <;> dsimp only at h
    · exact absurd h (by simp)
    · by_cases hsched : (lookupGroup instanceLifecycles ("scheduled")).isSome = true
      · rw [if_pos hsched] at h
        exact absurd h (by simp)
      obtain ⟨tA, reqIds, instIds, ht2, hr, hi, hfree⟩ :=
        handleSpot_one_time (setInstancesState w normalIds ("stopping")) spotIds force
          res2 w2 t2 hsp iid rid
          (if inst.instanceId ∈ normalIds then { inst with state := ("stopping") } else inst) req
          hmem hinst1 hlc1 hsir1 hreq hreqid htype hreqinst huniq
      rw [if_neg hsched] at h
      simp only [Except.ok.injEq, Prod.mk.injEq] at h
      obtain ⟨-, -, htr⟩ := h
      refine ⟨ApiCall.stopInstancesCall normalIds force :: tA, reqIds, instIds, ?_, hr, hi, ?_⟩
      · rw [← htr, ht2]
        rfl
      · intro ids f hc
        rw [← htr] at hc
        simp only [List.cons_append, List.nil_append, List.mem_cons] at hc
        rcases hc with hc | hc
        · injection hc with h1 h2
          subst h1
          exact hnotnormal ids hnorm
        · exact hfree ids f hc

end AzChaos
namespace AzChaos

def spotWitnessInst : Ec2Instance :=
  { instanceId := ("i-1"), state := ("running"), az := ("az-a"), lifecycle := ("spot"),
    spotInstanceRequestId := some ("sir-1"), tags := [(("AZ_FAILURE"), ("True"))] }

def spotWitnessReq : SpotRequest := ⟨("sir-1"), ("one-time"), ("i-1")⟩

def spotWitnessWorld : Ec2World :=
  { instances := [
      spotWitnessInst,
      { instanceId := ("i-2"), state := ("running"), az := ("az-a"), lifecycle := ("normal"),
        spotInstanceRequestId := none, tags := [(("AZ_FAILURE"), ("True"))] }],
    spotRequests := [spotWitnessReq],
    subnets := [], acls := [], nextId := 0 }

def spotWitnessGroups : List (String × List String) :=
  [(("normal"), [("i-2")]), (("spot"), [("i-1")])]

def spotWitnessTrace : List ApiCall :=
  [ApiCall.stopInstancesCall [("i-2")] true,
   ApiCall.cancelSpotRequestsCall [("sir-1")],
   ApiCall.terminateInstancesCall [("i-1")]]

theorem ec2_one_time_spot_ordering_witness :
    ∃ pre reqIds instIds,
      spotWitnessTrace =
        pre ++ [ApiCall.cancelSpotRequestsCall reqIds, ApiCall.terminateInstancesCall instIds] ∧
      ("sir-1") ∈ reqIds ∧ ("i-1") ∈ instIds ∧
      ∀ ids f, ApiCall.stopInstancesCall ids f ∈ spotWitnessTrace → ("i-1") ∉ ids := by
  refine ec2_one_time_spot_ordering spotWitnessWorld spotWitnessGroups true
    [StopResponse.stopResp [⟨("i-2"), ("running"), ("stopping")⟩],
     StopResponse.termResp [⟨("i-1"), ("running"), ("shutting-down")⟩]]
    { instances := [
        { spotWitnessInst with state := ("shutting-down") },
        { instanceId := ("i-2"), state := ("stopping"), az := ("az-a"), lifecycle := ("normal"),
          spotInstanceRequestId := none, tags := [(("AZ_FAILURE"), ("True"))] }],
      spotRequests := [spotWitnessReq], subnets := [], acls := [], nextId := 0 }
    spotWitnessTrace (by rfl) [("i-1")] ("i-1") ("sir-1") spotWitnessInst spotWitnessReq
    rfl (by decide) rfl rfl rfl (by decide) rfl rfl rfl (by decide) ?_
  intro ids h
  rw [show lookupGroup spotWitnessGroups ("normal") = some [("i-2")] from rfl] at h
  injection h with h
  subst h
  decide

end AzChaos
namespace AzChaos

theorem classifyTargets_mem (w : Ec2World) :
    ∀ (tids : List String) (x : String),
      (x ∈ (classifyTargets w tids).1 ↔
        (x ∈ tids ∧ instanceStateIs w ("stopped") [x] = true)) ∧
      (x ∈ (classifyTargets w tids).2.1 ↔
        (x ∈ tids ∧ instanceStateIs w ("stopped") [x] = false ∧
         instanceStateIs w ("stopping") [x] = true)) ∧
      (x ∈ (classifyTargets w tids).2.2 ↔
        (x ∈ tids ∧ instanceStateIs w ("stopped") [x] = false ∧
         instanceStateIs w ("stopping") [x] = false)) := by
  intro tids
  induction tids with
  | nil => intro x; simp [classifyTargets]
  | cons tid rest ih =>
    intro x
    obtain ⟨ih1, ih2, ih3⟩ := ih x
    unfold classifyTargets
    rcases hcl : classifyTargets w rest with ⟨st, sg, ig⟩
    rw [hcl] at ih1 ih2 ih3
    dsimp only at ih1 ih2 ih3 ⊢
    by_cases h1 : instanceStateIs w ("stopped") [tid] = true
    · rw [if_pos h1]
      dsimp only
      constructor
      · rw [List.mem_cons, ih1]
        constructor
        · rintro (rfl | ⟨hm, hs⟩)
          · exact ⟨by simp, h1⟩
          · exact ⟨by simp [hm], hs⟩
        · rintro ⟨hm, hs⟩
          rw [List.mem_cons] at hm
          rcases hm with rfl | hm
          · exact Or.inl rfl
          · exact Or.inr ⟨hm, hs⟩
      constructor
      · rw [ih2]
        constructor
        · rintro ⟨hm, hs⟩
          exact ⟨by simp [hm], hs⟩
        · rintro ⟨hm, hs1, hs2⟩
          rw [List.mem_cons] at hm
          rcases hm with rfl | hm
          · rw [h1] at hs1; exact absurd hs1 (by simp)
          · exact ⟨hm, hs1, hs2⟩
      · rw [ih3]
        constructor
        · rintro ⟨hm, hs⟩
          exact ⟨by simp [hm], hs⟩
        · rintro ⟨hm, hs1, hs2⟩
          rw [List.mem_cons] at hm
          rcases hm with rfl | hm
          · rw [h1] at hs1; exact absurd hs1 (by simp)
          · exact ⟨hm, hs1, hs2⟩
    · rw [if_neg h1]
      have h1f : instanceStateIs w ("stopped") [tid] = false := by
        rcases hb : instanceStateIs w ("stopped") [tid] with _ | _
        · rfl
        · exact absurd hb h1
      by_cases h2 : instanceStateIs w ("stopping") [tid] = true
      · rw [if_pos h2]
        dsimp only
        constructor
        · rw [ih1]
          constructor
          · rintro ⟨hm, hs⟩
            exact ⟨by simp [hm], hs⟩
          · rintro ⟨hm, hs⟩
            rw [List.mem_cons] at hm
            rcases hm with rfl | hm
            · exact absurd hs h1
            · exact ⟨hm, hs⟩
        constructor
        · rw [List.mem_cons, ih2]
          constructor
          · rintro (rfl | ⟨hm, hs1, hs2⟩)
            · exact ⟨by simp, h1f, h2⟩
            · exact ⟨by simp [hm], hs1, hs2⟩
          · rintro ⟨hm, hs1, hs2⟩
            rw [List.mem_cons] at hm
            rcases hm with rfl | hm
            · exact Or.inl rfl
            · exact Or.inr ⟨hm, hs1, hs2⟩
        · rw [ih3]
          constructor
          · rintro ⟨hm, hs1, hs2⟩
            exact ⟨by simp [hm], hs1, hs2⟩
          · rintro ⟨hm, hs1, hs2⟩
            rw [List.mem_cons] at hm
            rcases hm with rfl | hm
            · rw [h2] at hs2; exact absurd hs2 (by simp)
            · exact ⟨hm, hs1, hs2⟩
      · rw [if_neg h2]
        have h2f : instanceStateIs w ("stopping") [tid] = false := by
          rcases hb : instanceStateIs w ("stopping") [tid] with _ | _
          · rfl
          · exact absurd hb h2
        dsimp only
        constructor
        · rw [ih1]
          constructor
          · rintro ⟨hm, hs⟩
            exact ⟨by simp [hm], hs⟩
          · rintro ⟨hm, hs⟩
            rw [List.mem_cons] at hm
            rcases hm with rfl | hm
            · exact absurd hs h1
            · exact ⟨hm, hs⟩
        constructor
        · rw [ih2]
          constructor
          · rintro ⟨hm, hs1, hs2⟩
            exact ⟨by simp [hm], hs1, hs2⟩
          · rintro ⟨hm, hs1, hs2⟩
            rw [List.mem_cons] at hm
            rcases hm with rfl | hm
            · rw [h2f] at hs2; exact absurd hs2 (by simp)
            · exact ⟨hm, hs1, hs2⟩
        · rw [List.mem_cons, ih3]
          constructor
          · rintro (rfl | ⟨hm, hs1, hs2⟩)
            · exact ⟨by simp, h1f, h2f⟩
            · exact ⟨by simp [hm], hs1, hs2⟩
          · rintro ⟨hm, hs1, hs2⟩
            rw [List.mem_cons] at hm
            rcases hm with rfl | hm
            · exact Or.inl rfl
            · exact Or.inr ⟨hm, hs1, hs2⟩

theorem stateIs_mutex (w : Ec2World) (x : String)
    (h1 : instanceStateIs w ("stopped") [x] = true)
    (h2 : instanceStateIs w ("stopping") [x] = true) : False := by
  unfold instanceStateIs at h1 h2
  rcases hl : w.instances.filter (fun i => i.instanceId ∈ [x]) with _ | ⟨i, rest⟩ <;>
    rw [hl] at h1 h2
  · simp at h1
  · simp only [ne_eq, reduceCtorEq, not_false_eq_true, if_true, List.all_cons,
      Bool.and_eq_true] at h1 h2
    have e1 : i.state = ("stopped") := by
      have := h1.1; simpa using this
    have e2 : i.state = ("stopping") := by
      have := h2.1; simpa using this
    rw [e1] at e2
    exact absurd e2 (by decide)

theorem mem_addToGroup (groups : List (String × List String)) (k v x : String) :
    (∃ g ∈ addToGroup groups k v, x ∈ g.2) ↔ (∃ g ∈ groups, x ∈ g.2) ∨ x = v := by
  unfold addToGroup
  split
  · rename_i hany
    rw [List.any_eq_true] at hany
    obtain ⟨g0, hg0, hg0k⟩ := hany
    constructor
    · rintro ⟨g, hg, hx⟩
      rw [List.mem_map] at hg
      obtain ⟨g1, hg1, hgeq⟩ := hg
      by_cases hk : g1.1 = k
      · rw [if_pos hk] at hgeq
        rw [← hgeq] at hx
        simp only [List.mem_append, List.mem_singleton] at hx
        rcases hx with hx | hx
        · exact Or.inl ⟨g1, hg1, hx⟩
        · exact Or.inr hx
      · rw [if_neg hk] at hgeq
        rw [← hgeq] at hx
        exact Or.inl ⟨g1, hg1, hx⟩
    · rintro (⟨g, hg, hx⟩ | rfl)
      · by_cases hk : g.1 = k
        · refine ⟨(g.1, g.2 ++ [v]), ?_, by simp [hx]⟩
          rw [List.mem_map]
          exact ⟨g, hg, by rw [if_pos hk]⟩
        · refine ⟨g, ?_, hx⟩
          rw [List.mem_map]
          exact ⟨g, hg, by rw [if_neg hk]⟩
      · refine ⟨(g0.1, g0.2 ++ [x]), ?_, by simp⟩
        rw [List.mem_map]
        have hk : g0.1 = k := by simpa using hg0k
        exact ⟨g0, hg0, by rw [if_pos hk, hk]⟩
  · constructor
    · rintro ⟨g, hg, hx⟩
      rw [List.mem_append, List.mem_singleton] at hg
      rcases hg with hg | hg
      · exact Or.inl ⟨g, hg, hx⟩
      · subst hg
        simp only [List.mem_singleton] at hx
        exact Or.inr hx
    · rintro (⟨g, hg, hx⟩ | rfl)
      · exact ⟨g, by simp [hg], hx⟩
      · exact ⟨(k, [x]), by simp, by simp⟩

theorem mem_foldl_addToGroup :
    ∀ (l : List Ec2Instance) (groups : List (String × List String)) (x : String),
      (∃ g ∈ l.foldl (fun gs i => addToGroup gs i.lifecycle i.instanceId) groups, x ∈ g.2) ↔
      (∃ g ∈ groups, x ∈ g.2) ∨ (∃ i ∈ l, i.instanceId = x) := by
  intro l
  induction l with
  | nil => intro groups x; simp
  | cons i rest ih =>
    intro groups x
    rw [List.foldl_cons, ih, mem_addToGroup]
    constructor
    · rintro ((h | h) | h)
      · exact Or.inl h
      · exact Or.inr ⟨i, by simp, h.symm⟩
      · obtain ⟨j, hj, hjx⟩ := h
        exact Or.inr ⟨j, by simp [hj], hjx⟩
    · rintro (h | ⟨j, hj, hjx⟩)
      · exact Or.inl (Or.inl h)
      · rw [List.mem_cons] at hj
        rcases hj with rfl | hj
        · exact Or.inl (Or.inr hjx.symm)
        · exact Or.inr ⟨j, hj, hjx⟩

theorem mem_lifecycleGroups (w : Ec2World) (ids : List String)
    (groups : List (String × List String))
    (h : getInstanceLifecycleByIds w ids = .ok groups) (x : String) :
    (∃ g ∈ groups, x ∈ g.2) ↔ x ∈ ids := by
  unfold getInstanceLifecycleByIds at h
  split at h
  · rename_i hall
    simp only [Except.ok.injEq] at h
    rw [← h, mem_foldl_addToGroup]
    simp only [List.not_mem_nil, false_and, exists_false, false_or]
    constructor
    · rintro ⟨i, hi, hix⟩
      rw [List.mem_filter] at hi
      rw [← hix]
      simpa using hi.2
    · intro hx
      rw [List.all_eq_true] at hall
      have := hall x hx
      simp only [decide_eq_true_eq, List.mem_map] at this
      obtain ⟨i, hi, hix⟩ := this
      refine ⟨i, ?_, hix⟩
      rw [List.mem_filter]
      exact ⟨hi, by simp [hix, hx]⟩
  · exact absurd h (by simp)

theorem startAnyLifecycle_trace (w : Ec2World) :
    ∀ (groups : List (String × List String)),
      (startInstancesAnyLifecycle w groups).2.2 =
        groups.map (fun g => ApiCall.startInstancesCall g.2) := by
  intro groups
  induction groups generalizing w with
  | nil => rfl
  | cons g rest ih =>
    obtain ⟨k, v⟩ := g
    simp only [startInstancesAnyLifecycle, List.map_cons]
    rw [← ih (startInstancesApi w v).2]

end AzChaos
namespace AzChaos

theorem validateFailAzPath_read_ok {δ : Type} (dryRunOf : δ → Bool)
    (path service : String) (fs : FS δ) (doc : δ)
    (hdir : fs.isDir path = false)
    (hfile : fs.getFile (normalizePath path service) = some doc) :
    validateFailAzPath dryRunOf false path service fs = .ok (normalizePath path service) := by
  unfold validateFailAzPath
  unfold normalizePath at hfile
  rw [if_neg (by rw [hdir]; simp)]
  dsimp only
  rw [hfile]
  simp [normalizePath]

/-- C6: in the ec2 module's `recover_az`, an instance record is
rollback-eligible exactly when its recorded Before state is pending or
running and its recorded After state is stopping; among eligible
records, one whose current live state is stopping makes the whole
rollback fail, one whose current live state is stopped is started, and
one in any other live state is never included in a start-instances
call. -/
theorem ec2_recover_instance_eligibility :
    (∀ (doc : Ec2Doc) (i : InstanceStateBlock),
       i ∈ targetInstancesOf doc ↔
         (i ∈ doc.instances ∧
          (i.beforeState = ("pending") ∨ i.beforeState = ("running")) ∧
          i.afterState = ("stopping"))) ∧
    (∀ (w : Ec2World) (fs : FS Ec2Doc) (path : String) (doc : Ec2Doc),
       fs.isDir path = false →
       fs.getFile (normalizePath path ("ec2")) = some doc →
       doc.subnets = [] →
       (∃ i ∈ targetInstancesOf doc, instanceStateIs w ("stopping") [i.instanceId] = true) →
       ∀ r, ec2RecoverAz w fs path ≠ .ok r) ∧
    (∀ (w : Ec2World) (fs : FS Ec2Doc) (path : String) (doc : Ec2Doc)
       (ok : Bool) (w' : Ec2World) (fs' : FS Ec2Doc) (tr : List ApiCall),
       fs.isDir path = false →
       fs.getFile (normalizePath path ("ec2")) = some doc →
       doc.subnets = [] →
       ec2RecoverAz w fs path = .ok (ok, w', fs', tr) →
       ∀ i ∈ targetInstancesOf doc,
         (instanceStateIs w ("stopped") [i.instanceId] = true →
            ∃ ids, ApiCall.startInstancesCall ids ∈ tr ∧ i.instanceId ∈ ids) ∧
         (instanceStateIs w ("stopped") [i.instanceId] = false →
          instanceStateIs w ("stopping") [i.instanceId] = false →
            ∀ ids, ApiCall.startInstancesCall ids ∈ tr → i.instanceId ∉ ids)) := by
  refine ⟨?_, ?_, ?_⟩
  · intro doc i
    unfold targetInstancesOf
    rw [List.mem_filter]
    simp
  · intro w fs path doc hdir hfile hsub ⟨i, hi, hstopping⟩ r hok
    obtain ⟨ok, w', fs', tr⟩ := r
    unfold ec2RecoverAz at hok
    simp only [bind, Except.bind, pure, Except.pure] at hok
    rw [validateFailAzPath_read_ok Ec2Doc.dryRun path ("ec2") fs doc hdir hfile] at hok
    dsimp only at hok
    rw [hfile] at hok
    dsimp only at hok
    by_cases hdry : doc.dryRun = true
    · rw [if_pos hdry] at hok
      exact absurd hok (by simp)
    · rw [if_neg hdry] at hok
      rw [if_neg (by simp [hsub])] at hok
      have htne : targetInstancesOf doc ≠ [] := List.ne_nil_of_mem hi
      rw [if_pos (by simp [htne])] at hok
      have hstopped : instanceStateIs w ("stopped") [i.instanceId] = false := by
        rcases hb : instanceStateIs w ("stopped") [i.instanceId] with _ | _
        · rfl
        · exact absurd (stateIs_mutex w i.instanceId hb hstopping) (by simp)
      have hmem2 : i.instanceId ∈ (classifyTargets w ((targetInstancesOf doc).map (·.instanceId))).2.1 := by
        rw [((classifyTargets_mem w ((targetInstancesOf doc).map (·.instanceId)) i.instanceId).2.1)]
        exact ⟨List.mem_map_of_mem _ hi, hstopped, hstopping⟩
      rcases hcl : classifyTargets w ((targetInstancesOf doc).map (·.instanceId)) with ⟨st, sg, ig⟩
      rw [hcl] at hok hmem2
      dsimp only at hok hmem2
      rw [if_pos (by simp [List.ne_nil_of_mem hmem2])] at hok
      exact absurd hok (by simp)
  · intro w fs path doc okv w' fs' tr hdir hfile hsub hok i hi
    unfold ec2RecoverAz at hok
    simp only [bind, Except.bind, pure, Except.pure] at hok
    rw [validateFailAzPath_read_ok Ec2Doc.dryRun path ("ec2") fs doc hdir hfile] at hok
    dsimp only at hok
    rw [hfile] at hok
    dsimp only at hok
    by_cases hdry : doc.dryRun = true
    · rw [if_pos hdry] at hok
      exact absurd hok (by simp)
    · rw [if_neg hdry] at hok
      rw [if_neg (by simp [hsub])] at hok
      have htne : targetInstancesOf doc ≠ [] := List.ne_nil_of_mem hi
      rw [if_pos (by simp [htne])] at hok
      rcases hcl : classifyTargets w ((targetInstancesOf doc).map (·.instanceId)) with ⟨st, sg, ig⟩
      rw [hcl] at hok
      dsimp only at hok
      by_cases hsg : sg ≠ []
      · rw [if_pos (by simp [hsg])] at hok
        exact absurd hok (by simp)
      · rw [if_neg hsg] at hok
        by_cases hst : st = []
        · rw [if_pos hst] at hok
          exact absurd hok (by simp)
        · rw [if_neg hst] at hok
          unfold startInstances at hok
          simp only [bind, Except.bind, pure, Except.pure] at hok
          rw [if_neg (by simp [hst])] at hok
          rcases hgr : getInstanceLifecycleByIds w st with e | groups <;> rw [hgr] at hok
          · exact absurd hok (by simp)
          · dsimp only at hok
            simp only [Except.ok.injEq, Prod.mk.injEq] at hok
            obtain ⟨-, -, -, htr⟩ := hok
            have htrval : tr = groups.map (fun g => ApiCall.startInstancesCall g.2) := by
              rw [← htr]
              simp [startAnyLifecycle_trace]
            have hstmem := (classifyTargets_mem w ((targetInstancesOf doc).map (·.instanceId))
              i.instanceId).1
            rw [hcl] at hstmem
            dsimp only at hstmem
            constructor
            · intro hstopped
              have : i.instanceId ∈ st := by
                rw [hstmem]
                exact ⟨List.mem_map_of_mem _ hi, hstopped⟩
              obtain ⟨g, hg, hx⟩ := (mem_lifecycleGroups w st groups hgr i.instanceId).2 this
              refine ⟨g.2, ?_, hx⟩
              rw [htrval, List.mem_map]
              exact ⟨g, hg, rfl⟩
            · intro hstopped hstopping ids hids hx
              rw [htrval, List.mem_map] at hids
              obtain ⟨g, hg, hgeq⟩ := hids
              have hgx : i.instanceId ∈ g.2 := by
                rw [show g.2 = ids from by injection hgeq]
                exact hx
              have : i.instanceId ∈ st :=
                (mem_lifecycleGroups w st groups hgr i.instanceId).1 ⟨g, hg, hgx⟩
              rw [hstmem] at this
              rw [this.2] at hstopped
              exact absurd hstopped (by simp)

end AzChaos
namespace AzChaos

def ec2RecDoc : Ec2Doc :=
  { availabilityZone := some ("az-a"), dryRun := false, subnets := [],
    instances := [⟨("i-1"), ("running"), ("stopping")⟩,
                  ⟨("i-3"), ("running"), ("shutting-down")⟩] }

def ec2RecFs : FS Ec2Doc := ⟨[(("st.ec2.json"), FsNode.file ec2RecDoc)]⟩

def ec2StoppedWorld : Ec2World :=
  { instances := [{ instanceId := ("i-1"), state := ("stopped"), az := ("az-a"),
                    lifecycle := ("normal"), spotInstanceRequestId := none, tags := [] }],
    spotRequests := [], subnets := [], acls := [], nextId := 0 }

def ec2StoppingWorld : Ec2World :=
  { instances := [{ instanceId := ("i-1"), state := ("stopping"), az := ("az-a"),
                    lifecycle := ("normal"), spotInstanceRequestId := none, tags := [] }],
    spotRequests := [], subnets := [], acls := [], nextId := 0 }

theorem ec2_recover_instance_eligibility_witness :
    (∀ r, ec2RecoverAz ec2StoppingWorld ec2RecFs ("st") ≠ .ok r) ∧
    (∃ ids, ApiCall.startInstancesCall ids ∈ [ApiCall.startInstancesCall [("i-1")]] ∧
      ("i-1") ∈ ids) := by
  constructor
  · exact ec2_recover_instance_eligibility.2.1 ec2StoppingWorld ec2RecFs ("st") ec2RecDoc
      rfl rfl rfl ⟨⟨("i-1"), ("running"), ("stopping")⟩, by decide, rfl⟩
  · exact (ec2_recover_instance_eligibility.2.2 ec2StoppedWorld ec2RecFs ("st") ec2RecDoc
      true { instances := [{ instanceId := ("i-1"), state := ("pending"), az := ("az-a"),
                             lifecycle := ("normal"), spotInstanceRequestId := none, tags := [] }],
             spotRequests := [], subnets := [], acls := [], nextId := 0 }
      ⟨[]⟩ [ApiCall.startInstancesCall [("i-1")]]
      rfl rfl rfl (by rfl)
      ⟨("i-1"), ("running"), ("stopping")⟩ (by decide)).1 rfl

end AzChaos
namespace AzChaos

def aclIds (w : Ec2World) : List String := w.acls.map (·.networkAclId)

/-- Well-formedness of the network world: AWS-generated fresh ACL ids
never collide with ids already present. -/
def ec2NetWf (w : Ec2World) : Prop :=
  ∀ n, w.nextId ≤ n → freshAclId n ∉ aclIds w

theorem freshAclId_inj {m n : Nat} (h : freshAclId m = freshAclId n) : m = n := by
  unfold freshAclId at h
  have := congrArg (fun s => s.data.length) h
  simpa using this

/-- The blackhole-cache id either is unset or names only sentinel-tagged
ACLs. -/
def cacheOk (w : Ec2World) (cache : String) : Prop :=
  cache ≠ ("") → ∀ acl ∈ w.acls, acl.networkAclId = cache → isBlackholeAcl acl = true

/-- Ids of the target-subnet associations of an association list. -/
def targIds (subnetIds : List String) (assocs : List NaclAssociation) : List String :=
  (assocs.filter (fun a => a.subnetId ∈ subnetIds)).map (·.networkAclAssociationId)

/-- The tracking invariant: every target association of an untagged ACL
of VPC `v` is still pending. -/
def netInv (subnetIds : List String) (v : String) (pending : List String) (w : Ec2World) : Prop :=
  ∀ acl ∈ w.acls, acl.vpcId = v → isBlackholeAcl acl = false →
    ∀ a ∈ acl.associations, a.subnetId ∈ subnetIds →
      a.networkAclAssociationId ∈ pending

/-- Every ACL of VPC `v` holding a target-subnet association carries the
blackhole sentinel tag. -/
def vpcClean (v : String) (subnetIds : List String) (w : Ec2World) : Prop :=
  ∀ acl ∈ w.acls, acl.vpcId = v → (∃ a ∈ acl.associations, a.subnetId ∈ subnetIds) →
    isBlackholeAcl acl = true

/-- Every ACL holding an association for subnet `s` carries the
blackhole sentinel tag. -/
def subnetClean (s : String) (w : Ec2World) : Prop :=
  ∀ acl ∈ w.acls, (∃ a ∈ acl.associations, a.subnetId = s) → isBlackholeAcl acl = true

/-- VPC arguments of the create-network-acl calls of a trace. -/
def createsIn (t : List ApiCall) : List String :=
  t.filterMap (fun c => match c with
    | ApiCall.createNetworkAclCall v _ => some v
    | _ => none)

theorem netInv_nil_iff_vpcClean (subnetIds : List String) (v : String) (w : Ec2World) :
    netInv subnetIds v [] w ↔ vpcClean v subnetIds w := by
  unfold netInv vpcClean
  constructor
  · intro h acl hacl hv ⟨a, ha, has⟩
    rcases hb : isBlackholeAcl acl with _ | _
    · exact absurd (h acl hacl hv hb a ha has) (by simp)
    · rfl
  · intro h acl hacl hv hb a ha has
    rw [h acl hacl hv ⟨a, ha, has⟩] at hb
    exact absurd hb (by simp)

/-- World formula of a successful `replace_network_acl_association`. -/
theorem replace_ok_formula (w : Ec2World) (aclId X : String) (newId : String)
    (w' : Ec2World) (t : List ApiCall)
    (h : replaceNetworkAclAssociationApi w aclId X = .ok (newId, w', t)) :
    ∃ sub, newId = freshAssocId w.nextId ∧
      t = [ApiCall.replaceNaclAssociationCall aclId X newId] ∧
      w'.nextId = w.nextId + 1 ∧
      w'.acls = w.acls.map (fun a =>
        let a2 : NetworkAcl :=
          { a with associations := a.associations.filter (fun x => x.networkAclAssociationId ≠ X) }
        if a2.networkAclId = aclId then
          { a2 with associations := a2.associations ++ [⟨newId, aclId, sub⟩] }
        else a2) := by
  unfold replaceNetworkAclAssociationApi at h
  split at h
  · exact absurd h (by simp)
  · split at h
    · exact absurd h (by simp)
    · rename_i src hsrc assoc hassoc
      split at h
      · exact absurd h (by simp)
      · simp only [Except.ok.injEq, Prod.mk.injEq] at h
        obtain ⟨hnew, hw, ht⟩ := h
        subst hnew
        refine ⟨assoc.subnetId, rfl, ht.symm, ?_, ?_⟩
        · rw [← hw]
        · rw [← hw]

/-- World formula of a successful `create_network_acl_entry` (the retry
loop only changes the entry list of the named ACL). -/
theorem createEntry_ok_formula (w : Ec2World) (aclId : String) :
    ∀ (n : Nat) (egress : Bool) (w' : Ec2World) (t : List ApiCall),
      createNetworkAclEntry w aclId n egress = .ok (w', t) →
      ∃ k, w' = updateAclIn w aclId (fun a => { a with entries := a.entries ++ [(k, egress)] }) := by
  intro n
  induction n with
  | zero => intro egress w' t h; exact absurd h (by simp [createNetworkAclEntry])
  | succ m ih =>
    intro egress w' t h
    unfold createNetworkAclEntry at h
    split at h
    · exact absurd h (by simp)
    · split at h
      · exact ih egress w' t h
      · simp only [Except.ok.injEq, Prod.mk.injEq] at h
        exact ⟨m + 1, h.1.symm⟩

theorem mem_map_updateEntries (w : Ec2World) (aclId : String) (k : Nat) (egress : Bool)
    (acl' : NetworkAcl)
    (h : acl' ∈ (updateAclIn w aclId (fun a => { a with entries := a.entries ++ [(k, egress)] })).acls) :
    ∃ acl ∈ w.acls, acl'.networkAclId = acl.networkAclId ∧ acl'.vpcId = acl.vpcId ∧
      acl'.tags = acl.tags ∧ acl'.associations = acl.associations := by
  unfold updateAclIn at h
  simp only [List.mem_map] at h
  obtain ⟨acl, hacl, heq⟩ := h
  refine ⟨acl, hacl, ?_⟩
  rw [← heq]
  split <;> simp

end AzChaos
namespace AzChaos

theorem replace_step (w : Ec2World) (cache X newId : String) (w' : Ec2World) (t : List ApiCall)
    (h : replaceNetworkAclAssociationApi w cache X = .ok (newId, w', t))
    (hct : ∀ acl ∈ w.acls, acl.networkAclId = cache → isBlackholeAcl acl = true) :
    (ec2NetWf w → ec2NetWf w') ∧ w.nextId ≤ w'.nextId ∧
    (∀ c, cacheOk w c → cacheOk w' c) ∧
    (∀ s, subnetClean s w → subnetClean s w') ∧
    (∀ u sids, vpcClean u sids w → vpcClean u sids w') ∧
    (∀ sids v P, netInv sids v (X :: P) w → netInv sids v P w') := by
  obtain ⟨sub, hnew, ht, hnext, hacls⟩ := replace_ok_formula w cache X newId w' t h
  have hmem : ∀ acl' ∈ w'.acls, ∃ acl ∈ w.acls,
      acl'.networkAclId = acl.networkAclId ∧ acl'.vpcId = acl.vpcId ∧
      acl'.tags = acl.tags ∧
      ∀ a ∈ acl'.associations,
        (a ∈ acl.associations ∧ a.networkAclAssociationId ≠ X) ∨
        (acl.networkAclId = cache ∧ a = ⟨newId, cache, sub⟩) := by
    intro acl' hacl'
    rw [hacls] at hacl'
    simp only [List.mem_map] at hacl'
    obtain ⟨acl, hacl, heq⟩ := hacl'
    refine ⟨acl, hacl, ?_⟩
    rw [← heq]
    split
    · rename_i hid
      refine ⟨rfl, rfl, rfl, ?_⟩
      intro a ha
      simp only [List.mem_append, List.mem_filter, List.mem_singleton] at ha
      rcases ha with ⟨ha1, ha2⟩ | ha
      · exact Or.inl ⟨ha1, by simpa using ha2⟩
      · exact Or.inr ⟨hid, ha⟩
    · refine ⟨rfl, rfl, rfl, ?_⟩
      intro a ha
      simp only [List.mem_filter] at ha
      exact Or.inl ⟨ha.1, by simpa using ha.2⟩
  have hids : aclIds w' = aclIds w := by
    unfold aclIds
    rw [hacls, List.map_map]
    congr 1
    funext a
    simp only [Function.comp]
    split <;> rfl
  refine ⟨?_, by omega, ?_, ?_, ?_, ?_⟩
  · intro hwf n hn
    rw [hids]
    exact hwf n (by omega)
  · intro c hc hcne acl' hacl' hid
    obtain ⟨acl, hacl, hrid, _, htags, _⟩ := hmem acl' hacl'
    have := hc hcne acl hacl (by rw [← hrid]; exact hid)
    unfold isBlackholeAcl at this ⊢
    rw [htags]
    exact this
  · intro s hs acl' hacl' ⟨a, ha, hsub⟩
    obtain ⟨acl, hacl, hrid, _, htags, hassoc⟩ := hmem acl' hacl'
    have htag : isBlackholeAcl acl = true := by
      rcases hassoc a ha with ⟨ha2, -⟩ | ⟨hid, haeq⟩
      · exact hs acl hacl ⟨a, ha2, hsub⟩
      · exact hct acl hacl hid
    unfold isBlackholeAcl at htag ⊢
    rw [htags]
    exact htag
  · intro u sids hv acl' hacl' hvpc ⟨a, ha, hsub⟩
    obtain ⟨acl, hacl, hrid, hvp, htags, hassoc⟩ := hmem acl' hacl'
    have htag : isBlackholeAcl acl = true := by
      rcases hassoc a ha with ⟨ha2, -⟩ | ⟨hid, haeq⟩
      · exact hv acl hacl (by rw [← hvp]; exact hvpc) ⟨a, ha2, hsub⟩
      · exact hct acl hacl hid
    unfold isBlackholeAcl at htag ⊢
    rw [htags]
    exact htag
  · intro sids v P hinv acl' hacl' hvpc hbh a ha hsub
    obtain ⟨acl, hacl, hrid, hvp, htags, hassoc⟩ := hmem acl' hacl'
    have hbh2 : isBlackholeAcl acl = false := by
      unfold isBlackholeAcl at hbh ⊢
      rw [htags] at hbh
      exact hbh
    rcases hassoc a ha with ⟨ha2, hne⟩ | ⟨hid, haeq⟩
    · have := hinv acl hacl (by rw [← hvp]; exact hvpc) hbh2 a ha2 hsub
      rw [List.mem_cons] at this
      rcases this with heq | hmem2
      · exact absurd heq hne
      · exact hmem2
    · have := hct acl hacl hid
      rw [this] at hbh2
      exact absurd hbh2 (by simp)

theorem create_step (w : Ec2World) (v tag : String) :
    (createNetworkAclApi w v tag).1 = freshAclId w.nextId ∧
    (createNetworkAclApi w v tag).2.acls =
      w.acls ++ [{ networkAclId := freshAclId w.nextId, vpcId := v,
                   tags := [(("Name"), tag)], associations := [],
                   entries := [(32767, false), (32767, true)] }] ∧
    (createNetworkAclApi w v tag).2.nextId = w.nextId + 1 := ⟨rfl, rfl, rfl⟩

theorem create_preserves (w : Ec2World) (v : String) (w' : Ec2World)
    (hw' : w' = (createNetworkAclApi w v ("blackhole_nacl")).2)
    (hwf : ec2NetWf w) :
    ec2NetWf w' ∧ w.nextId ≤ w'.nextId ∧
    cacheOk w' (freshAclId w.nextId) ∧
    (∀ c, cacheOk w c → cacheOk w' c) ∧
    (∀ s, subnetClean s w → subnetClean s w') ∧
    (∀ u sids, vpcClean u sids w → vpcClean u sids w') ∧
    (∀ sids vv P, netInv sids vv P w → netInv sids vv P w') := by
  subst hw'
  obtain ⟨-, hacls, hnext⟩ := create_step w v ("blackhole_nacl")
  refine ⟨?_, by rw [hnext]; omega, ?_, ?_, ?_, ?_, ?_⟩
  · intro n hn
    rw [hnext] at hn
    unfold aclIds
    rw [hacls, List.map_append]
    simp only [List.mem_append, List.map_cons, List.map_nil, List.mem_singleton, not_or]
    refine ⟨hwf n (by omega), ?_⟩
    intro hcontra
    have := freshAclId_inj hcontra
    omega
  · intro _ acl hacl hid
    rw [hacls] at hacl
    simp only [List.mem_append, List.mem_singleton] at hacl
    rcases hacl with hacl | hacl
    · exfalso
      apply hwf w.nextId (le_refl _)
      unfold aclIds
      rw [← hid]
      exact List.mem_map_of_mem (fun a => a.networkAclId) hacl
    · rw [hacl]
      rfl
  · intro c hc hcne acl hacl hid
    rw [hacls] at hacl
    simp only [List.mem_append, List.mem_singleton] at hacl
    rcases hacl with hacl | hacl
    · exact hc hcne acl hacl hid
    · rw [hacl]; rfl
  · intro s hs acl hacl ⟨a, ha, hsub⟩
    rw [hacls] at hacl
    simp only [List.mem_append, List.mem_singleton] at hacl
    rcases hacl with hacl | hacl
    · exact hs acl hacl ⟨a, ha, hsub⟩
    · rw [hacl] at ha; simp at ha
  · intro u sids hv acl hacl hvpc ⟨a, ha, hsub⟩
    rw [hacls] at hacl
    simp only [List.mem_append, List.mem_singleton] at hacl
    rcases hacl with hacl | hacl
    · exact hv acl hacl hvpc ⟨a, ha, hsub⟩
    · rw [hacl] at ha; simp at ha
  · intro sids vv P hinv acl hacl hvpc hbh a ha hsub
    rw [hacls] at hacl
    simp only [List.mem_append, List.mem_singleton] at hacl
    rcases hacl with hacl | hacl
    · exact hinv acl hacl hvpc hbh a ha hsub
    · rw [hacl] at ha; simp at ha

theorem entry_preserves (w : Ec2World) (aclId : String) (n : Nat) (egress : Bool)
    (w' : Ec2World) (t : List ApiCall)
    (h : createNetworkAclEntry w aclId n egress = .ok (w', t)) :
    (ec2NetWf w → ec2NetWf w') ∧ w.nextId ≤ w'.nextId ∧
    (∀ c, cacheOk w c → cacheOk w' c) ∧
    (∀ s, subnetClean s w → subnetClean s w') ∧
    (∀ u sids, vpcClean u sids w → vpcClean u sids w') ∧
    (∀ sids vv P, netInv sids vv P w → netInv sids vv P w') := by
  obtain ⟨k, hw'⟩ := createEntry_ok_formula w aclId n egress w' t h
  subst hw'
  have hids : aclIds (updateAclIn w aclId (fun a => { a with entries := a.entries ++ [(k, egress)] }))
      = aclIds w := by
    unfold aclIds updateAclIn
    dsimp only
    rw [List.map_map]
    congr 1
    funext a
    simp only [Function.comp]
    split <;> rfl
  have hnext : (updateAclIn w aclId (fun a => { a with entries := a.entries ++ [(k, egress)] })).nextId = w.nextId := rfl
  refine ⟨?_, by rw [hnext], ?_, ?_, ?_, ?_⟩
  · intro hwf m hm
    rw [hids]
    exact hwf m (by rw [hnext] at hm; exact hm)
  · intro c hc hcne acl' hacl' hid
    obtain ⟨acl, hacl, hrid, _, htags, _⟩ := mem_map_updateEntries w aclId k egress acl' hacl'
    have := hc hcne acl hacl (by rw [← hrid]; exact hid)
    unfold isBlackholeAcl at this ⊢
    rw [htags]
    exact this
  · intro s hs acl' hacl' ⟨a, ha, hsub⟩
    obtain ⟨acl, hacl, _, _, htags, hassoc⟩ := mem_map_updateEntries w aclId k egress acl' hacl'
    have := hs acl hacl ⟨a, by rw [← hassoc]; exact ha, hsub⟩
    unfold isBlackholeAcl at this ⊢
    rw [htags]
    exact this
  · intro u sids hv acl' hacl' hvpc ⟨a, ha, hsub⟩
    obtain ⟨acl, hacl, _, hvp, htags, hassoc⟩ := mem_map_updateEntries w aclId k egress acl' hacl'
    have := hv acl hacl (by rw [← hvp]; exact hvpc) ⟨a, by rw [← hassoc]; exact ha, hsub⟩
    unfold isBlackholeAcl at this ⊢
    rw [htags]
    exact this
  · intro sids vv P hinv acl' hacl' hvpc hbh a ha hsub
    obtain ⟨acl, hacl, _, hvp, htags, hassoc⟩ := mem_map_updateEntries w aclId k egress acl' hacl'
    have hbh2 : isBlackholeAcl acl = false := by
      unfold isBlackholeAcl at hbh ⊢
      rw [htags] at hbh
      exact hbh
    exact hinv acl hacl (by rw [← hvp]; exact hvpc) hbh2 a (by rw [← hassoc]; exact ha) hsub

end AzChaos
namespace AzChaos

theorem freshAclId_ne_empty (n : Nat) : freshAclId n ≠ ("") := by
  intro h
  have := congrArg (fun s => s.data.length) h
  simp [freshAclId] at this

theorem cacheOk_empty (w : Ec2World) : cacheOk w ("") := fun hne => absurd rfl hne

theorem createsIn_append (a b : List ApiCall) :
    createsIn (a ++ b) = createsIn a ++ createsIn b := by
  unfold createsIn
  rw [List.filterMap_append]

theorem targIds_cons_mem (sids : List String) (a : NaclAssociation) (rest : List NaclAssociation)
    (h : a.subnetId ∈ sids) :
    targIds sids (a :: rest) = a.networkAclAssociationId :: targIds sids rest := by
  unfold targIds
  rw [List.filter_cons_of_pos (by simp [h])]
  rfl

theorem targIds_cons_not_mem (sids : List String) (a : NaclAssociation) (rest : List NaclAssociation)
    (h : a.subnetId ∉ sids) :
    targIds sids (a :: rest) = targIds sids rest := by
  unfold targIds
  rw [List.filter_cons_of_neg (by simp [h])]

/-- Trace shape of a successful `create_network_acl_entry`. -/
theorem createEntry_ok_trace (w : Ec2World) (aclId : String) :
    ∀ (n : Nat) (egress : Bool) (w' : Ec2World) (t : List ApiCall),
      createNetworkAclEntry w aclId n egress = .ok (w', t) →
      ∃ k, t = [ApiCall.createNetworkAclEntryCall aclId k egress] := by
  intro n
  induction n with
  | zero => intro egress w' t h; exact absurd h (by simp [createNetworkAclEntry])
  | succ m ih =>
    intro egress w' t h
    unfold createNetworkAclEntry at h
    split at h
    · exact absurd h (by simp)
    · split at h
      · exact ih egress w' t h
      · simp only [Except.ok.injEq, Prod.mk.injEq] at h
        exact ⟨m + 1, h.2.symm⟩

/-- Main induction over the association loop of `network_failure`
(non-dry run): well-formedness and the cache discipline are preserved,
at most one blackhole ACL is created (exactly when the cache was still
unset), every emitted state block names a subnet of the processed
association list, cleanliness predicates are preserved, and the pending
target-association ids are consumed in order. -/
theorem processAssociations_main (vpcId : String) (subnetIds : List String) (acl : NetworkAcl) :
    ∀ (assocs : List NaclAssociation) (cache : String) (w : Ec2World)
      (blks : List SubnetStateBlock) (cache' : String) (w' : Ec2World) (t : List ApiCall),
      processAssociations vpcId subnetIds false acl assocs cache w = .ok (blks, cache', w', t) →
      ec2NetWf w → cacheOk w cache →
      ec2NetWf w' ∧ cacheOk w' cache' ∧ w.nextId ≤ w'.nextId ∧
      ((cache' = cache ∧ createsIn t = []) ∨
        (cache = ("") ∧ cache' ≠ ("") ∧ createsIn t = [vpcId])) ∧
      (∀ b ∈ blks, ∃ a ∈ assocs, b.subnetId = a.subnetId) ∧
      ((∀ s, subnetClean s w → subnetClean s w') ∧
        (∀ u sids, vpcClean u sids w → vpcClean u sids w')) ∧
      (acl.vpcId = vpcId →
        ∀ P, netInv subnetIds vpcId (targIds subnetIds assocs ++ P) w →
          netInv subnetIds vpcId P w') := by
  intro assocs
  induction assocs with
  | nil =>
    intro cache w blks cache' w' t h hwf hc
    unfold processAssociations at h
    simp only [Except.ok.injEq, Prod.mk.injEq] at h
    obtain ⟨h1, h2, h3, h4⟩ := h
    subst h1; subst h2; subst h3; subst h4
    refine ⟨hwf, hc, le_refl _, Or.inl ⟨rfl, rfl⟩, by simp, ⟨fun s hs => hs, fun u sids hv => hv⟩, ?_⟩
    intro _ P hinv
    simpa [targIds] using hinv
  | cons assoc rest ih =>
    intro cache w blks cache' w' t h hwf hc
    unfold processAssociations at h
    simp only [bind, Except.bind, pure, Except.pure, Bool.false_eq_true, if_false] at h
    split at h
    · rename_i hcond
      by_cases hcache : cache = ("")
      · rw [if_pos hcache] at h
        rcases hB : createNetworkAclEntry (createNetworkAclApi w vpcId ("blackhole_nacl")).2
            (createNetworkAclApi w vpcId ("blackhole_nacl")).1 1 false with eB | ⟨wB, tB⟩ <;>
          rw [hB] at h <;> dsimp only at h
        · exact absurd h (by simp)
        rcases hC : createNetworkAclEntry wB (createNetworkAclApi w vpcId ("blackhole_nacl")).1 1 true
            with eC | ⟨wC, tC⟩ <;> rw [hC] at h <;> dsimp only at h
        · exact absurd h (by simp)
        rcases hR : replaceNetworkAclAssociationApi wC (createNetworkAclApi w vpcId ("blackhole_nacl")).1
            assoc.networkAclAssociationId with eR | ⟨newId, w2, t2⟩ <;> rw [hR] at h <;> dsimp only at h
        · exact absurd h (by simp)
        rcases hRec : processAssociations vpcId subnetIds false acl rest
            (createNetworkAclApi w vpcId ("blackhole_nacl")).1 w2 with eRec | ⟨blks3, cache3, w3, t3⟩ <;>
          rw [hRec] at h <;> dsimp only at h
        · exact absurd h (by simp)
        simp only [Except.ok.injEq, Prod.mk.injEq] at h
        obtain ⟨h1, h2, h3, h4⟩ := h
        subst h1; subst h2; subst h3; subst h4
        have hA1 : (createNetworkAclApi w vpcId ("blackhole_nacl")).1 = freshAclId w.nextId := rfl
        obtain ⟨hwfA, hnA, hcA, hcAany, hsA, hvA, hiA⟩ :=
          create_preserves w vpcId (createNetworkAclApi w vpcId ("blackhole_nacl")).2 rfl hwf
        obtain ⟨hwfB, hnB, hcB, hsB, hvB, hiB⟩ := entry_preserves _ _ _ _ _ _ hB
        obtain ⟨hwfC, hnC, hcC, hsC, hvC, hiC⟩ := entry_preserves _ _ _ _ _ _ hC
        have hcacheC : cacheOk wC (freshAclId w.nextId) := hcC _ (hcB _ (hA1 ▸ hcA))
        have hct : ∀ a ∈ wC.acls,
            a.networkAclId = (createNetworkAclApi w vpcId ("blackhole_nacl")).1 →
            isBlackholeAcl a = true := by
          intro a ha hid
          exact hcacheC (freshAclId_ne_empty _) a ha (hA1 ▸ hid)
        obtain ⟨hwfR, hnR, hcR, hsR, hvR, hiR⟩ := replace_step wC _ _ _ _ _ hR hct
        have hcache2 : cacheOk w2 (createNetworkAclApi w vpcId ("blackhole_nacl")).1 :=
          hcR _ (hA1 ▸ hcacheC)
        obtain ⟨hwf3, hc3, hn3, hd3, hb3, ⟨hs3, hv3⟩, hi3⟩ :=
          ih _ w2 _ _ _ _ hRec (hwfR (hwfC (hwfB hwfA))) hcache2
        obtain ⟨sub, hnew, ht2, hn2, hacls2⟩ := replace_ok_formula _ _ _ _ _ _ hR
        obtain ⟨kB, htB⟩ := createEntry_ok_trace _ _ _ _ _ _ hB
        obtain ⟨kC, htC⟩ := createEntry_ok_trace _ _ _ _ _ _ hC
        refine ⟨hwf3, hc3, by omega, ?_, ?_, ⟨?_, ?_⟩, ?_⟩
        · refine Or.inr ⟨hcache, ?_, ?_⟩
          · rcases hd3 with ⟨he, -⟩ | ⟨he, -, -⟩
            · rw [he, hA1]; exact freshAclId_ne_empty _
            · rw [hA1] at he; exact absurd he (freshAclId_ne_empty _)
          · have ht3e : createsIn t3 = [] := by
              rcases hd3 with ⟨-, he⟩ | ⟨he, -, -⟩
              · exact he
              · rw [hA1] at he; exact absurd he (freshAclId_ne_empty _)
            rw [createsIn_append, createsIn_append, createsIn_append, createsIn_append,
              ht2, htB, htC, ht3e]
            rfl
        · intro b hb
          rcases List.mem_cons.mp hb with hb | hb
          · exact ⟨assoc, List.mem_cons_self _ _, by rw [hb]⟩
          · obtain ⟨a, ha, hba⟩ := hb3 b hb
            exact ⟨a, List.mem_cons_of_mem _ ha, hba⟩
        · intro s hs
          exact hs3 s (hsR s (hsC s (hsB s (hsA s hs))))
        · intro u sids hv
          exact hv3 u sids (hvR u sids (hvC u sids (hvB u sids (hvA u sids hv))))
        · intro hv P hinv
          rw [targIds_cons_mem subnetIds assoc rest hcond.1, List.cons_append] at hinv
          exact hi3 hv P (hiR _ _ _ (hiC _ _ _ (hiB _ _ _ (hiA _ _ _ hinv))))
      · rw [if_neg hcache] at h
        rcases hR : replaceNetworkAclAssociationApi w cache assoc.networkAclAssociationId
            with eR | ⟨newId, w2, t2⟩ <;> rw [hR] at h <;> dsimp only at h
        · exact absurd h (by simp)
        rcases hRec : processAssociations vpcId subnetIds false acl rest cache w2
            with eRec | ⟨blks3, cache3, w3, t3⟩ <;> rw [hRec] at h <;> dsimp only at h
        · exact absurd h (by simp)
        simp only [Except.ok.injEq, Prod.mk.injEq] at h
        obtain ⟨h1, h2, h3, h4⟩ := h
        subst h1; subst h2; subst h3; subst h4
        have hct : ∀ a ∈ w.acls, a.networkAclId = cache → isBlackholeAcl a = true :=
          fun a ha hid => hc hcache a ha hid
        obtain ⟨hwfR, hnR, hcR, hsR, hvR, hiR⟩ := replace_step w _ _ _ _ _ hR hct
        obtain ⟨hwf3, hc3, hn3, hd3, hb3, ⟨hs3, hv3⟩, hi3⟩ :=
          ih _ w2 _ _ _ _ hRec (hwfR hwf) (hcR _ hc)
        obtain ⟨sub, hnew, ht2, hn2, hacls2⟩ := replace_ok_formula _ _ _ _ _ _ hR
        have hcache3 : cache3 = cache ∧ createsIn t3 = [] := by
          rcases hd3 with h | ⟨he, -, -⟩
          · exact h
          · exact absurd he hcache
        refine ⟨hwf3, hc3, by omega, ?_, ?_, ⟨?_, ?_⟩, ?_⟩
        · refine Or.inl ⟨hcache3.1, ?_⟩
          rw [createsIn_append, createsIn_append, ht2, hcache3.2]
          rfl
        · intro b hb
          rcases List.mem_cons.mp hb with hb | hb
          · exact ⟨assoc, List.mem_cons_self _ _, by rw [hb]⟩
          · obtain ⟨a, ha, hba⟩ := hb3 b hb
            exact ⟨a, List.mem_cons_of_mem _ ha, hba⟩
        · intro s hs
          exact hs3 s (hsR s hs)
        · intro u sids hv
          exact hv3 u sids (hvR u sids hv)
        · intro hv P hinv
          rw [targIds_cons_mem subnetIds assoc rest hcond.1, List.cons_append] at hinv
          exact hi3 hv P (hiR _ _ _ hinv)
    · rename_i hcond
      rcases hRec : processAssociations vpcId subnetIds false acl rest cache w
          with eRec | ⟨blks3, cache3, w3, t3⟩ <;> rw [hRec] at h <;> dsimp only at h
      · exact absurd h (by simp)
      simp only [Except.ok.injEq, Prod.mk.injEq] at h
      obtain ⟨h1, h2, h3, h4⟩ := h
      subst h1; subst h2; subst h3; subst h4
      obtain ⟨hwf3, hc3, hn3, hd3, hb3, ⟨hs3, hv3⟩, hi3⟩ := ih _ w _ _ _ _ hRec hwf hc
      refine ⟨hwf3, hc3, hn3, hd3, ?_, ⟨hs3, hv3⟩, ?_⟩
      · intro b hb
        obtain ⟨a, ha, hba⟩ := hb3 b hb
        exact ⟨a, List.mem_cons_of_mem _ ha, hba⟩
      · intro hv P hinv
        have hmem : assoc.subnetId ∉ subnetIds := fun hm => hcond ⟨hm, hv⟩
        rw [targIds_cons_not_mem subnetIds assoc rest hmem] at hinv
        exact hi3 hv P hinv

end AzChaos
namespace AzChaos

/-- Pending target-association ids of a describe snapshot: the ids the
association loop must still rewrite, in processing order (sentinel-tagged
ACLs contribute nothing). -/
def pendingAcls (subnetIds : List String) : List NetworkAcl → List String
  | [] => []
  | acl :: rest =>
    (if isBlackholeAcl acl then [] else targIds subnetIds acl.associations) ++
      pendingAcls subnetIds rest

theorem mem_pendingAcls (subnetIds : List String) (S : List NetworkAcl) (acl : NetworkAcl)
    (hacl : acl ∈ S) (hbh : isBlackholeAcl acl = false) (x : String)
    (hx : x ∈ targIds subnetIds acl.associations) : x ∈ pendingAcls subnetIds S := by
  induction S with
  | nil => exact absurd hacl (by simp)
  | cons a rest ih =>
    unfold pendingAcls
    rcases List.mem_cons.mp hacl with heq | hmem
    · subst heq
      rw [hbh]
      simp only [if_false, List.mem_append]
      exact Or.inl hx
    · exact List.mem_append.mpr (Or.inr (ih hmem))

/-- Main induction over the per-ACL loop of `network_failure` (non-dry
run). -/
theorem processAcls_main (vpcId : String) (subnetIds : List String) :
    ∀ (S : List NetworkAcl) (cache : String) (w : Ec2World)
      (blks : List SubnetStateBlock) (cache' : String) (w' : Ec2World) (t : List ApiCall),
      processAcls vpcId subnetIds false S cache w = .ok (blks, cache', w', t) →
      ec2NetWf w → cacheOk w cache →
      ec2NetWf w' ∧ cacheOk w' cache' ∧ w.nextId ≤ w'.nextId ∧
      ((cache' = cache ∧ createsIn t = []) ∨
        (cache = ("") ∧ cache' ≠ ("") ∧ createsIn t = [vpcId])) ∧
      (∀ b ∈ blks, ∃ acl ∈ S, isBlackholeAcl acl = false ∧
        ∃ a ∈ acl.associations, b.subnetId = a.subnetId) ∧
      ((∀ s, subnetClean s w → subnetClean s w') ∧
        (∀ u sids, vpcClean u sids w → vpcClean u sids w')) ∧
      ((∀ acl ∈ S, acl.vpcId = vpcId) →
        ∀ P, netInv subnetIds vpcId (pendingAcls subnetIds S ++ P) w →
          netInv subnetIds vpcId P w') := by
  intro S
  induction S with
  | nil =>
    intro cache w blks cache' w' t h hwf hc
    unfold processAcls at h
    simp only [Except.ok.injEq, Prod.mk.injEq] at h
    obtain ⟨h1, h2, h3, h4⟩ := h
    subst h1; subst h2; subst h3; subst h4
    refine ⟨hwf, hc, le_refl _, Or.inl ⟨rfl, rfl⟩, by simp, ⟨fun s hs => hs, fun u sids hv => hv⟩, ?_⟩
    intro _ P hinv
    simpa [pendingAcls] using hinv
  | cons acl rest ih =>
    intro cache w blks cache' w' t h hwf hc
    unfold processAcls at h
    simp only [bind, Except.bind, pure, Except.pure] at h
    split at h
    · rename_i hbh
      rcases hPA : processAssociations vpcId subnetIds false acl acl.associations cache w
          with ePA | ⟨blks1, cache1, w1, t1⟩ <;> rw [hPA] at h <;> dsimp only at h
      · exact absurd h (by simp)
      rcases hRec : processAcls vpcId subnetIds false rest cache1 w1
          with eRec | ⟨blks2, cache2, w2, t2⟩ <;> rw [hRec] at h <;> dsimp only at h
      · exact absurd h (by simp)
      simp only [Except.ok.injEq, Prod.mk.injEq] at h
      obtain ⟨h1, h2, h3, h4⟩ := h
      subst h1; subst h2; subst h3; subst h4
      obtain ⟨hwf1, hc1, hn1, hd1, hb1, ⟨hs1, hv1⟩, hi1⟩ :=
        processAssociations_main vpcId subnetIds acl acl.associations cache w _ _ _ _ hPA hwf hc
      obtain ⟨hwf2, hc2, hn2, hd2, hb2, ⟨hs2, hv2⟩, hi2⟩ := ih cache1 w1 _ _ _ _ hRec hwf1 hc1
      have hbh' : isBlackholeAcl acl = false := by
        rcases hb : isBlackholeAcl acl with _ | _
        · rfl
        · exact absurd hb (by simpa using hbh)
      refine ⟨hwf2, hc2, by omega, ?_, ?_, ⟨fun s hs => hs2 s (hs1 s hs),
        fun u sids hv => hv2 u sids (hv1 u sids hv)⟩, ?_⟩
      · rcases hd1 with ⟨he1, ht1⟩ | ⟨he1, hne1, ht1⟩
        · rcases hd2 with ⟨he2, ht2⟩ | ⟨he2, hne2, ht2⟩
          · exact Or.inl ⟨by rw [he2, he1], by rw [createsIn_append, ht1, ht2]; rfl⟩
          · exact Or.inr ⟨by rw [← he1, he2], hne2, by rw [createsIn_append, ht1, ht2]; rfl⟩
        · rcases hd2 with ⟨he2, ht2⟩ | ⟨he2, hne2, ht2⟩
          · refine Or.inr ⟨he1, by rw [he2]; exact hne1, ?_⟩
            rw [createsIn_append, ht1, ht2, List.append_nil]
          · exact absurd he2 hne1
      · intro b hb
        rcases List.mem_append.mp hb with hb | hb
        · obtain ⟨a, ha, hba⟩ := hb1 b hb
          exact ⟨acl, List.mem_cons_self _ _, hbh', a, ha, hba⟩
        · obtain ⟨acl2, hacl2, hbh2, a, ha, hba⟩ := hb2 b hb
          exact ⟨acl2, List.mem_cons_of_mem _ hacl2, hbh2, a, ha, hba⟩
      · intro hvpc P hinv
        have hva : acl.vpcId = vpcId := hvpc acl (List.mem_cons_self _ _)
        unfold pendingAcls at hinv
        rw [hbh'] at hinv
        simp only [if_false, List.append_assoc] at hinv
        exact hi2 (fun a ha => hvpc a (List.mem_cons_of_mem _ ha)) P (hi1 hva _ hinv)
    · rename_i hbh
      rcases hRec : processAcls vpcId subnetIds false rest cache w
          with eRec | ⟨blks2, cache2, w2, t2⟩ <;> rw [hRec] at h <;> dsimp only at h
      · exact absurd h (by simp)
      simp only [Except.ok.injEq, Prod.mk.injEq] at h
      obtain ⟨h1, h2, h3, h4⟩ := h
      subst h1; subst h2; subst h3; subst h4
      obtain ⟨hwf2, hc2, hn2, hd2, hb2, ⟨hs2, hv2⟩, hi2⟩ := ih cache w _ _ _ _ hRec hwf hc
      have hbh' : isBlackholeAcl acl = true := by
        rcases hb : isBlackholeAcl acl with _ | _
        · rw [hb] at hbh; exact absurd (by simp) hbh
        · rfl
      refine ⟨hwf2, hc2, hn2, hd2, ?_, ⟨hs2, hv2⟩, ?_⟩
      · intro b hb
        obtain ⟨acl2, hacl2, hbh2, a, ha, hba⟩ := hb2 b hb
        exact ⟨acl2, List.mem_cons_of_mem _ hacl2, hbh2, a, ha, hba⟩
      · intro hvpc P hinv
        unfold pendingAcls at hinv
        rw [hbh'] at hinv
        simp only [if_true, List.nil_append] at hinv
        exact hi2 (fun a ha => hvpc a (List.mem_cons_of_mem _ ha)) P hinv

/-- The initial tracking invariant holds for the describe snapshot of a
VPC: every pending target association is recorded in the snapshot. -/
theorem netInv_initial (w : Ec2World) (vpcId : String) (subnetIds : List String) :
    netInv subnetIds vpcId (pendingAcls subnetIds (describeNetworkAcls w vpcId subnetIds)) w := by
  intro acl hacl hv hbh a ha has
  have hsnap : acl ∈ describeNetworkAcls w vpcId subnetIds := by
    unfold describeNetworkAcls
    rw [List.mem_filter]
    exact ⟨hacl, by simp only [decide_eq_true_eq]; exact ⟨hv, List.any_eq_true.mpr ⟨a, ha, by simp [has]⟩⟩⟩
  refine mem_pendingAcls subnetIds _ acl hsnap hbh _ ?_
  unfold targIds
  exact List.mem_map_of_mem _ (List.mem_filter.mpr ⟨ha, by simp [has]⟩)

/-- Every member of a describe snapshot belongs to the VPC. -/
theorem mem_describeNetworkAcls (w : Ec2World) (vpcId : String) (subnetIds : List String)
    (acl : NetworkAcl) (h : acl ∈ describeNetworkAcls w vpcId subnetIds) :
    acl ∈ w.acls ∧ acl.vpcId = vpcId ∧ ∃ a ∈ acl.associations, a.subnetId ∈ subnetIds := by
  unfold describeNetworkAcls at h
  rw [List.mem_filter] at h
  obtain ⟨hmem, hcond⟩ := h
  simp only [decide_eq_true_eq] at hcond
  obtain ⟨hv, hany⟩ := hcond
  obtain ⟨a, ha, hsub⟩ := List.any_eq_true.mp hany
  exact ⟨hmem, hv, a, ha, by simpa using hsub⟩

end AzChaos
namespace AzChaos

/-- Main induction over the per-VPC loop of `network_failure` (non-dry
run): the VPC arguments of all `create_network_acl` calls form a sublist
of the processed VPC list (at most one creation per VPC), subnets already
behind a blackhole ACL yield no state block, and every processed VPC is
fully blackholed afterwards. -/
theorem networkFailureVpcs_main (subnetIds : List String) :
    ∀ (vpcIds : List String) (w : Ec2World)
      (blks : List SubnetStateBlock) (w' : Ec2World) (t : List ApiCall),
      networkFailureVpcs subnetIds false vpcIds w = .ok (blks, w', t) →
      ec2NetWf w →
      ec2NetWf w' ∧ w.nextId ≤ w'.nextId ∧
      List.Sublist (createsIn t) vpcIds ∧
      (∀ s, subnetClean s w → subnetClean s w' ∧ ∀ b ∈ blks, b.subnetId ≠ s) ∧
      (∀ u sids, vpcClean u sids w → vpcClean u sids w') ∧
      (∀ v ∈ vpcIds, vpcClean v subnetIds w') := by
  intro vpcIds
  induction vpcIds with
  | nil =>
    intro w blks w' t h hwf
    unfold networkFailureVpcs at h
    simp only [Except.ok.injEq, Prod.mk.injEq] at h
    obtain ⟨h1, h2, h3⟩ := h
    subst h1; subst h2; subst h3
    exact ⟨hwf, le_refl _, List.nil_sublist _, fun s hs => ⟨hs, by simp⟩,
      fun u sids hv => hv, by simp⟩
  | cons vpcId rest ih =>
    intro w blks w' t h hwf
    unfold networkFailureVpcs at h
    simp only [bind, Except.bind, pure, Except.pure] at h
    rcases hPA : processAcls vpcId subnetIds false (describeNetworkAcls w vpcId subnetIds) ("") w
        with ePA | ⟨blks1, cache1, w1, t1⟩ <;> rw [hPA] at h <;> dsimp only at h
    · exact absurd h (by simp)
    rcases hRec : networkFailureVpcs subnetIds false rest w1
        with eRec | ⟨blks2, w2, t2⟩ <;> rw [hRec] at h <;> dsimp only at h
    · exact absurd h (by simp)
    simp only [Except.ok.injEq, Prod.mk.injEq] at h
    obtain ⟨h1, h2, h3⟩ := h
    subst h1; subst h2; subst h3
    obtain ⟨hwf1, hc1, hn1, hd1, hb1, ⟨hs1, hv1⟩, hi1⟩ :=
      processAcls_main vpcId subnetIds _ _ w _ _ _ _ hPA hwf (cacheOk_empty w)
    obtain ⟨hwf2, hn2, hsub2, hs2, hv2, hclean2⟩ := ih w1 _ _ _ hRec hwf1
    have hvclean1 : vpcClean vpcId subnetIds w1 := by
      rw [← netInv_nil_iff_vpcClean subnetIds]
      refine hi1 ?_ [] ?_
      · intro a ha
        exact (mem_describeNetworkAcls w vpcId subnetIds a ha).2.1
      · rw [List.append_nil]
        exact netInv_initial w vpcId subnetIds
    refine ⟨hwf2, by omega, ?_, ?_, fun u sids hv => hv2 u sids (hv1 u sids hv), ?_⟩
    · rw [createsIn_append]
      rcases hd1 with ⟨-, ht1⟩ | ⟨-, -, ht1⟩
      · rw [ht1]
        exact List.Sublist.cons vpcId hsub2
      · rw [ht1]
        exact List.Sublist.cons₂ vpcId hsub2
    · intro s hs
      obtain ⟨hs1', hb2'⟩ := hs2 s (hs1 s hs)
      refine ⟨hs1', ?_⟩
      intro b hb
      rcases List.mem_append.mp hb with hb | hb
      · obtain ⟨acl, hacl, hbh, a, ha, hba⟩ := hb1 b hb
        obtain ⟨haclw, -, -⟩ := mem_describeNetworkAcls w vpcId subnetIds acl hacl
        intro hbs
        have := hs acl haclw ⟨a, ha, by rw [← hba, hbs]⟩
        rw [this] at hbh
        exact absurd hbh (by simp)
      · exact hb2' b hb
    · intro v hv
      rcases List.mem_cons.mp hv with heq | hmem
      · subst heq
        exact hv2 v subnetIds hvclean1
      · exact hclean2 v hmem

/-- The per-ACL loop skips a snapshot in which every ACL already carries
the blackhole sentinel tag: no calls, no blocks, unchanged world. -/
theorem processAcls_all_tagged (vpcId : String) (subnetIds : List String) (dryRun : Bool) :
    ∀ (S : List NetworkAcl) (cache : String) (w : Ec2World),
      (∀ acl ∈ S, isBlackholeAcl acl = true) →
      processAcls vpcId subnetIds dryRun S cache w = .ok ([], cache, w, []) := by
  intro S
  induction S with
  | nil => intro cache w _; rfl
  | cons acl rest ih =>
    intro cache w h
    unfold processAcls
    rw [if_neg (not_not_intro (h acl (List.mem_cons_self _ _)))]
    simp only [bind, Except.bind, pure, Except.pure]
    rw [ih cache w (fun a ha => h a (List.mem_cons_of_mem _ ha))]

/-- A second pass of `network_failure` over already-blackholed VPCs is a
no-op: empty block list, unchanged world, empty trace. -/
theorem networkFailureVpcs_clean (subnetIds : List String) (dryRun : Bool) :
    ∀ (vpcIds : List String) (w : Ec2World),
      (∀ v ∈ vpcIds, vpcClean v subnetIds w) →
      networkFailureVpcs subnetIds dryRun vpcIds w = .ok ([], w, []) := by
  intro vpcIds
  induction vpcIds with
  | nil => intro w _; rfl
  | cons vpcId rest ih =>
    intro w h
    unfold networkFailureVpcs
    have hall : ∀ acl ∈ describeNetworkAcls w vpcId subnetIds, isBlackholeAcl acl = true := by
      intro acl hacl
      obtain ⟨haclw, hv, a, ha, hsub⟩ := mem_describeNetworkAcls w vpcId subnetIds acl hacl
      exact h vpcId (List.mem_cons_self _ _) acl haclw hv ⟨a, ha, hsub⟩
    simp only [bind, Except.bind, pure, Except.pure]
    rw [processAcls_all_tagged vpcId subnetIds dryRun _ ("") w hall]
    dsimp only
    rw [ih w (fun v hv => h v (List.mem_cons_of_mem _ hv))]
    rfl

end AzChaos
namespace AzChaos

/-- A world whose ACL ids never start with the reserved fresh-id
character is well-formed. -/
theorem ec2NetWf_of_no_bang (w : Ec2World)
    (h : ∀ id ∈ aclIds w, id.data.head? ≠ some ('!')) : ec2NetWf w := by
  intro n _ hmem
  exact h _ hmem rfl

/-- C5: for every set of target subnets, the EC2 network failure creates
at most one blackhole ACL per VPC (the `create_network_acl` VPC arguments
form a sublist of the VPC list, so with distinct VPCs each VPC sees at
most one creation), any subnet whose current ACLs all carry the
`Name=blackhole_nacl` sentinel tag yields no state block (it is skipped),
and running the network strategy a second time on the resulting world is
a complete no-op: no blocks, no API calls, unchanged world. -/
theorem ec2_network_blackhole_idempotent
    (w : Ec2World) (vpcIds subnetIds : List String)
    (blks : List SubnetStateBlock) (w' : Ec2World) (t : List ApiCall)
    (hwf : ec2NetWf w)
    (h : networkFailure w vpcIds subnetIds false = .ok (blks, w', t)) :
    List.Sublist (createsIn t) vpcIds ∧
    (vpcIds.Nodup → ∀ v, (createsIn t).count v ≤ 1) ∧
    (∀ s, subnetClean s w → ∀ b ∈ blks, b.subnetId ≠ s) ∧
    networkFailure w' vpcIds subnetIds false = .ok ([], w', []) := by
  obtain ⟨hwf', hn, hsub, hsclean, hvpres, hclean⟩ :=
    networkFailureVpcs_main subnetIds vpcIds w blks w' t h hwf
  refine ⟨hsub, ?_, fun s hs => (hsclean s hs).2, ?_⟩
  · intro hnd v
    have hnd' : (createsIn t).Nodup := List.Nodup.sublist hsub hnd
    exact List.nodup_iff_count_le_one.mp hnd' v
  · exact networkFailureVpcs_clean subnetIds false vpcIds w' hclean

def netW0 : Ec2World :=
  { instances := [], spotRequests := [],
    subnets := [{ subnetId := ("subnet-1"), availabilityZone := ("us-east-1a"),
                  vpcId := ("vpc-1"), tags := [] },
                { subnetId := ("subnet-2"), availabilityZone := ("us-east-1a"),
                  vpcId := ("vpc-1"), tags := [] }],
    acls := [{ networkAclId := ("acl-main"), vpcId := ("vpc-1"), tags := [],
               associations := [{ networkAclAssociationId := ("aclassoc-1"),
                                  networkAclId := ("acl-main"), subnetId := ("subnet-1") },
                                { networkAclAssociationId := ("aclassoc-2"),
                                  networkAclId := ("acl-main"), subnetId := ("subnet-2") }],
               entries := [(100, false), (100, true)] }],
    nextId := 0 }

def netBlks0 : List SubnetStateBlock :=
  [{ subnetId := ("subnet-1"), vpcId := ("vpc-1"),
     beforeNetworkAclId := ("acl-main"), beforeNetworkAclAssociationId := ("aclassoc-1"),
     afterNetworkAclId := ("!"), afterNetworkAclAssociationId := ("?x") },
   { subnetId := ("subnet-2"), vpcId := ("vpc-1"),
     beforeNetworkAclId := ("acl-main"), beforeNetworkAclAssociationId := ("aclassoc-2"),
     afterNetworkAclId := ("!"), afterNetworkAclAssociationId := ("?xx") }]

def netW1 : Ec2World :=
  { instances := [], spotRequests := [],
    subnets := netW0.subnets,
    acls := [{ networkAclId := ("acl-main"), vpcId := ("vpc-1"), tags := [],
               associations := [], entries := [(100, false), (100, true)] },
             { networkAclId := ("!"), vpcId := ("vpc-1"),
               tags := [(("Name"), ("blackhole_nacl"))],
               associations := [{ networkAclAssociationId := ("?x"),
                                  networkAclId := ("!"), subnetId := ("subnet-1") },
                                { networkAclAssociationId := ("?xx"),
                                  networkAclId := ("!"), subnetId := ("subnet-2") }],
               entries := [(32767, false), (32767, true), (1, false), (1, true)] }],
    nextId := 3 }

def netTrace0 : List ApiCall :=
  [ApiCall.createNetworkAclCall ("vpc-1") ("!"),
   ApiCall.createNetworkAclEntryCall ("!") 1 false,
   ApiCall.createNetworkAclEntryCall ("!") 1 true,
   ApiCall.replaceNaclAssociationCall ("!") ("aclassoc-1") ("?x"),
   ApiCall.replaceNaclAssociationCall ("!") ("aclassoc-2") ("?xx")]

/-- C5 witness: a VPC with two target subnets behind one ordinary ACL;
the failure run creates exactly one blackhole ACL reused for both
subnets, and the second run is a no-op. -/
theorem ec2_network_blackhole_idempotent_witness :
    networkFailure netW0 [("vpc-1")] [("subnet-1"), ("subnet-2")] false =
      .ok (netBlks0, netW1, netTrace0) ∧
    (List.Sublist (createsIn netTrace0) [("vpc-1")] ∧
      (List.Nodup [("vpc-1")] → ∀ v, (createsIn netTrace0).count v ≤ 1) ∧
      (∀ s, subnetClean s netW0 → ∀ b ∈ netBlks0, b.subnetId ≠ s) ∧
      networkFailure netW1 [("vpc-1")] [("subnet-1"), ("subnet-2")] false =
        .ok ([], netW1, [])) :=
  ⟨(by rfl),
   ec2_network_blackhole_idempotent netW0 [("vpc-1")] [("subnet-1"), ("subnet-2")]
     netBlks0 netW1 netTrace0 (ec2NetWf_of_no_bang netW0 (by decide)) (by rfl)⟩

end AzChaos
namespace AzChaos

structure LbAz where
  zoneName : String
  subnetId : String
deriving DecidableEq, Repr

structure LoadBalancer where
  arn : String
  name : String
  lbType : String
  stateCode : String
  availabilityZones : List LbAz
  tags : List (String × String)
deriving DecidableEq, Repr

/-- ELBv2 world: the load balancers plus the subnet → AZ map used to
rebuild a balancer's `AvailabilityZones` after `set_subnets`. -/
structure ElbV2World where
  lbs : List LoadBalancer
  subnets : List (String × String)
deriving DecidableEq, Repr

/-- Embeds `get_lbs_by_az` (the Python set of ARNs is modeled in describe
order; each balancer's zone names are distinct, so each balancer
contributes its ARN at most once). -/
def getLbsByAz (w : ElbV2World) (az : String) : List String :=
  (w.lbs.filter (fun lb => lb.availabilityZones.any (fun z => z.zoneName = az))).map (·.arn)

/-- Fuelled 20-chunking of `filter_lbs_by_tags` (fuel = list length, so
the fuel never runs out). -/
def chunksOfAux {α : Type} : Nat → List α → List (List α)
  | 0, _ => []
  | _, [] => []
  | Nat.succ f, l@(_ :: _) => l.take 20 :: chunksOfAux f (l.drop 20)

def chunksOf20 {α : Type} (l : List α) : List (List α) := chunksOfAux l.length l

/-- Embeds `filter_lbs_by_tags`: per 20-chunk `describe_tags`, keep the
ARNs whose tag set contains every requested tag. -/
def filterLbsByTags (w : ElbV2World) (arns : List String) (tags : List (String × String)) :
    List String :=
  (chunksOf20 arns).flatMap (fun chunk =>
    (chunk.filterMap (fun arn =>
      (w.lbs.find? (fun lb => lb.arn = arn)).map (fun lb => (arn, lb.tags)))).filterMap
      (fun td => if tags.all (fun t => t ∈ td.2) then some td.1 else none))

/-- Zone collection of `get_lb_subnets_by_az`: collect every subnet, and
for a zone matching the target AZ first enforce the ≥3-AZ requirement,
then record the subnet as a target. -/
def collectZones (az : String) (nAzs : Nat) :
    List LbAz → Except String (List String × List String)
  | [] => .ok ([], [])
  | z :: rest =>
    if z.zoneName = az ∧ nAzs < 3 then
      .error ("[ELBV2] LB requires at least 2 AZs to operate. Please ensure your LB has 3 AZs to support the removal of 1 AZ.")
    else do
      let (orig, targ) ← collectZones az nAzs rest
      .ok (z.subnetId :: orig, if z.zoneName = az then z.subnetId :: targ else targ)

/-- Embeds `get_lb_subnets_by_az` (name, type, original subnets, target-AZ
subnets). -/
def getLbSubnetsByAz (w : ElbV2World) (az : String) (arn : String) :
    Except String (String × String × List String × List String) :=
  match w.lbs.find? (fun lb => lb.arn = arn) with
  | none => .error ("KeyError: Type")
  | some lb => do
    let (orig, targ) ← collectZones az lb.availabilityZones.length lb.availabilityZones
    .ok (lb.name, lb.lbType, orig, targ)

def describeLbsByNames (w : ElbV2World) (names : List String) : List LoadBalancer :=
  w.lbs.filter (fun lb => lb.name ∈ names)

/-- Embeds `get_load_balancer_arns` as the pair of `network` and
`application` ARN buckets of the results dict. -/
def getLoadBalancerArns (w : ElbV2World) (names : List String) :
    Except String (List String × List String) :=
  let resp := describeLbsByNames w names
  match resp.find? (fun lb => lb.stateCode ≠ ("active")) with
  | some _ => .error ("Invalid state for load balancer: not active")
  | none =>
    let rnames := resp.map (·.name)
    if names.any (fun n => n ∉ rnames) then .error ("Unable to find load balancer(s)")
    else .ok ((resp.filter (fun lb => lb.lbType = ("network"))).map (·.arn),
              (resp.filter (fun lb => lb.lbType = ("application"))).map (·.arn))

def zoneOf (w : ElbV2World) (s : String) : String :=
  ((w.subnets.find? (fun p => p.1 = s)).map (·.2)).getD ("")

def setSubnetsApply (w : ElbV2World) (arns : List String) (subnetIds : List String) : ElbV2World :=
  { w with lbs := w.lbs.map (fun lb =>
      if lb.arn ∈ arns then
        { lb with availabilityZones := subnetIds.map (fun s => { zoneName := zoneOf w s, subnetId := s }) }
      else lb) }

/-- Embeds the elbv2 `set_subnets` helper: network balancers are
rejected, and outside dry runs every application balancer found by name
has its subnets replaced. -/
def setSubnets (w : ElbV2World) (names : List String) (subnetIds : List String) (dryRun : Bool) :
    Except String (ElbV2World × List ApiCall) := do
  let (netArns, appArns) ← getLoadBalancerArns w names
  if netArns ≠ [] then .error ("Cannot set subnets of network load balancers...")
  else if dryRun then .ok (w, [])
  else .ok (setSubnetsApply w appArns subnetIds,
            appArns.map (fun a => ApiCall.setSubnetsCall a subnetIds))

/-- Sorted-set insertion over strings (character-code order), embedding
Python's `sorted(list(set(...)))`. -/
def charsLe : List Char → List Char → Bool
  | [], _ => true
  | _ :: _, [] => false
  | a :: as, b :: bs =>
    if a.toNat < b.toNat then true
    else if b.toNat < a.toNat then false
    else charsLe as bs

def strLeB (a b : String) : Bool := charsLe a.data b.data

def sortedInsertStr (x : String) : List String → List String
  | [] => [x]
  | y :: ys => if x = y then y :: ys else if strLeB x y then x :: y :: ys else y :: sortedInsertStr x ys

def pySortedSet (l : List String) : List String := l.foldr sortedInsertStr []

structure ElbV2StateBlock where
  loadBalancerName : String
  lbType : String
  beforeSubnetIds : List String
  afterSubnetIds : List String
deriving DecidableEq, Repr

structure ElbV2Doc where
  availabilityZone : String
  dryRun : Bool
  loadBalancers : List ElbV2StateBlock
deriving DecidableEq, Repr

/-- Per-balancer loop of the elbv2 `fail_az`. A raised exception does not
undo API calls already issued, so errors carry the world and the mutating
calls issued before the raise. -/
def elbv2FailLoop (az : String) (dryRun : Bool) :
    ElbV2World → List String →
    Except (String × ElbV2World × List ApiCall) (List ElbV2StateBlock × ElbV2World × List ApiCall)
  | w, [] => .ok ([], w, [])
  | w, arn :: rest =>
    match getLbSubnetsByAz w az arn with
    | .error e => .error (e, w, [])
    | .ok (name, ty, orig, targ) =>
      if ty ≠ ("application") then
        elbv2FailLoop az dryRun w rest
      else if targ ≠ [] then
        match setSubnets w [name] (pySortedSet (orig.filter (fun s => s ∉ targ))) dryRun with
        | .error e => .error (e, w, [])
        | .ok (w1, t1) =>
          match elbv2FailLoop az dryRun w1 rest with
          | .error (e, w2, t2) => .error (e, w2, t1 ++ t2)
          | .ok (blks, w2, t2) =>
            .ok ({ loadBalancerName := name, lbType := ty,
                   beforeSubnetIds := pySortedSet orig,
                   afterSubnetIds := pySortedSet (orig.filter (fun s => s ∉ targ)) } :: blks,
                 w2, t1 ++ t2)
      else
        elbv2FailLoop az dryRun w rest

/-- Embeds the elbv2 `fail_az`. -/
def elbv2FailAz (w : ElbV2World) (fs : FS ElbV2Doc) (az : String) (dryRun : Option Bool)
    (tags : List (String × String)) (statePath : String) :
    Except (String × ElbV2World × List ApiCall)
      (ElbV2Doc × ElbV2World × FS ElbV2Doc × List ApiCall) :=
  match dryRun with
  | none => .error (("you must specify a dry_run boolean parameter"), w, [])
  | some dr =>
    if az = ("") then .error (("you must specify an Availability Zone"), w, [])
    else
      match validateFailAzPath ElbV2Doc.dryRun true statePath ("elbv2") fs with
      | .error e => .error (e, w, [])
      | .ok statePath =>
        let targetArns := getLbsByAz w az
        if targetArns = [] then .error (("[ELBV2] No LBs in the target AZ found..."), w, [])
        else
          let lbArns := filterLbsByTags w targetArns tags
          if lbArns = [] then
            .error (("[ELBV2] No LBs with the provided tags and the target AZ found..."), w, [])
          else
            match elbv2FailLoop az dr w lbArns with
            | .error e => .error e
            | .ok (blks, w1, trace) =>
              let doc : ElbV2Doc := ⟨az, dr, blks⟩
              .ok (doc, w1, fs.write statePath doc, trace)

/-- Per-block loop of the elbv2 `recover_az`. -/
def elbv2RecoverLoop :
    ElbV2World → List ElbV2StateBlock →
    Except (String × ElbV2World × List ApiCall) (ElbV2World × List ApiCall)
  | w, [] => .ok (w, [])
  | w, blk :: rest =>
    if blk.afterSubnetIds ≠ [] ∧ blk.lbType = ("application") then
      match setSubnets w [blk.loadBalancerName] blk.beforeSubnetIds false with
      | .error e => .error (e, w, [])
      | .ok (w1, t1) =>
        match elbv2RecoverLoop w1 rest with
        | .error (e, w2, t2) => .error (e, w2, t1 ++ t2)
        | .ok (w2, t2) => .ok (w2, t1 ++ t2)
    else elbv2RecoverLoop w rest

/-- Embeds the elbv2 `recover_az`. -/
def elbv2RecoverAz (w : ElbV2World) (fs : FS ElbV2Doc) (statePath : String) :
    Except (String × ElbV2World × List ApiCall) (ElbV2World × FS ElbV2Doc × List ApiCall) :=
  match validateFailAzPath ElbV2Doc.dryRun false statePath ("elbv2") fs with
  | .error e => .error (e, w, [])
  | .ok statePath =>
    match fs.getFile statePath with
    | none => .error (("state file not found"), w, [])
    | some doc =>
      if doc.dryRun then .error (("State file was generated from a dry run..."), w, [])
      else
        match elbv2RecoverLoop w doc.loadBalancers with
        | .error e => .error e
        | .ok (w1, t) => .ok (w1, fs.remove statePath, t)

end AzChaos
namespace AzChaos

theorem mem_sortedInsertStr (x : String) (l : List String) (a : String) :
    a ∈ sortedInsertStr x l ↔ a = x ∨ a ∈ l := by
  induction l with
  | nil => simp [sortedInsertStr]
  | cons y ys ih =>
    unfold sortedInsertStr
    split
    · rename_i hxy
      rw [hxy]
      simp only [List.mem_cons]
      tauto
    · split
      · simp only [List.mem_cons]
      · simp only [List.mem_cons, ih]
        tauto

theorem mem_pySortedSet (l : List String) (a : String) : a ∈ pySortedSet l ↔ a ∈ l := by
  induction l with
  | nil => simp [pySortedSet]
  | cons x xs ih =>
    unfold pySortedSet at ih ⊢
    rw [List.foldr_cons, mem_sortedInsertStr, ih, List.mem_cons]

/-- Every call issued by a successful `set_subnets` is a set-subnets call
carrying exactly the requested subnet list. -/
theorem setSubnets_trace_shape (w : ElbV2World) (names subnetIds : List String) (dr : Bool)
    (w1 : ElbV2World) (t1 : List ApiCall)
    (h : setSubnets w names subnetIds dr = .ok (w1, t1)) :
    ∀ C ∈ t1, ∃ a, C = ApiCall.setSubnetsCall a subnetIds := by
  unfold setSubnets at h
  simp only [bind, Except.bind, pure, Except.pure] at h
  rcases hG : getLoadBalancerArns w names with e | ⟨netA, appA⟩ <;> rw [hG] at h <;> dsimp only at h
  · exact absurd h (by simp)
  split at h
  · exact absurd h (by simp)
  · split at h
    · simp only [Except.ok.injEq, Prod.mk.injEq] at h
      rw [← h.2]
      simp
    · simp only [Except.ok.injEq, Prod.mk.injEq] at h
      rw [← h.2]
      intro C hC
      obtain ⟨a, _, hCa⟩ := List.mem_map.mp hC
      exact ⟨a, hCa.symm⟩

/-- A target-AZ zone of a balancer with fewer than three zones makes the
zone collection fail validation. -/
theorem collectZones_error (az : String) (nAzs : Nat) :
    ∀ (zs : List LbAz) (z : LbAz), z ∈ zs → z.zoneName = az → nAzs < 3 →
      ∃ e, collectZones az nAzs zs = .error e := by
  intro zs
  induction zs with
  | nil => intro z hz; exact absurd hz (by simp)
  | cons y ys ih =>
    intro z hz hzn hlen
    unfold collectZones
    by_cases hy : y.zoneName = az ∧ nAzs < 3
    · rw [if_pos hy]
      exact ⟨_, rfl⟩
    · rcases List.mem_cons.mp hz with heq | hmem
      · exact absurd ⟨by rw [← heq]; exact hzn, hlen⟩ hy
      · obtain ⟨e, he⟩ := ih z hmem hzn hlen
        rw [if_neg hy]
        simp only [bind, Except.bind]
        rw [he]
        exact ⟨e, rfl⟩

end AzChaos
namespace AzChaos

def c8World : ElbV2World :=
  { lbs := [
      { arn := ("arn-1"), name := ("lb-1"), lbType := ("application"), stateCode := ("active"),
        availabilityZones := [⟨("az-1"), ("s-1")⟩, ⟨("az-2"), ("s-2")⟩, ⟨("az-3"), ("s-3")⟩],
        tags := [(("AZ_FAILURE"), ("True"))] },
      { arn := ("arn-2"), name := ("lb-2"), lbType := ("application"), stateCode := ("active"),
        availabilityZones := [⟨("az-1"), ("s-4")⟩, ⟨("az-2"), ("s-5")⟩],
        tags := [(("AZ_FAILURE"), ("True"))] }],
    subnets := [(("s-1"), ("az-1")), (("s-2"), ("az-2")), (("s-3"), ("az-3")),
                (("s-4"), ("az-1")), (("s-5"), ("az-2"))] }

/-- C8 counterexample to the strict reading "the operation fails
validation before any mutating call is made": with two targeted ALBs, the
second of which has fewer than three AZs, the run does fail the ≥3-AZ
validation, but only after the first balancer's mutating `set_subnets`
call has already been issued. -/
theorem elbv2_fail_az_validation_counterexample :
    elbv2FailAz c8World ⟨[]⟩ ("az-1") (some false) [(("AZ_FAILURE"), ("True"))] ("st") =
      .error (("[ELBV2] LB requires at least 2 AZs to operate. Please ensure your LB has 3 AZs to support the removal of 1 AZ."),
        { c8World with lbs := [
            { arn := ("arn-1"), name := ("lb-1"), lbType := ("application"),
              stateCode := ("active"),
              availabilityZones := [⟨("az-2"), ("s-2")⟩, ⟨("az-3"), ("s-3")⟩],
              tags := [(("AZ_FAILURE"), ("True"))] },
            { arn := ("arn-2"), name := ("lb-2"), lbType := ("application"),
              stateCode := ("active"),
              availabilityZones := [⟨("az-1"), ("s-4")⟩, ⟨("az-2"), ("s-5")⟩],
              tags := [(("AZ_FAILURE"), ("True"))] }] },
        [ApiCall.setSubnetsCall ("arn-1") [("s-2"), ("s-3")]]) ∧
    [ApiCall.setSubnetsCall ("arn-1") [("s-2"), ("s-3")]] ≠ ([] : List ApiCall) := by
  exact ⟨by rfl, by simp⟩

/-- C8 (amended): (1) for every targeted application load balancer whose
describe yields a nonempty set of target-AZ subnets, the per-balancer
loop of the elbv2 `fail_az` issues its `set_subnets` calls with exactly
the complement of the target-AZ subnets within the balancer's original
subnets, and records that complement as the block's After subnets; (2) a
balancer with a zone in the target AZ but fewer than three zones fails
the ≥3-AZ validation and the loop stops with no further mutation —
mutating calls already issued for earlier balancers are NOT rolled back
(see the counterexample), so the validation only precedes the mutation of
the balancer it checks. -/
theorem elbv2_fail_az_subnet_complement :
    (∀ (az : String) (w : ElbV2World) (arn : String) (rest : List String)
       (name : String) (orig targ : List String)
       (blks : List ElbV2StateBlock) (w2 : ElbV2World) (t : List ApiCall),
       getLbSubnetsByAz w az arn = .ok (name, ("application"), orig, targ) →
       targ ≠ [] →
       elbv2FailLoop az false w (arn :: rest) = .ok (blks, w2, t) →
       ∃ w1 t1 blksR tR,
         setSubnets w [name] (pySortedSet (orig.filter (fun s => s ∉ targ))) false = .ok (w1, t1) ∧
         blks = { loadBalancerName := name, lbType := ("application"),
                  beforeSubnetIds := pySortedSet orig,
                  afterSubnetIds := pySortedSet (orig.filter (fun s => s ∉ targ)) } :: blksR ∧
         t = t1 ++ tR ∧
         (∀ C ∈ t1, ∃ a, C = ApiCall.setSubnetsCall a (pySortedSet (orig.filter (fun s => s ∉ targ)))) ∧
         (∀ s, s ∈ pySortedSet (orig.filter (fun s => s ∉ targ)) ↔ s ∈ orig ∧ s ∉ targ)) ∧
    (∀ (az : String) (dr : Bool) (w : ElbV2World) (arn : String) (rest : List String)
       (lb : LoadBalancer) (z : LbAz),
       w.lbs.find? (fun lb2 => lb2.arn = arn) = some lb →
       z ∈ lb.availabilityZones → z.zoneName = az → lb.availabilityZones.length < 3 →
       ∃ e, elbv2FailLoop az dr w (arn :: rest) = .error (e, w, [])) := by
  constructor
  · intro az w arn rest name orig targ blks w2 t hdesc htarg hloop
    unfold elbv2FailLoop at hloop
    rw [hdesc] at hloop
    dsimp only at hloop
    rw [if_neg (by simp)] at hloop
    rw [if_pos htarg] at hloop
    rcases hss : setSubnets w [name] (pySortedSet (orig.filter (fun s => s ∉ targ))) false
        with e | ⟨w1, t1⟩ <;> rw [hss] at hloop <;> dsimp only at hloop
    · exact absurd hloop (by simp)
    rcases hrec : elbv2FailLoop az false w1 rest with ⟨e, w2', t2⟩ | ⟨blksR, w2', t2⟩ <;>
      rw [hrec] at hloop <;> dsimp only at hloop
    · exact absurd hloop (by simp)
    simp only [Except.ok.injEq, Prod.mk.injEq] at hloop
    obtain ⟨h1, h2, h3⟩ := hloop
    refine ⟨w1, t1, blksR, t2, rfl, h1.symm, h3.symm, setSubnets_trace_shape _ _ _ _ _ _ hss, ?_⟩
    intro s
    rw [mem_pySortedSet, List.mem_filter]
    simp
  · intro az dr w arn rest lb z hlb hz hzn hlen
    obtain ⟨e, he⟩ := collectZones_error az lb.availabilityZones.length lb.availabilityZones z hz hzn hlen
    refine ⟨e, ?_⟩
    unfold elbv2FailLoop getLbSubnetsByAz
    rw [hlb]
    simp only [bind, Except.bind]
    rw [he]

end AzChaos
namespace AzChaos

def c8Block : ElbV2StateBlock :=
  { loadBalancerName := ("lb-1"), lbType := ("application"),
    beforeSubnetIds := [("s-1"), ("s-2"), ("s-3")],
    afterSubnetIds := [("s-2"), ("s-3")] }

def c8Lb2 : LoadBalancer :=
  { arn := ("arn-2"), name := ("lb-2"), lbType := ("application"), stateCode := ("active"),
    availabilityZones := [⟨("az-1"), ("s-4")⟩, ⟨("az-2"), ("s-5")⟩],
    tags := [(("AZ_FAILURE"), ("True"))] }

/-- C8 witness: the three-AZ balancer is moved onto exactly the two
non-target subnets, and the two-AZ balancer fails the ≥3-AZ validation
with no mutation. -/
theorem elbv2_fail_az_subnet_complement_witness :
    (∃ w1 t1 blksR tR,
       setSubnets c8World [("lb-1")]
         (pySortedSet (([("s-1"), ("s-2"), ("s-3")] : List String).filter
           (fun s => s ∉ [("s-1")]))) false = .ok (w1, t1) ∧
       [c8Block] = { loadBalancerName := ("lb-1"), lbType := ("application"),
                     beforeSubnetIds := pySortedSet [("s-1"), ("s-2"), ("s-3")],
                     afterSubnetIds := pySortedSet (([("s-1"), ("s-2"), ("s-3")] : List String).filter
                       (fun s => s ∉ [("s-1")])) } :: blksR ∧
       [ApiCall.setSubnetsCall ("arn-1") [("s-2"), ("s-3")]] = t1 ++ tR ∧
       (∀ C ∈ t1, ∃ a, C = ApiCall.setSubnetsCall a
         (pySortedSet (([("s-1"), ("s-2"), ("s-3")] : List String).filter
           (fun s => s ∉ [("s-1")])))) ∧
       (∀ s, s ∈ pySortedSet (([("s-1"), ("s-2"), ("s-3")] : List String).filter
           (fun s => s ∉ [("s-1")])) ↔
         s ∈ [("s-1"), ("s-2"), ("s-3")] ∧ s ∉ [("s-1")])) ∧
    (∃ e, elbv2FailLoop ("az-1") false c8World [("arn-2")] = .error (e, c8World, [])) :=
  ⟨elbv2_fail_az_subnet_complement.1 ("az-1") c8World ("arn-1") [] ("lb-1")
      [("s-1"), ("s-2"), ("s-3")] [("s-1")] [c8Block] _
      [ApiCall.setSubnetsCall ("arn-1") [("s-2"), ("s-3")]] (by rfl) (by simp) (by rfl),
   elbv2_fail_az_subnet_complement.2 ("az-1") false c8World ("arn-2") [] c8Lb2
      ⟨("az-1"), ("s-4")⟩ (by rfl) (by decide) rfl (by decide)⟩

end AzChaos
namespace AzChaos

structure ClassicLb where
  name : String
  availabilityZones : List String
  subnets : List String
  vpcId : String
  tags : List (String × String)
deriving DecidableEq, Repr

/-- Classic-ELB world: balancers, the subnet → AZ map, and the region's
default VPC (the `is-default` describe-vpcs filter result). -/
structure ElbWorld where
  lbs : List ClassicLb
  subnets : List (String × String)
  defaultVpc : Option String
deriving DecidableEq, Repr

/-- Embeds the classic `get_lbs_by_az` (the Python set of names is
modeled in describe order; the zone list of a balancer has no
duplicates, so each balancer contributes its name at most once). -/
def getLbsByAzClassic (w : ElbWorld) (az : String) : List String :=
  (w.lbs.filter (fun lb => az ∈ lb.availabilityZones)).map (·.name)

/-- Embeds the classic `filter_lbs_by_tags` with its 20-chunking. -/
def filterLbsByTagsClassic (w : ElbWorld) (names : List String)
    (tags : List (String × String)) : List String :=
  (chunksOf20 names).flatMap (fun chunk =>
    (chunk.filterMap (fun n =>
      (w.lbs.find? (fun lb => lb.name = n)).map (fun lb => (n, lb.tags)))).filterMap
      (fun td => if tags.all (fun t => t ∈ td.2) then some td.1 else none))

def describeLbsByNamesClassic (w : ElbWorld) (names : List String) : List ClassicLb :=
  w.lbs.filter (fun lb => lb.name ∈ names)

/-- Embeds `filter_lbs_in_default_vpc`. -/
def filterLbsInDefaultVpc (w : ElbWorld) (names : List String) : List String :=
  match w.defaultVpc with
  | none => []
  | some v => ((describeLbsByNamesClassic w names).filter (fun lb => lb.vpcId = v)).map (·.name)

def zoneOfClassic (w : ElbWorld) (s : String) : String :=
  ((w.subnets.find? (fun p => p.1 = s)).map (·.2)).getD ("")

/-- Embeds the classic `get_lb_subnets_by_az` (name, original subnets,
subnets of the target AZ). -/
def getLbSubnetsByAzClassic (w : ElbWorld) (az : String) (name : String) :
    Except String (String × List String × List String) :=
  match w.lbs.find? (fun lb => lb.name = name) with
  | none => .error ("[ELB] LB not found...")
  | some lb => .ok (lb.name, lb.subnets, lb.subnets.filter (fun s => zoneOfClassic w s = az))

/-- World effect of `detach_load_balancer_from_subnets`; the response's
`Subnets` key holds the remaining subnets. -/
def detachSubnetsApi (w : ElbWorld) (name : String) (subs : List String) :
    Except String (List String × ElbWorld × List ApiCall) :=
  match w.lbs.find? (fun lb => lb.name = name) with
  | none => .error ("LoadBalancerNotFound")
  | some lb =>
    let newSubs := lb.subnets.filter (fun s => s ∉ subs)
    .ok (newSubs,
         { w with lbs := w.lbs.map (fun l =>
             if l.name = name then { l with subnets := newSubs } else l) },
         [ApiCall.detachLbSubnetsCall name subs])

/-- World effect of `disable_availability_zones_for_load_balancer`; the
response's `AvailabilityZones` key holds the remaining zones. The AWS
call removes the requested zones unconditionally — the embedded action
performs no minimum-zone validation, mirroring the source. -/
def disableAzsApi (w : ElbWorld) (name : String) (azs : List String) :
    Except String (List String × ElbWorld × List ApiCall) :=
  match w.lbs.find? (fun lb => lb.name = name) with
  | none => .error ("LoadBalancerNotFound")
  | some lb =>
    let newAzs := lb.availabilityZones.filter (fun z => z ∉ azs)
    .ok (newAzs,
         { w with lbs := w.lbs.map (fun l =>
             if l.name = name then { l with availabilityZones := newAzs } else l) },
         [ApiCall.disableLbAzsCall name azs])

/-- World effect of `attach_load_balancer_to_subnets`. -/
def attachSubnetsApi (w : ElbWorld) (name : String) (subs : List String) :
    Except String (ElbWorld × List ApiCall) :=
  match w.lbs.find? (fun lb => lb.name = name) with
  | none => .error ("LoadBalancerNotFound")
  | some _ =>
    .ok ({ w with lbs := w.lbs.map (fun l =>
            if l.name = name then
              { l with subnets := l.subnets ++ subs.filter (fun s => s ∉ l.subnets) }
            else l) },
         [ApiCall.attachLbSubnetsCall name subs])

/-- World effect of `enable_availability_zones_for_load_balancer`. -/
def enableAzsApi (w : ElbWorld) (name : String) (azs : List String) :
    Except String (ElbWorld × List ApiCall) :=
  match w.lbs.find? (fun lb => lb.name = name) with
  | none => .error ("LoadBalancerNotFound")
  | some _ =>
    .ok ({ w with lbs := w.lbs.map (fun l =>
            if l.name = name then
              { l with availabilityZones := l.availabilityZones ++ azs.filter (fun z => z ∉ l.availabilityZones) }
            else l) },
         [ApiCall.enableLbAzsCall name azs])

/-- One state entry of the classic-ELB document; a detach-branch entry
carries subnet ids, a disable-branch entry carries zones (the respective
other lists stay empty, matching the `.get(..., [])` reads of
`recover_az`). -/
structure ElbStateBlock where
  loadBalancerName : String
  beforeSubnetIds : List String
  afterSubnetIds : List String
  beforeAzs : List String
  afterAzs : List String
deriving DecidableEq, Repr

structure ElbDoc where
  availabilityZone : String
  dryRun : Bool
  loadBalancers : List ElbStateBlock
deriving DecidableEq, Repr

/-- Detach loop of the classic `fail_az` for non-default-VPC balancers. -/
def elbDetachLoop (az : String) (dryRun : Bool) :
    ElbWorld → List String → Except String (List ElbStateBlock × ElbWorld × List ApiCall)
  | w, [] => .ok ([], w, [])
  | w, name :: rest => do
    let (lbName, orig, targ) ← getLbSubnetsByAzClassic w az name
    if targ ≠ [] then do
      let (remaining, w1, t1) ←
        if dryRun then pure (orig.filter (fun s => s ∉ targ), w, ([] : List ApiCall))
        else detachSubnetsApi w name targ
      let blk : ElbStateBlock := ⟨lbName, orig, remaining, [], []⟩
      let (blks, w2, t2) ← elbDetachLoop az dryRun w1 rest
      .ok (blk :: blks, w2, t1 ++ t2)
    else do
      let (blks, w2, t2) ← elbDetachLoop az dryRun w rest
      .ok (blks, w2, t2)

/-- Disable loop of the classic `fail_az` for default-VPC balancers,
iterating over the describe snapshot. No zone-count validation is
performed before disabling. -/
def elbDisableLoop (az : String) (dryRun : Bool) :
    ElbWorld → List ClassicLb → Except String (List ElbStateBlock × ElbWorld × List ApiCall)
  | w, [] => .ok ([], w, [])
  | w, lb :: rest => do
    let (remaining, w1, t1) ←
      if dryRun then pure (lb.availabilityZones.filter (fun z => z ∉ [az]), w, ([] : List ApiCall))
      else disableAzsApi w lb.name [az]
    let blk : ElbStateBlock := ⟨lb.name, [], [], lb.availabilityZones, remaining⟩
    let (blks, w2, t2) ← elbDisableLoop az dryRun w1 rest
    .ok (blk :: blks, w2, t1 ++ t2)

/-- Embeds the classic-ELB `fail_az`. -/
def elbFailAz (w : ElbWorld) (fs : FS ElbDoc) (az : String) (dryRun : Option Bool)
    (lbNames : Option (List String)) (tags : List (String × String)) (statePath : String) :
    Except String (ElbDoc × ElbWorld × FS ElbDoc × List ApiCall) := do
  let dr ← match dryRun with
    | none => .error ("you must specify a dry_run boolean parameter")
    | some b => pure b
  if az = ("") then
    .error ("you must specify an Availability Zone")
  else do
    let statePath ← validateFailAzPath ElbDoc.dryRun true statePath ("elb") fs
    let targetNames := getLbsByAzClassic w az
    if targetNames = [] then
      .error ("[ELB] No LBs in the target AZ found...")
    else do
      let tagged := match lbNames with
        | some (n :: ns) => filterLbsByTagsClassic w (n :: ns) tags
        | _ => filterLbsByTagsClassic w targetNames tags
      if tagged = [] then
        .error ("[ELB] No LBs with the provided tags and the target AZ found...")
      else do
        let defaultLbs := filterLbsInDefaultVpc w tagged
        let nonDefault := tagged.filter (fun n => n ∉ defaultLbs)
        let (blks1, w1, t1) ←
          if nonDefault ≠ [] then elbDetachLoop az dr w nonDefault
          else pure ([], w, ([] : List ApiCall))
        let (blks2, w2, t2) ←
          if defaultLbs ≠ [] then elbDisableLoop az dr w1 (describeLbsByNamesClassic w1 defaultLbs)
          else pure ([], w1, ([] : List ApiCall))
        let doc : ElbDoc := ⟨az, dr, blks1 ++ blks2⟩
        .ok (doc, w2, fs.write statePath doc, t1 ++ t2)

/-- Per-block loop of the classic `recover_az`. -/
def elbRecoverLoop : ElbWorld → List ElbStateBlock →
    Except String (ElbWorld × List ApiCall)
  | w, [] => .ok (w, [])
  | w, blk :: rest => do
    let (w1, t1) ←
      if blk.afterSubnetIds ≠ [] then attachSubnetsApi w blk.loadBalancerName blk.beforeSubnetIds
      else pure (w, ([] : List ApiCall))
    let (w2, t2) ←
      if blk.afterAzs ≠ [] then enableAzsApi w1 blk.loadBalancerName blk.beforeAzs
      else pure (w1, ([] : List ApiCall))
    let (w3, t3) ← elbRecoverLoop w2 rest
    .ok (w3, t1 ++ t2 ++ t3)

/-- Embeds the classic-ELB `recover_az`. -/
def elbRecoverAz (w : ElbWorld) (fs : FS ElbDoc) (statePath : String) :
    Except String (ElbWorld × FS ElbDoc × List ApiCall) := do
  let statePath ← validateFailAzPath ElbDoc.dryRun false statePath ("elb") fs
  match fs.getFile statePath with
  | none => .error ("state file not found")
  | some doc =>
    if doc.dryRun then .error ("State file was generated from a dry run...")
    else do
      let (w1, t) ← elbRecoverLoop w doc.loadBalancers
      .ok (w1, fs.remove statePath, t)

end AzChaos
namespace AzChaos

def c9Lb : ClassicLb :=
  { name := ("clb-1"), availabilityZones := [("az-1")],
    subnets := [("s-1")], vpcId := ("vpc-default"),
    tags := [(("AZ_FAILURE"), ("True"))] }

def c9World : ElbWorld :=
  { lbs := [c9Lb],
    subnets := [(("s-1"), ("az-1"))],
    defaultVpc := some ("vpc-default") }

def c9Doc : ElbDoc :=
  { availabilityZone := ("az-1"), dryRun := false,
    loadBalancers := [⟨("clb-1"), [], [], [("az-1")], []⟩] }

def c9WorldAfter : ElbWorld :=
  { lbs := [{ name := ("clb-1"), availabilityZones := [],
              subnets := [("s-1")], vpcId := ("vpc-default"),
              tags := [(("AZ_FAILURE"), ("True"))] }],
    subnets := [(("s-1"), ("az-1"))],
    defaultVpc := some ("vpc-default") }

/-- C9 counterexample: a default-VPC classic balancer with a single
enabled AZ equal to the target AZ is disabled without any ≥2-AZ
validation — the run succeeds, the disable call is issued, and zero AZs
remain enabled. -/
theorem elb_fail_az_min_az_counterexample :
    elbFailAz c9World ⟨[]⟩ ("az-1") (some false) none [(("AZ_FAILURE"), ("True"))] ("st") =
      .ok (c9Doc, c9WorldAfter, FS.write ⟨[]⟩ ("st.elb.json") c9Doc,
           [ApiCall.disableLbAzsCall ("clb-1") [("az-1")]]) ∧
    (∃ b ∈ c9Doc.loadBalancers, b.beforeAzs = [("az-1")] ∧ b.afterAzs = []) ∧
    (∃ lb ∈ c9WorldAfter.lbs, lb.name = ("clb-1") ∧ lb.availabilityZones = []) := by
  refine ⟨(by rfl), ⟨⟨("clb-1"), [], [], [("az-1")], []⟩, by decide⟩, ?_⟩
  exact ⟨{ name := ("clb-1"), availabilityZones := [],
           subnets := [("s-1")], vpcId := ("vpc-default"),
           tags := [(("AZ_FAILURE"), ("True"))] }, by decide⟩

/-- C9 (amended): the default-VPC disable branch of the classic-ELB
`fail_az` performs no minimum-AZ validation: for every balancer of the
describe snapshot the disable call is issued unconditionally, the
remaining zones are the enabled zones minus the target AZ, and for a
balancer whose only enabled zone is the target AZ no zone remains
enabled afterwards. -/
theorem elb_fail_az_disable_unconditional :
    ∀ (az : String) (w : ElbWorld) (lb : ClassicLb) (rest : List ClassicLb)
      (lbW : ClassicLb) (blks : List ElbStateBlock) (w' : ElbWorld) (t : List ApiCall),
      w.lbs.find? (fun l => l.name = lb.name) = some lbW →
      elbDisableLoop az false w (lb :: rest) = .ok (blks, w', t) →
      ∃ blksR tR,
        blks = (⟨lb.name, [], [], lb.availabilityZones,
                lbW.availabilityZones.filter (fun z => z ∉ [az])⟩ : ElbStateBlock) :: blksR ∧
        t = ApiCall.disableLbAzsCall lb.name [az] :: tR ∧
        (∀ z, z ∈ lbW.availabilityZones.filter (fun z2 => z2 ∉ [az]) ↔
          z ∈ lbW.availabilityZones ∧ z ≠ az) ∧
        (lbW.availabilityZones = [az] →
          lbW.availabilityZones.filter (fun z => z ∉ [az]) = []) := by
  intro az w lb rest lbW blks w' t hfind h
  unfold elbDisableLoop at h
  simp only [bind, Except.bind, pure, Except.pure, Bool.false_eq_true, if_false] at h
  unfold disableAzsApi at h
  rw [hfind] at h
  dsimp only at h
  rcases hRec : elbDisableLoop az false
      { w with lbs := w.lbs.map (fun l =>
          if l.name = lb.name then
            { l with availabilityZones := lbW.availabilityZones.filter (fun z => z ∉ [az]) }
          else l) } rest with eR | ⟨blksR, w2, t2⟩ <;> rw [hRec] at h <;> dsimp only at h
  · exact absurd h (by simp)
  simp only [Except.ok.injEq, Prod.mk.injEq] at h
  obtain ⟨h1, h2, h3⟩ := h
  refine ⟨blksR, t2, h1.symm, h3.symm, ?_, ?_⟩
  · intro z
    rw [List.mem_filter]
    simp
  · intro hone
    rw [hone]
    simp

end AzChaos
namespace AzChaos

/-- C9 witness: the single-AZ default-VPC balancer is disabled
unconditionally and ends with no enabled zone. -/
theorem elb_fail_az_disable_unconditional_witness :
    ∃ blksR tR,
      [(⟨("clb-1"), [], [], [("az-1")], []⟩ : ElbStateBlock)] =
        (⟨c9Lb.name, [], [], c9Lb.availabilityZones,
          c9Lb.availabilityZones.filter (fun z => z ∉ [("az-1")])⟩ : ElbStateBlock) :: blksR ∧
      [ApiCall.disableLbAzsCall ("clb-1") [("az-1")]] =
        ApiCall.disableLbAzsCall c9Lb.name [("az-1")] :: tR ∧
      (∀ z, z ∈ c9Lb.availabilityZones.filter (fun z2 => z2 ∉ [("az-1")]) ↔
        z ∈ c9Lb.availabilityZones ∧ z ≠ ("az-1")) ∧
      (c9Lb.availabilityZones = [("az-1")] →
        c9Lb.availabilityZones.filter (fun z => z ∉ [("az-1")]) = []) :=
  elb_fail_az_disable_unconditional ("az-1") c9World c9Lb [] c9Lb
    [(⟨("clb-1"), [], [], [("az-1")], []⟩ : ElbStateBlock)] c9WorldAfter
    [ApiCall.disableLbAzsCall ("clb-1") [("az-1")]] (by rfl) (by rfl)

end AzChaos
namespace AzChaos

structure BrokerSummary where
  brokerArn : String
  brokerId : String
  brokerName : String
  deploymentMode : String
  engineType : String
deriving DecidableEq, Repr

/-- MQ world: the paginated `list_brokers` response (one entry per page),
the per-broker tag dicts and subnet lists, and the subnet → AZ map. -/
structure MqWorld where
  pages : List (List BrokerSummary)
  brokerTags : List (String × List (String × String))
  brokerSubnets : List (String × List String)
  subnets : List (String × String)
deriving DecidableEq, Repr

/-- Embeds the pagination loop of `get_brokers_by_tags_and_az`: each
page REASSIGNS the accumulator (`brokers = [bs for bs in
p["BrokerSummaries"]]`), so only the final page survives. -/
def listBrokers (w : MqWorld) : List BrokerSummary :=
  w.pages.foldl (fun _brokers p => p.map (fun bs => bs)) []

def tagsOfBroker (w : MqWorld) (arn : String) : List (String × String) :=
  ((w.brokerTags.find? (fun p => p.1 = arn)).map (·.2)).getD []

def subnetsOfBroker (w : MqWorld) (brokerId : String) : List String :=
  ((w.brokerSubnets.find? (fun p => p.1 = brokerId)).map (·.2)).getD []

def mqZoneOf (w : MqWorld) (s : String) : String :=
  ((w.subnets.find? (fun p => p.1 = s)).map (·.2)).getD ("")

def dictGet (d : List (String × String)) (k : String) : Option String :=
  (d.find? (fun p => p.1 = k)).map (·.2)

/-- Embeds `get_brokers_by_tags_and_az` (tag dict nonempty, every
requested pair present, and at least one broker subnet in the target
AZ). -/
def getBrokersByTagsAndAz (w : MqWorld) (tags : List (String × String)) (az : String) :
    Except String (List BrokerSummary) :=
  let brokers := listBrokers w
  let filtered := brokers.filter (fun b =>
    decide (tagsOfBroker w b.brokerArn ≠ [] ∧
      (∀ t ∈ tags, dictGet (tagsOfBroker w b.brokerArn) t.1 = some t.2) ∧
      (subnetsOfBroker w b.brokerId).filter (fun s => mqZoneOf w s = az) ≠ []))
  if filtered = [] then
    .error ("No broker(s) found with matching tag(s) and az.")
  else .ok filtered

structure MqDoc where
  availabilityZone : String
  dryRun : Bool
  successBrokerIds : List String
  failedBrokerIds : List String
deriving DecidableEq, Repr

/-- Embeds the MQ `fail_az` (the thread-pool reboot fan-out is modeled
sequentially; every embedded `reboot_broker` call succeeds). -/
def mqFailAz (w : MqWorld) (az : String) (dryRun : Option Bool)
    (tags : List (String × String)) : Except String (MqDoc × List ApiCall) := do
  let dr ← match dryRun with
    | none => .error ("you must specify a dry_run boolean parameter")
    | some b => pure b
  if az = ("") then
    .error ("you must specify an Availability Zone")
  else do
    let tagged ← getBrokersByTagsAndAz w tags az
    let ids := (tagged.filter (fun b =>
      decide (b.engineType = ("ActiveMQ") ∧
        b.deploymentMode = ("ACTIVE_STANDBY_MULTI_AZ")))).map (·.brokerId)
    if ids = [] then
      .error ("No ActiveMQ broker(s) with the provided tags and configured with Active-Standby MultiAZ deployment found...")
    else if dr then
      .ok (⟨az, dr, [], []⟩, [])
    else
      .ok (⟨az, dr, ids, []⟩, ids.map (fun i => ApiCall.rebootBrokerCall i))

theorem foldl_overwrite (ps : List (List BrokerSummary)) :
    ∀ init, ps.foldl (fun _brokers p => p.map (fun bs => bs)) init = ps.getLastD init := by
  induction ps with
  | nil => intro init; rfl
  | cons p rest ih =>
    intro init
    rw [List.foldl_cons, ih, List.getLastD_cons]
    simp

end AzChaos
namespace AzChaos

def mqOldBroker : BrokerSummary :=
  ⟨("arn-old"), ("b-old"), ("broker-old"), ("ACTIVE_STANDBY_MULTI_AZ"), ("ActiveMQ")⟩

def mqNewBroker : BrokerSummary :=
  ⟨("arn-new"), ("b-new"), ("broker-new"), ("ACTIVE_STANDBY_MULTI_AZ"), ("ActiveMQ")⟩

def mqW : MqWorld :=
  { pages := [[mqOldBroker], [mqNewBroker]],
    brokerTags := [(("arn-old"), [(("AZ_FAILURE"), ("True"))]),
                   (("arn-new"), [(("AZ_FAILURE"), ("True"))])],
    brokerSubnets := [(("b-old"), [("ms-1")]), (("b-new"), [("ms-1")])],
    subnets := [(("ms-1"), ("az-1"))] }

/-- Every broker returned by `get_brokers_by_tags_and_az` comes from the
(overwritten) `list_brokers` accumulator, i.e. from the final page. -/
theorem getBrokersByTagsAndAz_mem (w : MqWorld) (tags : List (String × String))
    (az : String) (r : List BrokerSummary)
    (h : getBrokersByTagsAndAz w tags az = .ok r) :
    ∀ b ∈ r, b ∈ listBrokers w := by
  unfold getBrokersByTagsAndAz at h
  dsimp only at h
  split at h
  · exact absurd h (by simp)
  · simp only [Except.ok.injEq] at h
    intro b hb
    rw [← h] at hb
    exact List.mem_of_mem_filter hb

end AzChaos
namespace AzChaos

/-- C10: the pagination loop of the MQ broker discovery overwrites its
accumulator on every page, so only the final page of `list_brokers` is
retained: the accumulator equals the last page, every broker the run
considers (and hence every rebooted broker id and every reboot call)
comes from the last page, and a broker absent from the last page is
never part of the tag/AZ filtering result. -/
theorem mq_pagination_overwrite :
    (∀ w : MqWorld, listBrokers w = w.pages.getLastD []) ∧
    (∀ (w : MqWorld) (az : String) (dr : Bool) (tags : List (String × String))
       (doc : MqDoc) (t : List ApiCall),
       mqFailAz w az (some dr) tags = .ok (doc, t) →
       (∀ i ∈ doc.successBrokerIds, ∃ b ∈ w.pages.getLastD [], b.brokerId = i) ∧
       (∀ C ∈ t, ∃ b ∈ w.pages.getLastD [], C = ApiCall.rebootBrokerCall b.brokerId)) ∧
    (∀ (w : MqWorld) (az : String) (tags : List (String × String))
       (r : List BrokerSummary) (b : BrokerSummary),
       getBrokersByTagsAndAz w tags az = .ok r →
       b ∉ w.pages.getLastD [] → b ∉ r) := by
  have hlast : ∀ w : MqWorld, listBrokers w = w.pages.getLastD [] := by
    intro w
    unfold listBrokers
    exact foldl_overwrite w.pages []
  refine ⟨hlast, ?_, ?_⟩
  · intro w az dr tags doc t h
    unfold mqFailAz at h
    simp only [bind, Except.bind, pure, Except.pure] at h
    split at h
    · exact absurd h (by simp)
    · rcases hG : getBrokersByTagsAndAz w tags az with e | tagged <;> rw [hG] at h <;>
        dsimp only at h
      · exact absurd h (by simp)
      split at h
      · exact absurd h (by simp)
      · split at h
        · simp only [Except.ok.injEq, Prod.mk.injEq] at h
          obtain ⟨h1, h2⟩ := h
          rw [← h1, ← h2]
          exact ⟨by simp, by simp⟩
        · simp only [Except.ok.injEq, Prod.mk.injEq] at h
          obtain ⟨h1, h2⟩ := h
          rw [← h1, ← h2]
          constructor
          · intro i hi
            dsimp only at hi
            obtain ⟨b, hb, hbi⟩ := List.mem_map.mp hi
            refine ⟨b, ?_, hbi⟩
            rw [← hlast w]
            exact getBrokersByTagsAndAz_mem w tags az tagged hG b (List.mem_of_mem_filter hb)
          · intro C hC
            obtain ⟨i, hi, hCi⟩ := List.mem_map.mp hC
            obtain ⟨b, hb, hbi⟩ := List.mem_map.mp hi
            refine ⟨b, ?_, by rw [← hCi, hbi]⟩
            rw [← hlast w]
            exact getBrokersByTagsAndAz_mem w tags az tagged hG b (List.mem_of_mem_filter hb)
  · intro w az tags r b hG hb hbr
    exact hb (by rw [← hlast w]; exact getBrokersByTagsAndAz_mem w tags az r hG b hbr)

/-- C10 witness: a matching broker on page one is dropped by the
page-two overwrite — only the page-two broker is filtered and rebooted.
-/
theorem mq_pagination_overwrite_witness :
    mqFailAz mqW ("az-1") (some false) [(("AZ_FAILURE"), ("True"))] =
      .ok (⟨("az-1"), false, [("b-new")], []⟩, [ApiCall.rebootBrokerCall ("b-new")]) ∧
    ((∀ i ∈ [("b-new")], ∃ b ∈ mqW.pages.getLastD [], b.brokerId = i) ∧
      (∀ C ∈ [ApiCall.rebootBrokerCall ("b-new")],
        ∃ b ∈ mqW.pages.getLastD [], C = ApiCall.rebootBrokerCall b.brokerId)) ∧
    mqOldBroker ∉ [mqNewBroker] :=
  ⟨(by rfl),
   (mq_pagination_overwrite.2.1 mqW ("az-1") false [(("AZ_FAILURE"), ("True"))]
     ⟨("az-1"), false, [("b-new")], []⟩ [ApiCall.rebootBrokerCall ("b-new")] (by rfl)),
   mq_pagination_overwrite.2.2 mqW ("az-1") [(("AZ_FAILURE"), ("True"))]
     [mqNewBroker] mqOldBroker (by rfl) (by decide)⟩

end AzChaos
namespace AzChaos

theorem modifyCapacity_dry (w : AsgWorld) (asg : String) (mn mx dc : Nat)
    (blk : AsgStateBlock) (w' : AsgWorld) (t : List ApiCall)
    (h : modifyCapacity w asg true mn mx dc = .ok (blk, w', t)) : w' = w ∧ t = [] := by
  unfold modifyCapacity at h
  simp only [bind, Except.bind, pure, Except.pure, Bool.not_true, Bool.false_eq_true, if_false] at h
  rcases hG : getAsgByName w [asg] with e | resp <;> rw [hG] at h <;> dsimp only at h
  · exact absurd h (by simp)
  rcases resp with _ | ⟨a, rest⟩ <;> dsimp only at h
  · exact absurd h (by simp)
  simp only [Except.ok.injEq, Prod.mk.injEq] at h
  exact ⟨h.2.1.symm, h.2.2.symm⟩

theorem removeAzSubnets_dry (w : AsgWorld) (az asg : String)
    (blk : AsgStateBlock) (w' : AsgWorld) (t : List ApiCall)
    (h : removeAzSubnets w az asg true = .ok (blk, w', t)) : w' = w ∧ t = [] := by
  unfold removeAzSubnets at h
  simp only [bind, Except.bind, pure, Except.pure, Bool.not_true, Bool.false_eq_true, if_false] at h
  rcases hG : getAsgByName w [asg] with e | resp <;> rw [hG] at h <;> dsimp only at h
  · exact absurd h (by simp)
  rcases resp with _ | ⟨a, rest⟩ <;> dsimp only at h
  · exact absurd h (by simp)
  rcases hD : describeSubnetsAsg w a.subnetIds with e | full <;> rw [hD] at h <;> dsimp only at h
  · exact absurd h (by simp)
  simp only [Except.ok.injEq, Prod.mk.injEq] at h
  exact ⟨h.2.1.symm, by simpa using h.2.2.symm⟩

theorem asgFailAzLoop_dry (az : String) :
    ∀ (asgs : List String) (w : AsgWorld) (blks : List AsgStateBlock) (w' : AsgWorld) (t : List ApiCall),
      asgFailAzLoop az true w asgs = .ok (blks, w', t) → w' = w ∧ t = [] := by
  intro asgs
  induction asgs with
  | nil =>
    intro w blks w' t h
    unfold asgFailAzLoop at h
    simp only [Except.ok.injEq, Prod.mk.injEq] at h
    exact ⟨h.2.1.symm, h.2.2.symm⟩
  | cons asg rest ih =>
    intro w blks w' t h
    unfold asgFailAzLoop at h
    simp only [bind, Except.bind, pure, Except.pure] at h
    rcases hS : asgInSingleAz w asg with e | single <;> rw [hS] at h <;> dsimp only at h
    · exact absurd h (by simp)
    rcases hsingle : single with _ | _ <;> rw [hsingle] at h
    · rw [if_neg (by simp)] at h
      rcases hR : removeAzSubnets w az asg true with e | ⟨blk, w1, t1⟩ <;> rw [hR] at h <;>
        dsimp only at h
      · exact absurd h (by simp)
      obtain ⟨hw1, ht1⟩ := removeAzSubnets_dry w az asg blk w1 t1 hR
      rcases hRec : asgFailAzLoop az true w1 rest with e | ⟨blks2, w2, t2⟩ <;> rw [hRec] at h <;>
        dsimp only at h
      · exact absurd h (by simp)
      obtain ⟨hw2, ht2⟩ := ih w1 blks2 w2 t2 hRec
      simp only [Except.ok.injEq, Prod.mk.injEq] at h
      exact ⟨by rw [← h.2.1, hw2, hw1], by rw [← h.2.2, ht1, ht2]; rfl⟩
    · rw [if_pos rfl] at h
      rcases hR : modifyCapacity w asg true 0 0 0 with e | ⟨blk, w1, t1⟩ <;> rw [hR] at h <;>
        dsimp only at h
      · exact absurd h (by simp)
      obtain ⟨hw1, ht1⟩ := modifyCapacity_dry w asg 0 0 0 blk w1 t1 hR
      rcases hRec : asgFailAzLoop az true w1 rest with e | ⟨blks2, w2, t2⟩ <;> rw [hRec] at h <;>
        dsimp only at h
      · exact absurd h (by simp)
      obtain ⟨hw2, ht2⟩ := ih w1 blks2 w2 t2 hRec
      simp only [Except.ok.injEq, Prod.mk.injEq] at h
      exact ⟨by rw [← h.2.1, hw2, hw1], by rw [← h.2.2, ht1, ht2]; rfl⟩

theorem processAssociations_dry (vpcId : String) (subnetIds : List String) (acl : NetworkAcl) :
    ∀ (assocs : List NaclAssociation) (cache : String) (w : Ec2World)
      (blks : List SubnetStateBlock) (cache' : String) (w' : Ec2World) (t : List ApiCall),
      processAssociations vpcId subnetIds true acl assocs cache w = .ok (blks, cache', w', t) →
      w' = w ∧ t = [] ∧ cache' = cache := by
  intro assocs
  induction assocs with
  | nil =>
    intro cache w blks cache' w' t h
    unfold processAssociations at h
    simp only [Except.ok.injEq, Prod.mk.injEq] at h
    exact ⟨h.2.2.1.symm, h.2.2.2.symm, h.2.1.symm⟩
  | cons assoc rest ih =>
    intro cache w blks cache' w' t h
    unfold processAssociations at h
    simp only [bind, Except.bind, pure, Except.pure, if_true] at h
    split at h
    · rcases hRec : processAssociations vpcId subnetIds true acl rest cache w
          with e | ⟨blks2, cache2, w2, t2⟩ <;> rw [hRec] at h <;> dsimp only at h
      · exact absurd h (by simp)
      obtain ⟨hw, ht, hc⟩ := ih cache w blks2 cache2 w2 t2 hRec
      simp only [Except.ok.injEq, Prod.mk.injEq] at h
      exact ⟨by rw [← h.2.2.1, hw], by rw [← h.2.2.2, ht], by rw [← h.2.1, hc]⟩
    · rcases hRec : processAssociations vpcId subnetIds true acl rest cache w
          with e | ⟨blks2, cache2, w2, t2⟩ <;> rw [hRec] at h <;> dsimp only at h
      · exact absurd h (by simp)
      obtain ⟨hw, ht, hc⟩ := ih cache w blks2 cache2 w2 t2 hRec
      simp only [Except.ok.injEq, Prod.mk.injEq] at h
      exact ⟨by rw [← h.2.2.1, hw], by rw [← h.2.2.2, ht], by rw [← h.2.1, hc]⟩

theorem processAcls_dry (vpcId : String) (subnetIds : List String) :
    ∀ (S : List NetworkAcl) (cache : String) (w : Ec2World)
      (blks : List SubnetStateBlock) (cache' : String) (w' : Ec2World) (t : List ApiCall),
      processAcls vpcId subnetIds true S cache w = .ok (blks, cache', w', t) →
      w' = w ∧ t = [] := by
  intro S
  induction S with
  | nil =>
    intro cache w blks cache' w' t h
    unfold processAcls at h
    simp only [Except.ok.injEq, Prod.mk.injEq] at h
    exact ⟨h.2.2.1.symm, h.2.2.2.symm⟩
  | cons acl rest ih =>
    intro cache w blks cache' w' t h
    unfold processAcls at h
    simp only [bind, Except.bind, pure, Except.pure] at h
    split at h
    · rcases hPA : processAssociations vpcId subnetIds true acl acl.associations cache w
          with e | ⟨blks1, cache1, w1, t1⟩ <;> rw [hPA] at h <;> dsimp only at h
      · exact absurd h (by simp)
      obtain ⟨hw1, ht1, hc1⟩ := processAssociations_dry vpcId subnetIds acl acl.associations
        cache w blks1 cache1 w1 t1 hPA
      rcases hRec : processAcls vpcId subnetIds true rest cache1 w1
          with e | ⟨blks2, cache2, w2, t2⟩ <;> rw [hRec] at h <;> dsimp only at h
      · exact absurd h (by simp)
      obtain ⟨hw2, ht2⟩ := ih cache1 w1 blks2 cache2 w2 t2 hRec
      simp only [Except.ok.injEq, Prod.mk.injEq] at h
      exact ⟨by rw [← h.2.2.1, hw2, hw1], by rw [← h.2.2.2, ht1, ht2]; rfl⟩
    · rcases hRec : processAcls vpcId subnetIds true rest cache w
          with e | ⟨blks2, cache2, w2, t2⟩ <;> rw [hRec] at h <;> dsimp only at h
      · exact absurd h (by simp)
      obtain ⟨hw2, ht2⟩ := ih cache w blks2 cache2 w2 t2 hRec
      simp only [Except.ok.injEq, Prod.mk.injEq] at h
      exact ⟨by rw [← h.2.2.1, hw2], by rw [← h.2.2.2, ht2]⟩

theorem networkFailureVpcs_dry (subnetIds : List String) :
    ∀ (vpcIds : List String) (w : Ec2World)
      (blks : List SubnetStateBlock) (w' : Ec2World) (t : List ApiCall),
      networkFailureVpcs subnetIds true vpcIds w = .ok (blks, w', t) →
      w' = w ∧ t = [] := by
  intro vpcIds
  induction vpcIds with
  | nil =>
    intro w blks w' t h
    unfold networkFailureVpcs at h
    simp only [Except.ok.injEq, Prod.mk.injEq] at h
    exact ⟨h.2.1.symm, h.2.2.symm⟩
  | cons vpcId rest ih =>
    intro w blks w' t h
    unfold networkFailureVpcs at h
    simp only [bind, Except.bind, pure, Except.pure] at h
    rcases hPA : processAcls vpcId subnetIds true (describeNetworkAcls w vpcId subnetIds) ("") w
        with e | ⟨blks1, cache1, w1, t1⟩ <;> rw [hPA] at h <;> dsimp only at h
    · exact absurd h (by simp)
    obtain ⟨hw1, ht1⟩ := processAcls_dry vpcId subnetIds _ ("") w blks1 cache1 w1 t1 hPA
    rcases hRec : networkFailureVpcs subnetIds true rest w1
        with e | ⟨blks2, w2, t2⟩ <;> rw [hRec] at h <;> dsimp only at h
    · exact absurd h (by simp)
    obtain ⟨hw2, ht2⟩ := ih w1 blks2 w2 t2 hRec
    simp only [Except.ok.injEq, Prod.mk.injEq] at h
    exact ⟨by rw [← h.2.1, hw2, hw1], by rw [← h.2.2, ht1, ht2]; rfl⟩

end AzChaos
namespace AzChaos

theorem setSubnets_dry (w : ElbV2World) (names subnetIds : List String)
    (w1 : ElbV2World) (t1 : List ApiCall)
    (h : setSubnets w names subnetIds true = .ok (w1, t1)) : w1 = w ∧ t1 = [] := by
  unfold setSubnets at h
  simp only [bind, Except.bind, pure, Except.pure] at h
  rcases hG : getLoadBalancerArns w names with e | ⟨netA, appA⟩ <;> rw [hG] at h <;> dsimp only at h
  · exact absurd h (by simp)
  split at h
  · exact absurd h (by simp)
  · simp only [if_true] at h
    simp only [Except.ok.injEq, Prod.mk.injEq] at h
    exact ⟨h.1.symm, h.2.symm⟩

theorem elbv2FailLoop_dry (az : String) :
    ∀ (arns : List String) (w : ElbV2World) (blks : List ElbV2StateBlock)
      (w' : ElbV2World) (t : List ApiCall),
      elbv2FailLoop az true w arns = .ok (blks, w', t) → w' = w ∧ t = [] := by
  intro arns
  induction arns with
  | nil =>
    intro w blks w' t h
    unfold elbv2FailLoop at h
    simp only [Except.ok.injEq, Prod.mk.injEq] at h
    exact ⟨h.2.1.symm, h.2.2.symm⟩
  | cons arn rest ih =>
    intro w blks w' t h
    unfold elbv2FailLoop at h
    rcases hD : getLbSubnetsByAz w az arn with e | ⟨name, ty, orig, targ⟩ <;> rw [hD] at h <;>
      dsimp only at h
    · exact absurd h (by simp)
    split at h
    · exact ih w blks w' t h
    · split at h
      · rcases hss : setSubnets w [name] (pySortedSet (orig.filter (fun s => s ∉ targ))) true
            with e | ⟨w1, t1⟩ <;> rw [hss] at h <;> dsimp only at h
        · exact absurd h (by simp)
        obtain ⟨hw1, ht1⟩ := setSubnets_dry _ _ _ _ _ hss
        rcases hRec : elbv2FailLoop az true w1 rest with ⟨e, w2, t2⟩ | ⟨blks2, w2, t2⟩ <;>
          rw [hRec] at h <;> dsimp only at h
        · exact absurd h (by simp)
        obtain ⟨hw2, ht2⟩ := ih w1 blks2 w2 t2 hRec
        simp only [Except.ok.injEq, Prod.mk.injEq] at h
        exact ⟨by rw [← h.2.1, hw2, hw1], by rw [← h.2.2, ht1, ht2]; rfl⟩
      · exact ih w blks w' t h

theorem elbDetachLoop_dry (az : String) :
    ∀ (names : List String) (w : ElbWorld) (blks : List ElbStateBlock)
      (w' : ElbWorld) (t : List ApiCall),
      elbDetachLoop az true w names = .ok (blks, w', t) → w' = w ∧ t = [] := by
  intro names
  induction names with
  | nil =>
    intro w blks w' t h
    unfold elbDetachLoop at h
    simp only [Except.ok.injEq, Prod.mk.injEq] at h
    exact ⟨h.2.1.symm, h.2.2.symm⟩
  | cons name rest ih =>
    intro w blks w' t h
    unfold elbDetachLoop at h
    simp only [bind, Except.bind, pure, Except.pure, if_true] at h
    rcases hD : getLbSubnetsByAzClassic w az name with e | ⟨lbName, orig, targ⟩ <;> rw [hD] at h <;>
      dsimp only at h
    · exact absurd h (by simp)
    split at h
    · rcases hRec : elbDetachLoop az true w rest with e | ⟨blks2, w2, t2⟩ <;>
        rw [hRec] at h <;> dsimp only at h
      · exact absurd h (by simp)
      obtain ⟨hw2, ht2⟩ := ih w blks2 w2 t2 hRec
      simp only [Except.ok.injEq, Prod.mk.injEq] at h
      exact ⟨by rw [← h.2.1, hw2], by rw [← h.2.2, ht2]; rfl⟩
    · rcases hRec : elbDetachLoop az true w rest with e | ⟨blks2, w2, t2⟩ <;>
        rw [hRec] at h <;> dsimp only at h
      · exact absurd h (by simp)
      obtain ⟨hw2, ht2⟩ := ih w blks2 w2 t2 hRec
      simp only [Except.ok.injEq, Prod.mk.injEq] at h
      exact ⟨by rw [← h.2.1, hw2], by rw [← h.2.2, ht2]⟩

theorem elbDisableLoop_dry (az : String) :
    ∀ (lbs : List ClassicLb) (w : ElbWorld) (blks : List ElbStateBlock)
      (w' : ElbWorld) (t : List ApiCall),
      elbDisableLoop az true w lbs = .ok (blks, w', t) → w' = w ∧ t = [] := by
  intro lbs
  induction lbs with
  | nil =>
    intro w blks w' t h
    unfold elbDisableLoop at h
    simp only [Except.ok.injEq, Prod.mk.injEq] at h
    exact ⟨h.2.1.symm, h.2.2.symm⟩
  | cons lb rest ih =>
    intro w blks w' t h
    unfold elbDisableLoop at h
    simp only [bind, Except.bind, pure, Except.pure, if_true] at h
    rcases hRec : elbDisableLoop az true w rest with e | ⟨blks2, w2, t2⟩ <;>
      rw [hRec] at h <;> dsimp only at h
    · exact absurd h (by simp)
    obtain ⟨hw2, ht2⟩ := ih w blks2 w2 t2 hRec
    simp only [Except.ok.injEq, Prod.mk.injEq] at h
    exact ⟨by rw [← h.2.1, hw2], by rw [← h.2.2, ht2]; rfl⟩

end AzChaos
namespace AzChaos

theorem exceptBind_ok {ε α β : Type} {e : Except ε α} {f : α → Except ε β} {b : β}
    (h : Except.bind e f = .ok b) : ∃ a, e = .ok a ∧ f a = .ok b := by
  cases e with
  | error err => exact absurd h (by simp [Except.bind])
  | ok a => exact ⟨a, rfl, h⟩

theorem stopInstancesTop_dry (w : Ec2World) (instanceIds : Option (List String))
    (az : Option String) (filters : Option (List Filter)) (force : Bool)
    (res : StopResult) (w1 : Ec2World) (t1 : List ApiCall)
    (h : stopInstancesTop w instanceIds az true filters force = .ok (res, w1, t1)) :
    w1 = w ∧ t1 = [] := by
  unfold stopInstancesTop at h
  simp only [bind, not_true, if_false] at h
  split at h
  · exact absurd h (by simp)
  split at h
  · split at h
    · exact absurd h (by simp [Except.bind])
    · simp only [pure, Except.pure, Except.bind] at h
      simp only [Except.ok.injEq, Prod.mk.injEq] at h
      exact ⟨h.2.1.symm, h.2.2.symm⟩
  · obtain ⟨ls, hls, h⟩ := exceptBind_ok h
    simp only [Except.ok.injEq, Prod.mk.injEq] at h
    exact ⟨h.2.1.symm, h.2.2.symm⟩

theorem instanceFailure_dry (w : Ec2World) (az : Option String)
    (filters : Option (List Filter)) (force : Bool)
    (blks : List InstanceStateBlock) (w' : Ec2World) (t : List ApiCall)
    (h : instanceFailure w az true filters force = .ok (blks, w', t)) :
    w' = w ∧ t = [] := by
  unfold instanceFailure at h
  simp only [bind] at h
  obtain ⟨⟨res, w1, t1⟩, hstop, h⟩ := exceptBind_ok h
  obtain ⟨hw1, ht1⟩ := stopInstancesTop_dry w none az filters force res w1 t1 hstop
  dsimp only at h
  cases res with
  | dry groups =>
    simp only [Except.ok.injEq, Prod.mk.injEq] at h
    exact ⟨by rw [← h.2.1, hw1], by rw [← h.2.2, ht1]⟩
  | real responses =>
    simp only [Except.ok.injEq, Prod.mk.injEq] at h
    exact ⟨by rw [← h.2.1, hw1], by rw [← h.2.2, ht1]⟩

end AzChaos
namespace AzChaos

theorem asgFailAz_dry (w : AsgWorld) (fs : FS AsgDoc) (az : String)
    (tags : List (String × String)) (p : String)
    (doc : AsgDoc) (w' : AsgWorld) (fs' : FS AsgDoc) (t : List ApiCall)
    (h : asgFailAz w fs az (some true) tags p = .ok (doc, w', fs', t)) :
    w' = w ∧ t = [] ∧ doc.dryRun = true := by
  obtain ⟨b, p', hb, haz, hval, htags, resp, hresp, hrest⟩ :=
    asgFailAz_ok_inv w fs az (some true) tags p doc w' fs' t h
  obtain ⟨hasgs, hloop, hdocaz, hdocdr, hfs⟩ := hrest
  injection hb with hb
  rw [← hb] at hloop hdocdr
  obtain ⟨hw, ht⟩ := asgFailAzLoop_dry az _ w _ w' t hloop
  exact ⟨hw, ht, hdocdr⟩

theorem ec2FailAz_dry (w : Ec2World) (fs : FS Ec2Doc) (az : Option String)
    (failureType : String) (filters : Option (List Filter)) (p : String)
    (doc : Ec2Doc) (w' : Ec2World) (fs' : FS Ec2Doc) (t : List ApiCall)
    (h : ec2FailAz w fs az (some true) failureType filters p = .ok (doc, w', fs', t)) :
    w' = w ∧ t = [] ∧ doc.dryRun = true := by
  unfold ec2FailAz at h
  obtain ⟨dr, hdr, h⟩ := exceptBind_ok h
  simp only [pure, Except.pure] at hdr
  injection hdr with hdr
  subst hdr
  split at h
  · exact absurd h (by simp)
  split at h
  · exact absurd h (by simp)
  obtain ⟨p', hval, h⟩ := exceptBind_ok h
  try dsimp only at h
  split at h
  · split at h
    · exact absurd h (by simp)
    · obtain ⟨⟨blks, w1, t1⟩, hnf, h⟩ := exceptBind_ok h
      obtain ⟨hw1, ht1⟩ := networkFailureVpcs_dry _ _ w _ w1 t1 hnf
      try dsimp only at h
      simp only [Except.ok.injEq, Prod.mk.injEq] at h
      refine ⟨by rw [← h.2.1, hw1], by rw [← h.2.2.2, ht1], ?_⟩
      rw [← h.1]
  · split at h
    · obtain ⟨⟨iblks, w1, t1⟩, hif, h⟩ := exceptBind_ok h
      obtain ⟨hw1, ht1⟩ := instanceFailure_dry w az _ _ iblks w1 t1 hif
      try dsimp only at h
      simp only [Except.ok.injEq, Prod.mk.injEq] at h
      refine ⟨by rw [← h.2.1, hw1], by rw [← h.2.2.2, ht1], ?_⟩
      rw [← h.1]
    · simp only [Except.ok.injEq, Prod.mk.injEq] at h
      refine ⟨h.2.1.symm, h.2.2.2.symm, ?_⟩
      rw [← h.1]

theorem elbv2FailAz_dry (w : ElbV2World) (fs : FS ElbV2Doc) (az : String)
    (tags : List (String × String)) (p : String)
    (doc : ElbV2Doc) (w' : ElbV2World) (fs' : FS ElbV2Doc) (t : List ApiCall)
    (h : elbv2FailAz w fs az (some true) tags p = .ok (doc, w', fs', t)) :
    w' = w ∧ t = [] ∧ doc.dryRun = true := by
  unfold elbv2FailAz at h
  try dsimp only at h
  split at h
  · exact absurd h (by simp)
  rcases hval : validateFailAzPath ElbV2Doc.dryRun true p ("elbv2") fs with e | p' <;>
    rw [hval] at h <;> try dsimp only at h
  · exact absurd h (by simp)
  split at h
  · exact absurd h (by simp)
  split at h
  · exact absurd h (by simp)
  rcases hloop : elbv2FailLoop az true w (filterLbsByTags w (getLbsByAz w az) tags)
      with e | ⟨blks, w1, t1⟩ <;> rw [hloop] at h <;> try dsimp only at h
  · exact absurd h (by simp)
  obtain ⟨hw1, ht1⟩ := elbv2FailLoop_dry az _ w blks w1 t1 hloop
  simp only [Except.ok.injEq, Prod.mk.injEq] at h
  refine ⟨by rw [← h.2.1, hw1], by rw [← h.2.2.2, ht1], ?_⟩
  rw [← h.1]

theorem elbFailAz_dry (w : ElbWorld) (fs : FS ElbDoc) (az : String)
    (lbNames : Option (List String)) (tags : List (String × String)) (p : String)
    (doc : ElbDoc) (w' : ElbWorld) (fs' : FS ElbDoc) (t : List ApiCall)
    (h : elbFailAz w fs az (some true) lbNames tags p = .ok (doc, w', fs', t)) :
    w' = w ∧ t = [] ∧ doc.dryRun = true := by
  unfold elbFailAz at h
  obtain ⟨dr, hdr, h⟩ := exceptBind_ok h
  simp only [pure, Except.pure] at hdr
  injection hdr with hdr
  subst hdr
  split at h
  · exact absurd h (by simp)
  obtain ⟨p', hval, h⟩ := exceptBind_ok h
  try dsimp only at h
  split at h
  · exact absurd h (by simp)
  split at h
  · exact absurd h (by simp)
  split at h
  · obtain ⟨⟨blks1, w1, t1⟩, h1, h⟩ := exceptBind_ok h
    have hd1 : w1 = w ∧ t1 = [] := elbDetachLoop_dry az _ w blks1 w1 t1 h1
    try dsimp only at h
    split at h
    · obtain ⟨⟨blks2, w2, t2⟩, h2, h⟩ := exceptBind_ok h
      have hd2 : w2 = w1 ∧ t2 = [] := elbDisableLoop_dry az _ w1 blks2 w2 t2 h2
      try dsimp only at h
      simp only [Except.ok.injEq, Prod.mk.injEq] at h
      refine ⟨by rw [← h.2.1, hd2.1, hd1.1], by rw [← h.2.2.2, hd2.2, hd1.2]; rfl, ?_⟩
      rw [← h.1]
    · obtain ⟨⟨blks2, w2, t2⟩, h2, h⟩ := exceptBind_ok h
      simp only [pure, Except.pure, Except.ok.injEq, Prod.mk.injEq] at h2
      try dsimp only at h
      simp only [Except.ok.injEq, Prod.mk.injEq] at h
      refine ⟨by rw [← h.2.1, ← h2.2.1, hd1.1], by rw [← h.2.2.2, ← h2.2.2, hd1.2]; rfl, ?_⟩
      rw [← h.1]
  · obtain ⟨⟨blks1, w1, t1⟩, h1, h⟩ := exceptBind_ok h
    simp only [pure, Except.pure, Except.ok.injEq, Prod.mk.injEq] at h1
    try dsimp only at h
    split at h
    · obtain ⟨⟨blks2, w2, t2⟩, h2, h⟩ := exceptBind_ok h
      have hd2 : w2 = w1 ∧ t2 = [] := elbDisableLoop_dry az _ w1 blks2 w2 t2 h2
      try dsimp only at h
      simp only [Except.ok.injEq, Prod.mk.injEq] at h
      refine ⟨by rw [← h.2.1, hd2.1, ← h1.2.1], by rw [← h.2.2.2, hd2.2, ← h1.2.2]; rfl, ?_⟩
      rw [← h.1]
    · obtain ⟨⟨blks2, w2, t2⟩, h2, h⟩ := exceptBind_ok h
      simp only [pure, Except.pure, Except.ok.injEq, Prod.mk.injEq] at h2
      try dsimp only at h
      simp only [Except.ok.injEq, Prod.mk.injEq] at h
      refine ⟨by rw [← h.2.1, ← h2.2.1, ← h1.2.1], by rw [← h.2.2.2, ← h2.2.2, ← h1.2.2]; rfl, ?_⟩
      rw [← h.1]

theorem mqFailAz_dry (w : MqWorld) (az : String) (tags : List (String × String))
    (doc : MqDoc) (t : List ApiCall)
    (h : mqFailAz w az (some true) tags = .ok (doc, t)) :
    t = [] ∧ doc.dryRun = true := by
  unfold mqFailAz at h
  obtain ⟨dr, hdr, h⟩ := exceptBind_ok h
  simp only [pure, Except.pure] at hdr
  injection hdr with hdr
  subst hdr
  split at h
  · exact absurd h (by simp)
  obtain ⟨tagged, htag, h⟩ := exceptBind_ok h
  try dsimp only at h
  split at h
  · exact absurd h (by simp)
  rw [if_pos rfl] at h
  simp only [Except.ok.injEq, Prod.mk.injEq] at h
  exact ⟨h.2.symm, by rw [← h.1]⟩

theorem asgRecoverAz_dryDoc (w : AsgWorld) (fs : FS AsgDoc) (p p' : String) (doc : AsgDoc)
    (hval : validateFailAzPath AsgDoc.dryRun false p ("asg") fs = .ok p')
    (hfile : fs.getFile p' = some doc) (hdr : doc.dryRun = true) :
    asgRecoverAz w fs p = .error ("State file was generated from a dry run") := by
  unfold asgRecoverAz
  simp only [bind, pure, Except.pure]
  rw [hval]
  dsimp only [Except.bind]
  rw [hfile]
  dsimp only
  rw [if_pos hdr]

theorem ec2RecoverAz_dryDoc (w : Ec2World) (fs : FS Ec2Doc) (p p' : String) (doc : Ec2Doc)
    (hval : validateFailAzPath Ec2Doc.dryRun false p ("ec2") fs = .ok p')
    (hfile : fs.getFile p' = some doc) (hdr : doc.dryRun = true) :
    ec2RecoverAz w fs p = .error ("State file was generated from a dry run") := by
  unfold ec2RecoverAz
  simp only [bind, pure, Except.pure]
  rw [hval]
  dsimp only [Except.bind]
  rw [hfile]
  dsimp only
  rw [if_pos hdr]

theorem elbv2RecoverAz_dryDoc (w : ElbV2World) (fs : FS ElbV2Doc) (p p' : String)
    (doc : ElbV2Doc)
    (hval : validateFailAzPath ElbV2Doc.dryRun false p ("elbv2") fs = .ok p')
    (hfile : fs.getFile p' = some doc) (hdr : doc.dryRun = true) :
    elbv2RecoverAz w fs p = .error (("State file was generated from a dry run..."), w, []) := by
  unfold elbv2RecoverAz
  rw [hval]
  dsimp only
  rw [hfile]
  dsimp only
  rw [if_pos hdr]

theorem elbRecoverAz_dryDoc (w : ElbWorld) (fs : FS ElbDoc) (p p' : String) (doc : ElbDoc)
    (hval : validateFailAzPath ElbDoc.dryRun false p ("elb") fs = .ok p')
    (hfile : fs.getFile p' = some doc) (hdr : doc.dryRun = true) :
    elbRecoverAz w fs p = .error ("State file was generated from a dry run...") := by
  unfold elbRecoverAz
  simp only [bind, pure, Except.pure]
  rw [hval]
  dsimp only [Except.bind]
  rw [hfile]
  dsimp only
  rw [if_pos hdr]

end AzChaos
namespace AzChaos

/-- C3: with `dry_run = true`, every embedded `fail_az` that succeeds
issues no mutating API call, leaves the world unchanged, and records
`DryRun = true` in its document; and every embedded `recover_az` invoked
on a state document whose `DryRun` flag is true raises a descriptive
error (for the elbv2 module the error value also shows no call was
issued and the world is unchanged). -/
theorem dry_run_no_mutation :
    (∀ (w : AsgWorld) (fs : FS AsgDoc) (az : String) (tags : List (String × String)) (p : String)
       (doc : AsgDoc) (w' : AsgWorld) (fs' : FS AsgDoc) (t : List ApiCall),
       asgFailAz w fs az (some true) tags p = .ok (doc, w', fs', t) →
       w' = w ∧ t = [] ∧ doc.dryRun = true) ∧
    (∀ (w : Ec2World) (fs : FS Ec2Doc) (az : Option String) (ft : String)
       (filters : Option (List Filter)) (p : String)
       (doc : Ec2Doc) (w' : Ec2World) (fs' : FS Ec2Doc) (t : List ApiCall),
       ec2FailAz w fs az (some true) ft filters p = .ok (doc, w', fs', t) →
       w' = w ∧ t = [] ∧ doc.dryRun = true) ∧
    (∀ (w : ElbV2World) (fs : FS ElbV2Doc) (az : String) (tags : List (String × String))
       (p : String) (doc : ElbV2Doc) (w' : ElbV2World) (fs' : FS ElbV2Doc) (t : List ApiCall),
       elbv2FailAz w fs az (some true) tags p = .ok (doc, w', fs', t) →
       w' = w ∧ t = [] ∧ doc.dryRun = true) ∧
    (∀ (w : ElbWorld) (fs : FS ElbDoc) (az : String) (lbNames : Option (List String))
       (tags : List (String × String)) (p : String)
       (doc : ElbDoc) (w' : ElbWorld) (fs' : FS ElbDoc) (t : List ApiCall),
       elbFailAz w fs az (some true) lbNames tags p = .ok (doc, w', fs', t) →
       w' = w ∧ t = [] ∧ doc.dryRun = true) ∧
    (∀ (w : MqWorld) (az : String) (tags : List (String × String))
       (doc : MqDoc) (t : List ApiCall),
       mqFailAz w az (some true) tags = .ok (doc, t) → t = [] ∧ doc.dryRun = true) ∧
    (∀ (w : AsgWorld) (fs : FS AsgDoc) (p p' : String) (doc : AsgDoc),
       validateFailAzPath AsgDoc.dryRun false p ("asg") fs = .ok p' →
       fs.getFile p' = some doc → doc.dryRun = true →
       asgRecoverAz w fs p = .error ("State file was generated from a dry run")) ∧
    (∀ (w : Ec2World) (fs : FS Ec2Doc) (p p' : String) (doc : Ec2Doc),
       validateFailAzPath Ec2Doc.dryRun false p ("ec2") fs = .ok p' →
       fs.getFile p' = some doc → doc.dryRun = true →
       ec2RecoverAz w fs p = .error ("State file was generated from a dry run")) ∧
    (∀ (w : ElbV2World) (fs : FS ElbV2Doc) (p p' : String) (doc : ElbV2Doc),
       validateFailAzPath ElbV2Doc.dryRun false p ("elbv2") fs = .ok p' →
       fs.getFile p' = some doc → doc.dryRun = true →
       elbv2RecoverAz w fs p = .error (("State file was generated from a dry run..."), w, [])) ∧
    (∀ (w : ElbWorld) (fs : FS ElbDoc) (p p' : String) (doc : ElbDoc),
       validateFailAzPath ElbDoc.dryRun false p ("elb") fs = .ok p' →
       fs.getFile p' = some doc → doc.dryRun = true →
       elbRecoverAz w fs p = .error ("State file was generated from a dry run...")) := by
  refine ⟨?_, ?_, ?_, ?_, ?_, ?_, ?_, ?_, ?_⟩
  · exact asgFailAz_dry
  · exact ec2FailAz_dry
  · exact elbv2FailAz_dry
  · exact elbFailAz_dry
  · exact mqFailAz_dry
  · exact fun w fs p p' doc h1 h2 h3 => asgRecoverAz_dryDoc w fs p p' doc h1 h2 h3
  · exact fun w fs p p' doc h1 h2 h3 => ec2RecoverAz_dryDoc w fs p p' doc h1 h2 h3
  · exact fun w fs p p' doc h1 h2 h3 => elbv2RecoverAz_dryDoc w fs p p' doc h1 h2 h3
  · exact fun w fs p p' doc h1 h2 h3 => elbRecoverAz_dryDoc w fs p p' doc h1 h2 h3

def asgC3Doc : AsgDoc := { asgWitnessDoc with dryRun := true }

def ec2C3World : Ec2World :=
  { instances := [], spotRequests := [],
    subnets := [{ subnetId := ("s-10"), availabilityZone := ("az-a"),
                  vpcId := ("vpc-9"), tags := [(("AZ_FAILURE"), ("True"))] }],
    acls := [], nextId := 0 }

def ec2C3Doc : Ec2Doc := ⟨some ("az-a"), true, [], []⟩

def elbv2C3Doc : ElbV2Doc :=
  { availabilityZone := ("az-3"), dryRun := true,
    loadBalancers := [{ loadBalancerName := ("lb-1"), lbType := ("application"),
                        beforeSubnetIds := [("s-1"), ("s-2"), ("s-3")],
                        afterSubnetIds := [("s-1"), ("s-2")] }] }

def elbC3Doc : ElbDoc :=
  { availabilityZone := ("az-1"), dryRun := true,
    loadBalancers := [⟨("clb-1"), [], [], [("az-1")], []⟩] }

def ec2C3DryFs : FS Ec2Doc := ⟨[(("st.ec2.json"), FsNode.file ec2C3Doc)]⟩

def elbv2C3DryFs : FS ElbV2Doc := ⟨[(("st.elbv2.json"), FsNode.file elbv2C3Doc)]⟩

def elbC3DryFs : FS ElbDoc := ⟨[(("st.elb.json"), FsNode.file elbC3Doc)]⟩

/-- C3 witness: concrete dry runs of all five services succeed with an
unchanged world and an empty trace, and each recover on a dry-run
document errors out. -/
theorem dry_run_no_mutation_witness :
    (asgFailAz asgWitnessWorld ⟨[]⟩ ("az-a") (some true) [(("AZ_FAILURE"), ("True"))] ("st") =
       .ok (asgC3Doc, asgWitnessWorld, FS.write ⟨[]⟩ ("st.asg.json") asgC3Doc, []) ∧
     asgC3Doc.dryRun = true) ∧
    (ec2FailAz ec2C3World ⟨[]⟩ (some ("az-a")) (some true) ("network") none ("st") =
       .ok (ec2C3Doc, ec2C3World, FS.write ⟨[]⟩ ("st.ec2.json") ec2C3Doc, []) ∧
     ec2C3Doc.dryRun = true) ∧
    (elbv2FailAz c8World ⟨[]⟩ ("az-3") (some true) [(("AZ_FAILURE"), ("True"))] ("st") =
       .ok (elbv2C3Doc, c8World, FS.write ⟨[]⟩ ("st.elbv2.json") elbv2C3Doc, []) ∧
     elbv2C3Doc.dryRun = true) ∧
    (elbFailAz c9World ⟨[]⟩ ("az-1") (some true) none [(("AZ_FAILURE"), ("True"))] ("st") =
       .ok (elbC3Doc, c9World, FS.write ⟨[]⟩ ("st.elb.json") elbC3Doc, []) ∧
     elbC3Doc.dryRun = true) ∧
    (mqFailAz mqW ("az-1") (some true) [(("AZ_FAILURE"), ("True"))] =
       .ok (⟨("az-1"), true, [], []⟩, []) ∧
     ([] : List ApiCall) = []) ∧
    asgRecoverAz asgWitnessWorld dryFileFs ("st") =
      .error ("State file was generated from a dry run") ∧
    ec2RecoverAz ec2C3World ec2C3DryFs ("st") =
      .error ("State file was generated from a dry run") ∧
    elbv2RecoverAz c8World elbv2C3DryFs ("st") =
      .error (("State file was generated from a dry run..."), c8World, []) ∧
    elbRecoverAz c9World elbC3DryFs ("st") =
      .error ("State file was generated from a dry run...") :=
  ⟨⟨(by rfl), (dry_run_no_mutation.1 asgWitnessWorld ⟨[]⟩ ("az-a")
      [(("AZ_FAILURE"), ("True"))] ("st") asgC3Doc asgWitnessWorld
      (FS.write ⟨[]⟩ ("st.asg.json") asgC3Doc) [] (by rfl)).2.2⟩,
   ⟨(by rfl), (dry_run_no_mutation.2.1 ec2C3World ⟨[]⟩ (some ("az-a")) ("network") none ("st")
      ec2C3Doc ec2C3World (FS.write ⟨[]⟩ ("st.ec2.json") ec2C3Doc) [] (by rfl)).2.2⟩,
   ⟨(by rfl), (dry_run_no_mutation.2.2.1 c8World ⟨[]⟩ ("az-3") [(("AZ_FAILURE"), ("True"))] ("st")
      elbv2C3Doc c8World (FS.write ⟨[]⟩ ("st.elbv2.json") elbv2C3Doc) [] (by rfl)).2.2⟩,
   ⟨(by rfl), (dry_run_no_mutation.2.2.2.1 c9World ⟨[]⟩ ("az-1") none
      [(("AZ_FAILURE"), ("True"))] ("st") elbC3Doc c9World
      (FS.write ⟨[]⟩ ("st.elb.json") elbC3Doc) [] (by rfl)).2.2⟩,
   ⟨(by rfl), (dry_run_no_mutation.2.2.2.2.1 mqW ("az-1") [(("AZ_FAILURE"), ("True"))]
      ⟨("az-1"), true, [], []⟩ [] (by rfl)).1⟩,
   dry_run_no_mutation.2.2.2.2.2.1 asgWitnessWorld dryFileFs ("st") ("st.asg.json")
     dryRunAsgDoc (by rfl) (by rfl) rfl,
   dry_run_no_mutation.2.2.2.2.2.2.1 ec2C3World ec2C3DryFs ("st") ("st.ec2.json")
     ec2C3Doc (by rfl) (by rfl) rfl,
   dry_run_no_mutation.2.2.2.2.2.2.2.1 c8World elbv2C3DryFs ("st") ("st.elbv2.json")
     elbv2C3Doc (by rfl) (by rfl) rfl,
   dry_run_no_mutation.2.2.2.2.2.2.2.2 c9World elbC3DryFs ("st") ("st.elb.json")
     elbC3Doc (by rfl) (by rfl) rfl⟩

end AzChaos
namespace AzChaos

theorem mem_updateAsgIn (w : AsgWorld) (n : String) (f : AsgGroup → AsgGroup) (g' : AsgGroup)
    (h : g' ∈ (updateAsgIn w n f).asgs) :
    ∃ a ∈ w.asgs, (a.name = n ∧ g' = f a) ∨ (¬ a.name = n ∧ g' = a) := by
  unfold updateAsgIn at h
  simp only [List.mem_map] at h
  obtain ⟨a, ha, heq⟩ := h
  refine ⟨a, ha, ?_⟩
  by_cases hn : a.name = n
  · rw [if_pos hn] at heq
    exact Or.inl ⟨hn, heq.symm⟩
  · rw [if_neg hn] at heq
    exact Or.inr ⟨hn, heq.symm⟩

/-- After the resume loop, no group of the targeted name still has
`AZRebalance` suspended (established by any loop entry of that name,
preserved by every step). -/
theorem resumeLoop_azreb (n : String) (ps : Option (List String)) :
    ∀ (gs : List AsgGroup) (w : AsgWorld),
      ((∀ g' ∈ w.asgs, g'.name = n → ("AZRebalance") ∉ g'.suspendedProcesses) ∨
        (∃ a ∈ gs, a.name = n)) →
      ∀ g' ∈ ((resumeLoop ps [("AZRebalance")] w gs).1).asgs, g'.name = n →
        ("AZRebalance") ∉ g'.suspendedProcesses := by
  intro gs
  induction gs with
  | nil =>
    intro w hh g' hg' hn
    rcases hh with hP | ⟨a, ha, -⟩
    · exact hP g' hg' hn
    · exact absurd ha (by simp)
  | cons a rest ih =>
    intro w hh g' hg' hn
    unfold resumeLoop at hg'
    refine ih (updateAsgIn w a.name (removeSuspended [("AZRebalance")])) ?_ g' hg' hn
    rcases hh with hP | ⟨b, hb, hbn⟩
    · refine Or.inl ?_
      intro g2 hg2 hgn2
      obtain ⟨a0, ha0, hc⟩ := mem_updateAsgIn _ _ _ g2 hg2
      rcases hc with ⟨-, hg2e⟩ | ⟨-, hg2e⟩
      · rw [hg2e]
        unfold removeSuspended
        intro hmem
        rw [List.mem_filter] at hmem
        exact absurd hmem.2 (by simp)
      · rw [hg2e] at hgn2 ⊢
        exact hP a0 ha0 hgn2
    · rcases List.mem_cons.mp hb with heq | hbrest
      · refine Or.inl ?_
        intro g2 hg2 hgn2
        obtain ⟨a0, ha0, hc⟩ := mem_updateAsgIn _ _ _ g2 hg2
        rcases hc with ⟨-, hg2e⟩ | ⟨ha0n, hg2e⟩
        · rw [hg2e]
          unfold removeSuspended
          intro hmem
          rw [List.mem_filter] at hmem
          exact absurd hmem.2 (by simp)
        · rw [hg2e] at hgn2
          rw [heq] at hbn
          exact absurd (hgn2.trans hbn.symm) ha0n
      · exact Or.inr ⟨b, hbrest, hbn⟩

/-- After the change-subnets loop, every group of the targeted name has
exactly the requested subnets, and the loop does not re-suspend
`AZRebalance`. -/
theorem changeSubnetsLoop_prop (n : String) (S : List String) :
    ∀ (gs : List AsgGroup) (w : AsgWorld),
      ((∀ g' ∈ w.asgs, g'.name = n → g'.subnetIds = S) ∨ (∃ a ∈ gs, a.name = n)) →
      (∀ g' ∈ w.asgs, g'.name = n → ("AZRebalance") ∉ g'.suspendedProcesses) →
      ∀ g' ∈ ((changeSubnetsLoop S w gs).1).asgs, g'.name = n →
        g'.subnetIds = S ∧ ("AZRebalance") ∉ g'.suspendedProcesses := by
  intro gs
  induction gs with
  | nil =>
    intro w hh hs g' hg' hn
    rcases hh with hP | ⟨a, ha, -⟩
    · exact ⟨hP g' hg' hn, hs g' hg' hn⟩
    · exact absurd ha (by simp)
  | cons a rest ih =>
    intro w hh hs g' hg' hn
    unfold changeSubnetsLoop at hg'
    refine ih (updateAsgIn w a.name (fun g => { g with subnetIds := S })) ?_ ?_ g' hg' hn
    · rcases hh with hP | ⟨b, hb, hbn⟩
      · refine Or.inl ?_
        intro g2 hg2 hgn2
        obtain ⟨a0, ha0, hc⟩ := mem_updateAsgIn _ _ _ g2 hg2
        rcases hc with ⟨-, hg2e⟩ | ⟨-, hg2e⟩
        · rw [hg2e]
        · rw [hg2e] at hgn2 ⊢
          exact hP a0 ha0 hgn2
      · rcases List.mem_cons.mp hb with heq | hbrest
        · refine Or.inl ?_
          intro g2 hg2 hgn2
          obtain ⟨a0, ha0, hc⟩ := mem_updateAsgIn _ _ _ g2 hg2
          rcases hc with ⟨-, hg2e⟩ | ⟨ha0n, hg2e⟩
          · rw [hg2e]
          · rw [hg2e] at hgn2
            rw [heq] at hbn
            exact absurd (hgn2.trans hbn.symm) ha0n
        · exact Or.inr ⟨b, hbrest, hbn⟩
    · intro g2 hg2 hgn2
      obtain ⟨a0, ha0, hc⟩ := mem_updateAsgIn _ _ _ g2 hg2
      rcases hc with ⟨ha0n, hg2e⟩ | ⟨-, hg2e⟩
      · rw [hg2e]
        dsimp only
        rw [hg2e] at hgn2
        exact hs a0 ha0 hgn2
      · rw [hg2e] at hgn2 ⊢
        exact hs a0 ha0 hgn2

/-- Source-association view of a successful
`replace_network_acl_association`: the replaced association exists in the
pre-world and its subnet is the one re-associated. -/
theorem replace_ok_src (w : Ec2World) (aclId X newId : String) (w' : Ec2World) (t : List ApiCall)
    (h : replaceNetworkAclAssociationApi w aclId X = .ok (newId, w', t)) :
    ∃ src ∈ w.acls, ∃ assoc ∈ src.associations, assoc.networkAclAssociationId = X ∧
      w'.acls = w.acls.map (fun a =>
        let a2 : NetworkAcl :=
          { a with associations := a.associations.filter (fun x => x.networkAclAssociationId ≠ X) }
        if a2.networkAclId = aclId then
          { a2 with associations := a2.associations ++ [⟨newId, aclId, assoc.subnetId⟩] }
        else a2) := by
  unfold replaceNetworkAclAssociationApi at h
  split at h
  · exact absurd h (by simp)
  · rename_i src hsrc
    split at h
    · exact absurd h (by simp)
    · rename_i assoc hassoc
      split at h
      · exact absurd h (by simp)
      · simp only [Except.ok.injEq, Prod.mk.injEq] at h
        obtain ⟨hnew, hw, ht⟩ := h
        subst hnew
        have hsrcmem : src ∈ w.acls := List.mem_of_find?_eq_some hsrc
        have hassocmem : assoc ∈ src.associations := List.mem_of_find?_eq_some hassoc
        have hX : assoc.networkAclAssociationId = X := by
          have := List.find?_some hassoc
          simpa using this
        exact ⟨src, hsrcmem, assoc, hassocmem, hX, by rw [← hw]⟩

theorem FS.getFile_remove {δ : Type} (fs : FS δ) (p : String) :
    ( fs.remove p).getFile p = none := by
  unfold FS.remove FS.getFile FS.lookup
  dsimp only
  rw [List.find?_eq_none.mpr]
  · rfl
  · intro x hx
    rw [List.mem_filter] at hx
    simpa using hx.2

end AzChaos
namespace AzChaos

/-- Rolling back a subnets-type state block restores the recorded Before
subnets and resumes `AZRebalance` on every group of the recorded name. -/
theorem optTruthy_some_cons {α : Type} (x : α) (xs : List α) :
    optTruthy (some (x :: xs)) = true := rfl

theorem optTruthy_none {α : Type} : optTruthy (none : Option (List α)) = false := rfl

theorem validateAsgs_names (n : String) : validateAsgs (some [n]) none = .ok () := rfl

theorem validateProcesses_azreb : validateProcesses [("AZRebalance")] = .ok () := rfl

theorem asgRecoverBlock_subnets (w : AsgWorld) (blk : AsgStateBlock) (S : List String)
    (hreb : blk.beforeAzRebalance = some true) (hsub : blk.beforeSubnetIds = some S)
    (hmn : blk.beforeMinSize = none)
    (w' : AsgWorld) (t : List ApiCall)
    (h : asgRecoverBlock w blk = .ok (w', t)) :
    ∀ g' ∈ w'.asgs, g'.name = blk.autoScalingGroupName →
      g'.subnetIds = S ∧ ("AZRebalance") ∉ g'.suspendedProcesses := by
  unfold asgRecoverBlock at h
  rw [hreb, hsub, hmn] at h
  simp only [bind, Except.bind, pure, Except.pure, eq_self_iff_true, if_true] at h
  rcases hres : resumeProcessesHelper w (some [blk.autoScalingGroupName]) none
      (some [("AZRebalance")]) with e | ⟨res, wa, ta⟩ <;> rw [hres] at h <;> dsimp only at h
  · exact absurd h (by simp)
  rcases hcs : changeSubnets wa S (some [blk.autoScalingGroupName]) none
      with e | ⟨wb, tb⟩ <;> rw [hcs] at h <;> dsimp only at h
  · exact absurd h (by simp)
  simp only [Except.ok.injEq, Prod.mk.injEq] at h
  unfold resumeProcessesHelper at hres
  rw [validateAsgs_names] at hres
  simp only [bind, Except.bind, pure, Except.pure, optTruthy_some_cons, eq_self_iff_true,
    if_true, Option.getD_some] at hres
  rw [validateProcesses_azreb] at hres
  dsimp only at hres
  rcases hgs1 : getAsgByName w [blk.autoScalingGroupName] with e | gs1 <;> rw [hgs1] at hres <;>
    dsimp only at hres
  · exact absurd hres (by simp)
  rcases hres2 : getAsgByName (resumeLoop (some [("AZRebalance")]) [("AZRebalance")] w gs1).1
      (gs1.map (fun x => x.name)) with e | res2 <;> rw [hres2] at hres <;> dsimp only at hres
  · exact absurd hres (by simp)
  simp only [Except.ok.injEq, Prod.mk.injEq] at hres
  unfold changeSubnets at hcs
  rw [validateAsgs_names] at hcs
  simp only [bind, Except.bind, pure, Except.pure, optTruthy_some_cons, eq_self_iff_true,
    if_true, Option.getD_some] at hcs
  rcases hgs2 : getAsgByName wa [blk.autoScalingGroupName] with e | gs2 <;> rw [hgs2] at hcs <;>
    dsimp only at hcs
  · exact absurd hcs (by simp)
  simp only [Except.ok.injEq, Prod.mk.injEq] at hcs
  obtain ⟨hn1, hne1⟩ := getAsgByName_single w blk.autoScalingGroupName gs1 hgs1
  obtain ⟨hn2, hne2⟩ := getAsgByName_single wa blk.autoScalingGroupName gs2 hgs2
  have hP : ∀ g' ∈ wa.asgs, g'.name = blk.autoScalingGroupName →
      ("AZRebalance") ∉ g'.suspendedProcesses := by
    rw [← hres.2.1]
    refine resumeLoop_azreb blk.autoScalingGroupName (some [("AZRebalance")]) gs1 w (Or.inr ?_)
    rcases gs1 with _ | ⟨g0, gs0⟩
    · exact absurd rfl hne1
    · exact ⟨g0, List.mem_cons_self _ _, hn1 g0 (List.mem_cons_self _ _)⟩
  have hQ := changeSubnetsLoop_prop blk.autoScalingGroupName S gs2 wa
    (Or.inr (by
      rcases gs2 with _ | ⟨g0, gs0⟩
      · exact absurd rfl hne2
      · exact ⟨g0, List.mem_cons_self _ _, hn2 g0 (List.mem_cons_self _ _)⟩)) hP
  intro g' hg' hgn
  have hwb : (changeSubnetsLoop S wa gs2).1 = wb := by rw [hcs]
  have hw' : g' ∈ ((changeSubnetsLoop S wa gs2).1).asgs := by
    rw [hwb, h.1]
    exact hg'
  exact hQ g' hw' hgn

/-- Rolling back a capacity-type state block restores the recorded
Before capacity on every group of the recorded name. -/
theorem asgRecoverBlock_capacity (w : AsgWorld) (blk : AsgStateBlock) (mn mx dc : Nat)
    (hreb : blk.beforeAzRebalance = none)
    (hmn : blk.beforeMinSize = some mn) (hmx : blk.beforeMaxSize = some mx)
    (hdc : blk.beforeDesiredCapacity = some dc)
    (w' : AsgWorld) (t : List ApiCall)
    (h : asgRecoverBlock w blk = .ok (w', t)) :
    ∀ g' ∈ w'.asgs, g'.name = blk.autoScalingGroupName →
      g'.minSize = mn ∧ g'.maxSize = mx ∧ g'.desiredCapacity = dc := by
  unfold asgRecoverBlock at h
  rw [hreb, hmn, hmx, hdc] at h
  simp only [bind, Except.bind, pure, Except.pure] at h
  try dsimp only at h
  rcases hmc : modifyCapacity w blk.autoScalingGroupName false mn mx dc
      with e | ⟨blk2, w2, t2⟩ <;> rw [hmc] at h <;> dsimp only at h
  · exact absurd h (by simp)
  simp only [Except.ok.injEq, Prod.mk.injEq] at h
  unfold modifyCapacity at hmc
  simp only [bind, Except.bind, pure, Except.pure, Bool.not_false, eq_self_iff_true,
    if_true] at hmc
  rcases hgs : getAsgByName w [blk.autoScalingGroupName] with e | gs <;> rw [hgs] at hmc <;>
    dsimp only at hmc
  · exact absurd hmc (by simp)
  rcases gs with _ | ⟨a0, rest0⟩ <;> dsimp only at hmc
  · exact absurd hmc (by simp)
  simp only [Except.ok.injEq, Prod.mk.injEq] at hmc
  intro g' hg' hgn
  rw [← h.1, ← hmc.2.1] at hg'
  obtain ⟨a1, ha1, hc⟩ := mem_updateAsgIn _ _ _ g' hg'
  rcases hc with ⟨-, hg2e⟩ | ⟨ha0n, hg2e⟩
  · rw [hg2e]
    exact ⟨rfl, rfl, rfl⟩
  · rw [hg2e] at hgn
    exact absurd hgn ha0n

end AzChaos
namespace AzChaos

/-- Rolling back one subnet state block re-associates the block's subnet
with its recorded Before ACL. -/
theorem network_block_restore (w : Ec2World) (s : SubnetStateBlock) (newId : String)
    (w' : Ec2World) (t : List ApiCall)
    (h : replaceNetworkAclAssociationApi w s.beforeNetworkAclId s.afterNetworkAclAssociationId =
      .ok (newId, w', t))
    (hsub : ∀ acl ∈ w.acls, ∀ a ∈ acl.associations,
      a.networkAclAssociationId = s.afterNetworkAclAssociationId → a.subnetId = s.subnetId)
    (hbefore : ∃ aclB ∈ w.acls, aclB.networkAclId = s.beforeNetworkAclId) :
    ∃ acl ∈ w'.acls, acl.networkAclId = s.beforeNetworkAclId ∧
      ∃ a ∈ acl.associations, a.subnetId = s.subnetId ∧
        a.networkAclId = s.beforeNetworkAclId := by
  obtain ⟨src, hsrcm, assoc, hassocm, hX, hacls⟩ := replace_ok_src w _ _ newId w' t h
  obtain ⟨aclB, haclBm, haclBid⟩ := hbefore
  have hsubeq : assoc.subnetId = s.subnetId := hsub src hsrcm assoc hassocm hX
  rw [hacls]
  refine ⟨_, List.mem_map_of_mem _ haclBm, ?_, ?_⟩
  · dsimp only
    rw [if_pos haclBid]
    exact haclBid
  · dsimp only
    rw [if_pos haclBid]
    refine ⟨⟨newId, s.beforeNetworkAclId, assoc.subnetId⟩, ?_, hsubeq, rfl⟩
    simp

/-- `recover_az` of the asg module deletes the state file. -/
theorem asgRecoverAz_removes_file (w : AsgWorld) (fs : FS AsgDoc) (p p' : String)
    (doc : AsgDoc)
    (hval : validateFailAzPath AsgDoc.dryRun false p ("asg") fs = .ok p')
    (hfile : fs.getFile p' = some doc) (hdr : doc.dryRun = false)
    (b : Bool) (w' : AsgWorld) (fs'' : FS AsgDoc) (t : List ApiCall)
    (h : asgRecoverAz w fs p = .ok (b, w', fs'', t)) :
    fs''.getFile p' = none := by
  unfold asgRecoverAz at h
  simp only [bind, Except.bind, pure, Except.pure] at h
  rw [hval] at h
  dsimp only at h
  rw [hfile] at h
  dsimp only at h
  rw [if_neg (by simp [hdr])] at h
  rcases hloop : asgRecoverLoop w doc.autoScalingGroups with e | ⟨w1, tr⟩ <;> rw [hloop] at h <;>
    dsimp only at h
  · exact absurd h (by simp)
  simp only [Except.ok.injEq, Prod.mk.injEq] at h
  rw [← h.2.2.1]
  exact FS.getFile_remove fs p'

/-- `recover_az` of the ec2 module deletes the state file. -/
theorem ec2RecoverAz_removes_file (w : Ec2World) (fs : FS Ec2Doc) (p p' : String)
    (doc : Ec2Doc)
    (hval : validateFailAzPath Ec2Doc.dryRun false p ("ec2") fs = .ok p')
    (hfile : fs.getFile p' = some doc) (hdr : doc.dryRun = false)
    (b : Bool) (w' : Ec2World) (fs'' : FS Ec2Doc) (t : List ApiCall)
    (h : ec2RecoverAz w fs p = .ok (b, w', fs'', t)) :
    fs''.getFile p' = none := by
  unfold ec2RecoverAz at h
  simp only [bind, Except.bind, pure, Except.pure] at h
  rw [hval] at h
  dsimp only at h
  rw [hfile] at h
  dsimp only at h
  rw [if_neg (by simp [hdr])] at h
  repeat' split at h
  all_goals
    first
    | (simp only [Except.ok.injEq, Prod.mk.injEq] at h
       rw [← h.2.2.1]
       exact FS.getFile_remove fs p')
    | exact absurd h (by simp)

/-- An instance record whose After state is not `stopping` (in
particular a one-time spot instance the failure terminated, recorded
with After `shutting-down`) is never a rollback target. -/
theorem not_target_of_not_stopping (doc : Ec2Doc) (b : InstanceStateBlock)
    (has : b.afterState ≠ ("stopping")) :
    b ∉ targetInstancesOf doc := by
  intro hmem
  unfold targetInstancesOf at hmem
  rw [List.mem_filter] at hmem
  have := hmem.2
  simp only [decide_eq_true_eq] at this
  exact has this.2

/-- With no subnet blocks and no eligible instance targets, `recover_az`
of the ec2 module completes without issuing any call and without
touching the world: terminated instances are left as they are. -/
theorem ec2RecoverAz_skips_all (w : Ec2World) (fs : FS Ec2Doc) (p p' : String)
    (doc : Ec2Doc)
    (hval : validateFailAzPath Ec2Doc.dryRun false p ("ec2") fs = .ok p')
    (hfile : fs.getFile p' = some doc) (hdr : doc.dryRun = false)
    (hsub : doc.subnets = []) (hti : targetInstancesOf doc = []) :
    ec2RecoverAz w fs p = .ok (true, w, fs.remove p', []) := by
  unfold ec2RecoverAz
  simp only [bind, Except.bind, pure, Except.pure]
  rw [hval]
  dsimp only
  rw [hfile]
  dsimp only
  rw [if_neg (by simp [hdr])]
  rw [if_neg (by simp [hsub])]
  rw [if_neg (by simp [hti])]
  rfl

end AzChaos
namespace AzChaos

def c1World : Ec2World :=
  { instances := [{ instanceId := ("i-spot"), state := ("running"), az := ("az-a"),
                    lifecycle := ("spot"), spotInstanceRequestId := some ("sir-1"),
                    tags := [(("AZ_FAILURE"), ("True"))] }],
    spotRequests := [{ spotInstanceRequestId := ("sir-1"), requestType := ("one-time"),
                       instanceId := ("i-spot") }],
    subnets := [], acls := [], nextId := 0 }

def c1Doc : Ec2Doc :=
  { availabilityZone := some ("az-a"), dryRun := false, subnets := [],
    instances := [⟨("i-spot"), ("running"), ("shutting-down")⟩] }

def c1FailedInst : Ec2Instance :=
  { instanceId := ("i-spot"), state := ("shutting-down"), az := ("az-a"),
    lifecycle := ("spot"), spotInstanceRequestId := some ("sir-1"),
    tags := [(("AZ_FAILURE"), ("True"))] }

def c1FailedWorld : Ec2World := { c1World with instances := [c1FailedInst] }

def c1SettledInst : Ec2Instance :=
  { instanceId := ("i-spot"), state := ("terminated"), az := ("az-a"),
    lifecycle := ("spot"), spotInstanceRequestId := some ("sir-1"),
    tags := [(("AZ_FAILURE"), ("True"))] }

def c1Settled : Ec2World := { c1World with instances := [c1SettledInst] }

def c1Fs : FS Ec2Doc := ⟨[(("st.ec2.json"), FsNode.file c1Doc)]⟩

/-- C1 counterexample: an instance-mode `fail_az` terminates a one-time
spot instance (recorded with Before `running`, After `shutting-down`);
the subsequent `recover_az` succeeds and deletes the state file, yet the
instance is never restored to its recorded Before state — rollback only
restarts instances that are currently `stopped`. -/
theorem fail_az_recover_az_round_trip_counterexample :
    ec2FailAz c1World ⟨[]⟩ (some ("az-a")) (some false) ("instance") none ("st") =
      .ok (c1Doc, c1FailedWorld, c1Fs,
        [ApiCall.cancelSpotRequestsCall [("sir-1")],
         ApiCall.terminateInstancesCall [("i-spot")]]) ∧
    ec2RecoverAz c1Settled c1Fs ("st") = .ok (true, c1Settled, ⟨[]⟩, []) ∧
    (∃ b ∈ c1Doc.instances, b.instanceId = ("i-spot") ∧ b.beforeState = ("running")) ∧
    lookupInstance c1Settled ("i-spot") = some c1SettledInst ∧
    c1SettledInst.state ≠ ("running") ∧
    (FS.getFile (⟨[]⟩ : FS Ec2Doc) ("st.ec2.json")) = none := by
  refine ⟨(by rfl), (by rfl), ⟨⟨("i-spot"), ("running"), ("shutting-down")⟩, by decide⟩,
    (by rfl), (by decide), (by rfl)⟩

/-- C1 (amended): a successful `recover_az` restores the recorded Before
values of the resources it rolls back — ASG subnets with `AZRebalance`
resumed, ASG capacity, and each subnet's Before ACL association — and
deletes the state file; but instance rollback is partial: an instance
record whose After state is not `stopping` (one-time spot instances are
terminated and recorded as `shutting-down`) is never a rollback target,
and with no eligible target the recover completes leaving the
terminated instance as is (see the counterexample). -/
theorem fail_az_recover_restores_recorded_state :
    (∀ (w : AsgWorld) (blk : AsgStateBlock) (S : List String),
      blk.beforeAzRebalance = some true → blk.beforeSubnetIds = some S →
      blk.beforeMinSize = none →
      ∀ (w' : AsgWorld) (t : List ApiCall), asgRecoverBlock w blk = .ok (w', t) →
      ∀ g' ∈ w'.asgs, g'.name = blk.autoScalingGroupName →
        g'.subnetIds = S ∧ ("AZRebalance") ∉ g'.suspendedProcesses) ∧
    (∀ (w : AsgWorld) (blk : AsgStateBlock) (mn mx dc : Nat),
      blk.beforeAzRebalance = none → blk.beforeMinSize = some mn →
      blk.beforeMaxSize = some mx → blk.beforeDesiredCapacity = some dc →
      ∀ (w' : AsgWorld) (t : List ApiCall), asgRecoverBlock w blk = .ok (w', t) →
      ∀ g' ∈ w'.asgs, g'.name = blk.autoScalingGroupName →
        g'.minSize = mn ∧ g'.maxSize = mx ∧ g'.desiredCapacity = dc) ∧
    (∀ (w : Ec2World) (s : SubnetStateBlock) (newId : String) (w' : Ec2World) (t : List ApiCall),
      replaceNetworkAclAssociationApi w s.beforeNetworkAclId s.afterNetworkAclAssociationId =
        .ok (newId, w', t) →
      (∀ acl ∈ w.acls, ∀ a ∈ acl.associations,
        a.networkAclAssociationId = s.afterNetworkAclAssociationId → a.subnetId = s.subnetId) →
      (∃ aclB ∈ w.acls, aclB.networkAclId = s.beforeNetworkAclId) →
      ∃ acl ∈ w'.acls, acl.networkAclId = s.beforeNetworkAclId ∧
        ∃ a ∈ acl.associations, a.subnetId = s.subnetId ∧
          a.networkAclId = s.beforeNetworkAclId) ∧
    (∀ (w : AsgWorld) (fs : FS AsgDoc) (p p' : String) (doc : AsgDoc),
      validateFailAzPath AsgDoc.dryRun false p ("asg") fs = .ok p' →
      fs.getFile p' = some doc → doc.dryRun = false →
      ∀ (b : Bool) (w' : AsgWorld) (fs'' : FS AsgDoc) (t : List ApiCall),
        asgRecoverAz w fs p = .ok (b, w', fs'', t) → fs''.getFile p' = none) ∧
    (∀ (w : Ec2World) (fs : FS Ec2Doc) (p p' : String) (doc : Ec2Doc),
      validateFailAzPath Ec2Doc.dryRun false p ("ec2") fs = .ok p' →
      fs.getFile p' = some doc → doc.dryRun = false →
      ∀ (b : Bool) (w' : Ec2World) (fs'' : FS Ec2Doc) (t : List ApiCall),
        ec2RecoverAz w fs p = .ok (b, w', fs'', t) → fs''.getFile p' = none) ∧
    (∀ (doc : Ec2Doc) (b : InstanceStateBlock), b.afterState ≠ ("stopping") →
      b ∉ targetInstancesOf doc) ∧
    (∀ (w : Ec2World) (fs : FS Ec2Doc) (p p' : String) (doc : Ec2Doc),
      validateFailAzPath Ec2Doc.dryRun false p ("ec2") fs = .ok p' →
      fs.getFile p' = some doc → doc.dryRun = false →
      doc.subnets = [] → targetInstancesOf doc = [] →
      ec2RecoverAz w fs p = .ok (true, w, fs.remove p', [])) := by
  refine ⟨?_, ?_, ?_, ?_, ?_, ?_, ?_⟩
  · exact fun w blk S h1 h2 h3 w' t h => asgRecoverBlock_subnets w blk S h1 h2 h3 w' t h
  · exact fun w blk mn mx dc h1 h2 h3 h4 w' t h =>
      asgRecoverBlock_capacity w blk mn mx dc h1 h2 h3 h4 w' t h
  · exact fun w s newId w' t h h2 h3 => network_block_restore w s newId w' t h h2 h3
  · exact fun w fs p p' doc h1 h2 h3 b w' fs'' t h =>
      asgRecoverAz_removes_file w fs p p' doc h1 h2 h3 b w' fs'' t h
  · exact fun w fs p p' doc h1 h2 h3 b w' fs'' t h =>
      ec2RecoverAz_removes_file w fs p p' doc h1 h2 h3 b w' fs'' t h
  · exact fun doc b h => not_target_of_not_stopping doc b h
  · exact fun w fs p p' doc h1 h2 h3 h4 h5 =>
      ec2RecoverAz_skips_all w fs p p' doc h1 h2 h3 h4 h5

end AzChaos
namespace AzChaos

def c1AsgBlk1 : AsgStateBlock :=
  { autoScalingGroupName := ("asg1"),
    beforeSubnetIds := some [("s1"), ("s2"), ("s3")],
    beforeAzRebalance := some true,
    beforeMinSize := none, beforeMaxSize := none, beforeDesiredCapacity := none,
    afterSubnetIds := some [("s2"), ("s3")], afterAzRebalance := some false,
    afterMinSize := none, afterMaxSize := none, afterDesiredCapacity := none }

def c1AsgBlk2 : AsgStateBlock :=
  { autoScalingGroupName := ("asg2"),
    beforeSubnetIds := none, beforeAzRebalance := none,
    beforeMinSize := some 5, beforeMaxSize := some 10, beforeDesiredCapacity := some 7,
    afterSubnetIds := none, afterAzRebalance := none,
    afterMinSize := some 0, afterMaxSize := some 0, afterDesiredCapacity := some 0 }

def asgRecoveredW1 : AsgWorld :=
  { asgs := [
      { name := ("asg1"), availabilityZones := [("az-a"), ("az-b"), ("az-c")],
        suspendedProcesses := [], subnetIds := [("s1"), ("s2"), ("s3")],
        minSize := 1, maxSize := 3, desiredCapacity := 2,
        tags := [(("AZ_FAILURE"), ("True"))] },
      { name := ("asg2"), availabilityZones := [("az-a")],
        suspendedProcesses := [], subnetIds := [("s1")],
        minSize := 0, maxSize := 0, desiredCapacity := 0,
        tags := [(("AZ_FAILURE"), ("True"))] },
      { name := ("asg3"), availabilityZones := [("az-a")],
        suspendedProcesses := [], subnetIds := [("s1")],
        minSize := 1, maxSize := 1, desiredCapacity := 1,
        tags := [] } ],
    subnets := [⟨("s1"), ("az-a")⟩, ⟨("s2"), ("az-b")⟩, ⟨("s3"), ("az-c")⟩] }

def netRestoredW : Ec2World :=
  { instances := [], spotRequests := [],
    subnets := netW0.subnets,
    acls := [{ networkAclId := ("acl-main"), vpcId := ("vpc-1"), tags := [],
               associations := [{ networkAclAssociationId := ("?xxx"),
                                  networkAclId := ("acl-main"), subnetId := ("subnet-1") }],
               entries := [(100, false), (100, true)] },
             { networkAclId := ("!"), vpcId := ("vpc-1"),
               tags := [(("Name"), ("blackhole_nacl"))],
               associations := [{ networkAclAssociationId := ("?xx"),
                                  networkAclId := ("!"), subnetId := ("subnet-2") }],
               entries := [(32767, false), (32767, true), (1, false), (1, true)] }],
    nextId := 4 }

def asgC1Fs : FS AsgDoc := FS.write ⟨[]⟩ ("st.asg.json") asgWitnessDoc

/-- C1 witness: rolling back the recorded blocks restores the witness
world exactly (subnets, `AZRebalance`, capacity), re-associates the
blackholed subnet with its Before ACL, deletes the state files, and the
terminated one-time spot record is skipped. -/
theorem fail_az_recover_restores_recorded_state_witness :
    (∀ g' ∈ asgRecoveredW1.asgs, g'.name = c1AsgBlk1.autoScalingGroupName →
      g'.subnetIds = [("s1"), ("s2"), ("s3")] ∧ ("AZRebalance") ∉ g'.suspendedProcesses) ∧
    (∀ g' ∈ asgWitnessWorld.asgs, g'.name = c1AsgBlk2.autoScalingGroupName →
      g'.minSize = 5 ∧ g'.maxSize = 10 ∧ g'.desiredCapacity = 7) ∧
    (∃ acl ∈ netRestoredW.acls,
      acl.networkAclId = (netBlks0.get ⟨0, by decide⟩).beforeNetworkAclId ∧
      ∃ a ∈ acl.associations, a.subnetId = (netBlks0.get ⟨0, by decide⟩).subnetId ∧
        a.networkAclId = (netBlks0.get ⟨0, by decide⟩).beforeNetworkAclId) ∧
    (FS.getFile (⟨[]⟩ : FS AsgDoc) ("st.asg.json") = none) ∧
    (FS.getFile (⟨[]⟩ : FS Ec2Doc) ("st.ec2.json") = none) ∧
    ((⟨("i-spot"), ("running"), ("shutting-down")⟩ : InstanceStateBlock) ∉
      targetInstancesOf c1Doc) ∧
    ec2RecoverAz c1Settled c1Fs ("st") = .ok (true, c1Settled, FS.remove c1Fs ("st.ec2.json"), []) :=
  ⟨fail_az_recover_restores_recorded_state.1 asgWitnessWorldAfter c1AsgBlk1
      [("s1"), ("s2"), ("s3")] rfl rfl rfl asgRecoveredW1
      [ApiCall.resumeAsgCall ("asg1") (some [("AZRebalance")]),
       ApiCall.updateAsgSubnetsCall ("asg1") [("s1"), ("s2"), ("s3")]] (by rfl),
   fail_az_recover_restores_recorded_state.2.1 asgRecoveredW1 c1AsgBlk2 5 10 7
      rfl rfl rfl rfl asgWitnessWorld
      [ApiCall.updateAsgCapacityCall ("asg2") 5 10 7] (by rfl),
   fail_az_recover_restores_recorded_state.2.2.1 netW1 (netBlks0.get ⟨0, by decide⟩)
      ("?xxx") netRestoredW
      [ApiCall.replaceNaclAssociationCall ("acl-main") ("?x") ("?xxx")] (by rfl)
      (by decide)
      ⟨{ networkAclId := ("acl-main"), vpcId := ("vpc-1"), tags := [],
         associations := [], entries := [(100, false), (100, true)] }, by decide, rfl⟩,
   fail_az_recover_restores_recorded_state.2.2.2.1 asgWitnessWorldAfter asgC1Fs ("st")
      ("st.asg.json") asgWitnessDoc (by rfl) (by rfl) rfl true asgWitnessWorld ⟨[]⟩
      [ApiCall.resumeAsgCall ("asg1") (some [("AZRebalance")]),
       ApiCall.updateAsgSubnetsCall ("asg1") [("s1"), ("s2"), ("s3")],
       ApiCall.updateAsgCapacityCall ("asg2") 5 10 7] (by rfl),
   fail_az_recover_restores_recorded_state.2.2.2.2.1 c1Settled c1Fs ("st")
      ("st.ec2.json") c1Doc (by rfl) (by rfl) rfl true c1Settled ⟨[]⟩ [] (by rfl),
   fail_az_recover_restores_recorded_state.2.2.2.2.2.1 c1Doc
      ⟨("i-spot"), ("running"), ("shutting-down")⟩ (by decide),
   fail_az_recover_restores_recorded_state.2.2.2.2.2.2 c1Settled c1Fs ("st")
      ("st.ec2.json") c1Doc (by rfl) (by rfl) rfl rfl (by rfl)⟩

end AzChaos
